import Mathlib

/-!
# Verification of the zone-os memory-management core

Shallow embedding of the memory-management subsystems of zone-os
(`src/kernel/mm/pmm.c`, `src/kernel/arch/x86_64/memory/vmm_arch.c`,
`src/kernel/mm/heap/{buddy,slab,heap}.c`) together with proofs about the
testable properties stated in the project specification.

Modelling conventions:
* `u64` values are Lean `Nat`s; the code's bitwise operations are written with
  `Nat.land`/`Nat.lor`/shifts on the same masks the C uses.  Wrap-around
  (`% 2^64`) is written out explicitly at the spots where a C expression can
  actually overflow and the overflow is observable (e.g. `kcalloc`'s
  `nmemb * size`); counters that the code only moves under guards that keep
  them in range are plain `Nat`s.
* The PMM page bitmap (1 bit per page, packed into bytes in C) is modelled as
  the function `Nat → Bool` of its bits; the C code accesses it exclusively
  through the single-bit macros `BITMAP_SET_BIT`/`BITMAP_CLEAR_BIT`/
  `BITMAP_TEST_BIT`, so the byte packing is not observable.
* Spinlock acquire/release, TLB maintenance (`invlpg`, CR3 reloads) and
  `klog_*` calls have no effect on the modelled state and are dropped.
* C `for` loops whose index can jump (the PMM sliding-window searches) are
  translated to structurally recursive functions on an explicit fuel that is
  exactly the number of loop iterations still possible, so the Lean functions
  compute the same results as the loops.
-/

namespace ZoneOS

/-! ## Page-size macros from `include/arch/x86_64/paging.h` -/

/-- `PAGE_SIZE` (4 KiB pages). -/
def PAGE_SIZE : Nat := 4096

/-- `ADDR_TO_PAGE(addr) = addr >> 12`. -/
def ADDR_TO_PAGE (addr : Nat) : Nat := addr >>> 12

/-- `PAGE_TO_ADDR(page) = page << 12`. -/
def PAGE_TO_ADDR (page : Nat) : Nat := page <<< 12

/-- `PAGE_ALIGN_DOWN(addr) = addr & ~PAGE_MASK`. -/
def PAGE_ALIGN_DOWN (addr : Nat) : Nat := Nat.land addr 0xFFFFFFFFFFFFF000

/-- `PAGE_ALIGN_UP(addr) = (addr + PAGE_MASK) & ~PAGE_MASK` (u64 arithmetic). -/
def PAGE_ALIGN_UP (addr : Nat) : Nat :=
  Nat.land ((addr + 4095) % 2 ^ 64) 0xFFFFFFFFFFFFF000

/-- `IS_PAGE_ALIGNED(addr) = ((addr & PAGE_MASK) == 0)`. -/
def IS_PAGE_ALIGNED (addr : Nat) : Bool := Nat.land addr 4095 == 0

namespace PMM

/-! ## Physical Memory Manager (`mm/pmm.c`) -/

/-- `memory_type_t` from `include/arch/memory.h`. -/
inductive MemoryType where
  | usable
  | reserved
  | acpiReclaimable
  | acpiNvs
  | bad
  | bootloaderReclaimable
  | executableAndModules
  | framebuffer
  deriving DecidableEq, Repr

/-- The three region kinds whose page-aligned interior `pmm_init` clears in
the bitmap (`MEMORY_USABLE`, `MEMORY_BOOTLOADER_RECLAIMABLE`,
`MEMORY_ACPI_RECLAIMABLE`). -/
def MemoryType.isReclaimable : MemoryType → Bool
  | .usable => true
  | .bootloaderReclaimable => true
  | .acpiReclaimable => true
  | _ => false

/-- `memory_region_t`. -/
structure MemoryRegion where
  base : Nat
  length : Nat
  type : MemoryType
  deriving Repr

/-- The PMM state: the fields of the C globals `pmm_state` (bitmap, sizes,
hint) and `pmm_stats` (counters) combined into one record.  In the bitmap
`true` means used/reserved and `false` means free, exactly as in the C
bitmap's bits. -/
structure PmmState where
  initialized : Bool
  bitmap : Nat → Bool
  bitmap_size : Nat
  total_pages : Nat
  next_free_hint : Nat
  total_memory_bytes : Nat
  usable_memory_bytes : Nat
  -- pmm_stats_t
  stats_total_pages : Nat
  free_pages : Nat
  used_pages : Nat
  reserved_pages : Nat
  bitmap_pages : Nat
  alloc_count : Nat
  free_count : Nat
  largest_free_run : Nat

/-- `pmm_result_t`. -/
inductive PmmResult where
  | success
  | notInitialized
  | outOfMemory
  | invalidAddress
  | alreadyFree
  deriving DecidableEq, Repr

/-- Point update of the bitmap function (one `BITMAP_SET_BIT` /
`BITMAP_CLEAR_BIT` on bit `i`). -/
def bmSet (bm : Nat → Bool) (i : Nat) (v : Bool) : Nat → Bool :=
  fun j => if j = i then v else bm j

/-- `pmm_mark_page_used`: sets bit `page_index` if it is in range, otherwise
silently ignores. -/
def pmm_mark_page_used (s : PmmState) (i : Nat) : PmmState :=
  if i < s.total_pages then { s with bitmap := bmSet s.bitmap i true } else s

/-- `pmm_mark_page_free`: clears bit `page_index` if it is in range. -/
def pmm_mark_page_free (s : PmmState) (i : Nat) : PmmState :=
  if i < s.total_pages then { s with bitmap := bmSet s.bitmap i false } else s

/-- `pmm_is_page_used_internal`: out-of-range pages read as used. -/
def pmm_is_page_used_internal (s : PmmState) (i : Nat) : Bool :=
  if i < s.total_pages then s.bitmap i else true

/-- Free pages among page indices `[0, n)` (the counting loop of
`pmm_update_stats` / `pmm_check_integrity`). -/
def freeBelow (s : PmmState) : Nat → Nat
  | 0 => 0
  | n + 1 => freeBelow s n + (if pmm_is_page_used_internal s n then 0 else 1)

/-- Used pages among page indices `[0, n)`. -/
def usedBelow (s : PmmState) : Nat → Nat
  | 0 => 0
  | n + 1 => usedBelow s n + (if pmm_is_page_used_internal s n then 1 else 0)

/-- `pmm_update_stats`: recompute `free_pages`/`used_pages`/`total_pages` by a
full bitmap scan. -/
def pmm_update_stats (s : PmmState) : PmmState :=
  { s with
    free_pages := freeBelow s s.total_pages
    used_pages := usedBelow s s.total_pages
    stats_total_pages := s.total_pages }

/-- `pmm_update_hint_locked`: clamp the hint back to 0 when it runs past the
end of the managed range. -/
def pmm_update_hint_locked (s : PmmState) (new_hint : Nat) : PmmState :=
  if new_hint < s.total_pages then { s with next_free_hint := new_hint }
  else { s with next_free_hint := 0 }

/-- One ascending scan of `pmm_find_free_page_from`: first free page in
`[i, i + fuel)`. -/
def scanFreeAux (s : PmmState) : Nat → Nat → Option Nat
  | 0, _ => none
  | fuel + 1, i =>
    if pmm_is_page_used_internal s i then scanFreeAux s fuel (i + 1) else some i

/-- First free page index in `[start, stop)` (a `for` loop of
`pmm_find_free_page_from`). -/
def scanFree (s : PmmState) (start stop : Nat) : Option Nat :=
  scanFreeAux s (stop - start) start

/-- `pmm_find_free_page_from`: search `[hint, total)`, then wrap to
`[0, hint)`; `total_pages` is the not-found sentinel. -/
def pmm_find_free_page_from (s : PmmState) (start_hint : Nat) : Nat :=
  match scanFree s start_hint s.total_pages with
  | some i => i
  | none =>
    match scanFree s 0 start_hint with
    | some i => i
    | none => s.total_pages

/-- Offset of the first used page in the window `[p, p + n)` (the inner
`for (i...)` loop of the sliding-window searches). -/
def firstUsedFrom (s : PmmState) (p : Nat) : Nat → Option Nat
  | 0 => none
  | n + 1 =>
    if pmm_is_page_used_internal s p then some 0
    else (firstUsedFrom s (p + 1) n).map (· + 1)

/-- The sliding-window search loop shared by `pmm_find_free_pages_from`,
`pmm_alloc_pages_in_range` and `pmm_alloc_aligned`: starting at `start`,
while `start < bound && start + count <= stop`, candidates failing `alignOk`
are skipped by one, and on meeting a used page at offset `i` the start jumps
to `start + i + 1` (the `start += i` optimisation plus the loop increment).
The fuel argument `bound - start` is exactly the number of remaining
candidate positions, so the recursion computes the same result as the loop. -/
def findRunAux (s : PmmState) (count : Nat) (alignOk : Nat → Bool)
    (stop bound : Nat) : Nat → Nat → Option Nat
  | 0, _ => none
  | fuel + 1, start =>
    if start < bound && start + count ≤ stop then
      if alignOk start then
        match firstUsedFrom s start count with
        | none => some start
        | some i => findRunAux s count alignOk stop bound fuel (start + i + 1)
      else findRunAux s count alignOk stop bound fuel (start + 1)
    else none

/-- Entry point for one sliding-window phase over `[start, …)`. -/
def findRun (s : PmmState) (count : Nat) (alignOk : Nat → Bool)
    (stop bound start : Nat) : Option Nat :=
  findRunAux s count alignOk stop bound (bound - start) start

/-- `pmm_find_free_pages_from`: sliding-window search from the hint with
wrap-around; `total_pages` is the not-found sentinel.  Phase 1 runs while
`start + count <= total`, phase 2 additionally while `start < start_hint`. -/
def pmm_find_free_pages_from (s : PmmState) (start_hint : Nat) (count : Nat) : Nat :=
  match findRun s count (fun _ => true) s.total_pages (s.total_pages + 1) start_hint with
  | some r => r
  | none =>
    match findRun s count (fun _ => true) s.total_pages start_hint 0 with
    | some r => r
    | none => s.total_pages

/-- Mark pages `[start, start + n)` used, ascending (the marking loop of the
allocation paths). -/
def markUsedRange (s : PmmState) (start : Nat) : Nat → PmmState
  | 0 => s
  | n + 1 => markUsedRange (pmm_mark_page_used s start) (start + 1) n

/-- Mark pages `[start, start + n)` free, ascending. -/
def markFreeRange (s : PmmState) (start : Nat) : Nat → PmmState
  | 0 => s
  | n + 1 => markFreeRange (pmm_mark_page_free s start) (start + 1) n

/-- `pmm_alloc_page`.  Returns the physical address of the allocated frame
and the successor state; `none` is the C `NULL` return (no state change on
any failure path). -/
def pmm_alloc_page (s : PmmState) : Option (Nat × PmmState) :=
  if !s.initialized then none
  else if s.free_pages = 0 then none
  else
    let page_index := pmm_find_free_page_from s s.next_free_hint
    if s.total_pages ≤ page_index then none
    else
      let s1 := pmm_mark_page_used s page_index
      let s2 := { s1 with
        free_pages := s1.free_pages - 1
        used_pages := s1.used_pages + 1
        alloc_count := s1.alloc_count + 1 }
      let s3 := pmm_update_hint_locked s2 (page_index + 1)
      some (PAGE_TO_ADDR page_index, s3)

/-- `pmm_alloc_pages`. -/
def pmm_alloc_pages (s : PmmState) (count : Nat) : Option (Nat × PmmState) :=
  if !s.initialized || count = 0 then none
  else if s.free_pages < count then none
  else
    let start_page := pmm_find_free_pages_from s s.next_free_hint count
    if s.total_pages ≤ start_page then none
    else
      let s1 := markUsedRange s start_page count
      let s2 := { s1 with
        free_pages := s1.free_pages - count
        used_pages := s1.used_pages + count
        alloc_count := s1.alloc_count + 1 }
      let s3 := pmm_update_hint_locked s2 (start_page + count)
      some (PAGE_TO_ADDR start_page, s3)

/-- `pmm_free_page`.  Validates the pointer (non-null, aligned, in range,
currently used) and frees the single frame; pulls the hint backwards. -/
def pmm_free_page (s : PmmState) (addr : Nat) : PmmResult × PmmState :=
  if !s.initialized then (.notInitialized, s)
  else if addr = 0 then (.invalidAddress, s)
  else if addr % PAGE_SIZE ≠ 0 then (.invalidAddress, s)
  else
    let page_index := ADDR_TO_PAGE addr
    if s.total_pages ≤ page_index then (.invalidAddress, s)
    else if !pmm_is_page_used_internal s page_index then (.alreadyFree, s)
    else
      let s1 := pmm_mark_page_free s page_index
      let s2 := { s1 with
        free_pages := s1.free_pages + 1
        used_pages := s1.used_pages - 1
        free_count := s1.free_count + 1 }
      let s3 :=
        if page_index < s2.next_free_hint then pmm_update_hint_locked s2 page_index
        else s2
      (.success, s3)

/-- The pre-validation loop of `pmm_free_pages`: is some page of the window
`[start, start + n)` currently free? -/
def anyFreeIn (s : PmmState) (start : Nat) : Nat → Bool
  | 0 => false
  | n + 1 => !pmm_is_page_used_internal s start || anyFreeIn s (start + 1) n

/-- `pmm_free_pages`: validate the whole range before clearing any bit. -/
def pmm_free_pages (s : PmmState) (addr : Nat) (count : Nat) : PmmResult × PmmState :=
  if !s.initialized then (.notInitialized, s)
  else if addr = 0 || count = 0 then (.invalidAddress, s)
  else if addr % PAGE_SIZE ≠ 0 then (.invalidAddress, s)
  else
    let start_page := ADDR_TO_PAGE addr
    if s.total_pages < start_page + count then (.invalidAddress, s)
    else if anyFreeIn s start_page count then (.alreadyFree, s)
    else
      let s1 := markFreeRange s start_page count
      let s2 := { s1 with
        free_pages := s1.free_pages + count
        used_pages := s1.used_pages - count
        free_count := s1.free_count + 1 }
      let s3 :=
        if start_page < s2.next_free_hint then pmm_update_hint_locked s2 start_page
        else s2
      (.success, s3)

/-- `pmm_alloc_pages_in_range`. -/
def pmm_alloc_pages_in_range (s : PmmState) (count min_addr max_addr : Nat) :
    Option (Nat × PmmState) :=
  if !s.initialized || count = 0 || max_addr ≤ min_addr then none
  else
    let start_page := ADDR_TO_PAGE (PAGE_ALIGN_UP min_addr)
    let end_page := ADDR_TO_PAGE (PAGE_ALIGN_DOWN max_addr)
    if s.total_pages ≤ start_page then none
    else
      let end_page := if s.total_pages < end_page then s.total_pages else end_page
      if end_page < start_page + count then none
      else
        match findRun s count (fun _ => true) end_page (end_page + 1) start_page with
        | none => none
        | some p =>
          let s1 := markUsedRange s p count
          let s2 := { s1 with
            free_pages := s1.free_pages - count
            used_pages := s1.used_pages + count
            alloc_count := s1.alloc_count + 1 }
          let s3 := pmm_update_hint_locked s2 (p + count)
          some (PAGE_TO_ADDR p, s3)

/-- `pmm_alloc_aligned`: first-fit from the hint (then wrap) restricted to
candidates whose physical address is a multiple of `alignment`. -/
def pmm_alloc_aligned (s : PmmState) (pages alignment : Nat) :
    Option (Nat × PmmState) :=
  if !s.initialized || pages = 0 then none
  else if alignment < PAGE_SIZE || Nat.land alignment (alignment - 1) ≠ 0 then none
  else
    let ok : Nat → Bool := fun p => PAGE_TO_ADDR p % alignment == 0
    let phase1 := findRun s pages ok s.total_pages (s.total_pages + 1) s.next_free_hint
    let result :=
      match phase1 with
      | some p => some p
      | none => findRun s pages ok s.total_pages s.next_free_hint 0
    match result with
    | none => none
    | some p =>
      let s1 := markUsedRange s p pages
      let s2 := { s1 with
        free_pages := s1.free_pages - pages
        used_pages := s1.used_pages + pages
        alloc_count := s1.alloc_count + 1 }
      let s3 := pmm_update_hint_locked s2 (p + pages)
      some (PAGE_TO_ADDR p, s3)

/-- `pmm_is_page_free`. -/
def pmm_is_page_free (s : PmmState) (addr : Nat) : Bool :=
  if !s.initialized || addr = 0 then false
  else if addr % PAGE_SIZE ≠ 0 then false
  else
    let page_index := ADDR_TO_PAGE addr
    if s.total_pages ≤ page_index then false
    else !pmm_is_page_used_internal s page_index

/-- `pmm_check_integrity`: recount the bitmap and compare with the cached
counters. -/
def pmm_check_integrity (s : PmmState) : Bool :=
  if !s.initialized then false
  else
    freeBelow s s.total_pages == s.free_pages &&
    usedBelow s s.total_pages == s.used_pages

/-- `region->base + region->length` as the C u64 addition. -/
def regionEnd (r : MemoryRegion) : Nat := (r.base + r.length) % 2 ^ 64

/-- u64 subtraction `a - b` (with wrap-around) for `a, b < 2^64`. -/
def u64sub (a b : Nat) : Nat := (a + 2 ^ 64 - b % 2 ^ 64) % 2 ^ 64

/-- Step 6 of `pmm_init` for one region: clear the page-aligned interior of a
reclaimable region in the bitmap, count other regions as reserved. -/
def initMarkRegion (st : PmmState) (r : MemoryRegion) : PmmState :=
  let aligned_start := PAGE_ALIGN_UP r.base
  let aligned_end := PAGE_ALIGN_DOWN (regionEnd r)
  if aligned_end ≤ aligned_start then st
  else
    let start_page := ADDR_TO_PAGE aligned_start
    let end_page := ADDR_TO_PAGE aligned_end - 1
    if r.type.isReclaimable then
      markFreeRange st start_page (end_page + 1 - start_page)
    else
      { st with reserved_pages := st.reserved_pages + (end_page - start_page + 1) }

/-- `pmm_init`.  `none` covers both failure returns (`PMM_NOT_INITIALIZED`
when the HAL reports no regions, `PMM_OUT_OF_MEMORY` when no usable region
can host the bitmap); on success the fully initialised state is returned.
The bitmap placement condition is the C's: a `MEMORY_USABLE` region with
`length >= bitmap_size` whose aligned-base slack (u64 arithmetic) is at least
`bitmap_size`. -/
def pmm_init (regions : List MemoryRegion) : Option PmmState :=
  if regions.isEmpty then none
  else
    let total_memory := regions.foldl (fun acc r => (acc + r.length) % 2 ^ 64) 0
    let highest := regions.foldl (fun acc r => max acc (regionEnd r)) 0
    let usable := regions.foldl
      (fun acc r => if r.type.isReclaimable then (acc + r.length) % 2 ^ 64 else acc) 0
    let total_pages := ADDR_TO_PAGE highest
    let bitmap_size := (total_pages + 7) / 8
    let bitmap_pages_needed := PAGE_ALIGN_UP bitmap_size / PAGE_SIZE
    match regions.find? (fun r =>
        r.type = MemoryType.usable && bitmap_size ≤ r.length &&
        bitmap_size ≤ u64sub (regionEnd r) (PAGE_ALIGN_UP r.base)) with
    | none => none
    | some r =>
      let bitmap_addr := PAGE_ALIGN_UP r.base
      -- step 5: memset(bitmap, 0xFF, ...): everything used
      let s0 : PmmState :=
        { initialized := false
          bitmap := fun _ => true
          bitmap_size := bitmap_size
          total_pages := total_pages
          next_free_hint := 0
          total_memory_bytes := total_memory
          usable_memory_bytes := usable
          stats_total_pages := 0
          free_pages := 0
          used_pages := 0
          reserved_pages := 0
          bitmap_pages := bitmap_pages_needed
          alloc_count := 0
          free_count := 0
          largest_free_run := 0 }
      -- step 6: region-type marking
      let s1 := regions.foldl initMarkRegion s0
      -- step 7: re-protect the pages backing the bitmap itself
      let bitmap_start_page := ADDR_TO_PAGE bitmap_addr
      let bitmap_end_page := ADDR_TO_PAGE ((bitmap_addr + bitmap_size + 2 ^ 64 - 1) % 2 ^ 64)
      let s2 := markUsedRange s1 bitmap_start_page (bitmap_end_page + 1 - bitmap_start_page)
      -- step 8: null-pointer trap
      let s3 := pmm_mark_page_used s2 0
      -- step 9: recount statistics, reset the hint, mark initialised
      let s4 := pmm_update_stats s3
      let s5 := pmm_update_hint_locked s4 0
      some { s5 with initialized := true }

/-- A completed public mutating PMM operation, for stating the quiescent-point
invariant: the argument lists of `pmm_alloc_page`, `pmm_alloc_pages`,
`pmm_free_page`, `pmm_free_pages`, `pmm_alloc_pages_in_range` and
`pmm_alloc_aligned`. -/
inductive PmmOp where
  | allocPage
  | allocPages (count : Nat)
  | freePage (addr : Nat)
  | freePages (addr count : Nat)
  | allocPagesInRange (count min_addr max_addr : Nat)
  | allocAligned (pages alignment : Nat)

/-- The state after running one public operation (failed calls leave the
state unchanged, as in the C code). -/
def pmm_apply_op (s : PmmState) : PmmOp → PmmState
  | .allocPage =>
    match pmm_alloc_page s with
    | some (_, s') => s'
    | none => s
  | .allocPages count =>
    match pmm_alloc_pages s count with
    | some (_, s') => s'
    | none => s
  | .freePage addr => (pmm_free_page s addr).2
  | .freePages addr count => (pmm_free_pages s addr count).2
  | .allocPagesInRange count lo hi =>
    match pmm_alloc_pages_in_range s count lo hi with
    | some (_, s') => s'
    | none => s
  | .allocAligned pages align =>
    match pmm_alloc_aligned s pages align with
    | some (_, s') => s'
    | none => s

/-- The state after a sequence of completed public PMM operations. -/
def pmm_apply_ops (s : PmmState) (ops : List PmmOp) : PmmState :=
  ops.foldl pmm_apply_op s

/-- The quiescent-point invariant: the PMM is initialised and the cached
`free_pages`/`used_pages` counters agree with a full recount of the bitmap. -/
def pmmInv (s : PmmState) : Prop :=
  s.initialized = true ∧
  s.free_pages = freeBelow s s.total_pages ∧
  s.used_pages = usedBelow s s.total_pages

/-- Concrete memory map used to instantiate the PMM scenario claims:
a usable region `[0x1000, 0x6000)` (the bitmap lands on page 1) and a
reserved region `[0x6000, 0x8000)`; 8 pages total. -/
def pmmDemoRegions : List MemoryRegion :=
  [⟨0x1000, 0x5000, MemoryType.usable⟩, ⟨0x6000, 0x2000, MemoryType.reserved⟩]

/-- The initialised PMM state over `pmmDemoRegions` (free pages: 2..5). -/
def pmmDemoState : PmmState := (pmm_init pmmDemoRegions).get (by decide)

/-- First demo allocation (returns page 2 and the successor state). -/
def pmmDemoAlloc1 : Nat × PmmState := (pmm_alloc_page pmmDemoState).get (by decide)

/-- Second demo allocation (returns page 3 and the successor state). -/
def pmmDemoAlloc2 : Nat × PmmState := (pmm_alloc_page pmmDemoAlloc1.2).get (by decide)

/-- The page range `[start, end]` that `pmm_init` re-marks used for the
bitmap's own backing store (step 7), recomputed from the same region search
`pmm_init` performs; `none` when `pmm_init` fails to place the bitmap. -/
def pmmInitBitmapPages (regions : List MemoryRegion) : Option (Nat × Nat) :=
  let total_pages := ADDR_TO_PAGE (regions.foldl (fun acc r => max acc (regionEnd r)) 0)
  let bitmap_size := (total_pages + 7) / 8
  match regions.find? (fun r =>
      r.type = MemoryType.usable && bitmap_size ≤ r.length &&
      bitmap_size ≤ u64sub (regionEnd r) (PAGE_ALIGN_UP r.base)) with
  | none => none
  | some r =>
    let bitmap_addr := PAGE_ALIGN_UP r.base
    some (ADDR_TO_PAGE bitmap_addr,
          ADDR_TO_PAGE ((bitmap_addr + bitmap_size + 2 ^ 64 - 1) % 2 ^ 64))

/-- Page `i` lies in the page-aligned interior of region `r` — the pages
whose bits the `pmm_init` marking loop touches for `r`. -/
def pageInInterior (i : Nat) (r : MemoryRegion) : Prop :=
  ADDR_TO_PAGE (PAGE_ALIGN_UP r.base) ≤ i ∧
  i < ADDR_TO_PAGE (PAGE_ALIGN_DOWN (regionEnd r))

/-- Concrete memory map for the C10 counterexample: a reserved region that
covers physical page 0. -/
def c10Regions : List MemoryRegion :=
  [⟨0x0, 0x2000, MemoryType.reserved⟩, ⟨0x2000, 0x3000, MemoryType.usable⟩]

/-- The initialised PMM state over `c10Regions`. -/
def c10State : PmmState := (pmm_init c10Regions).get (by decide)

end PMM

namespace VMM

/-! ## x86_64 Virtual Memory Manager
(`arch/x86_64/memory/vmm_arch.c`, `include/arch/x86_64/vmm_defs.h`)

The model works in the steady state the spec's scenarios exercise
(`direct_map_ready == true`): page tables are read and written through the
direct map, a bijection between a table's physical frame address and its
kernel virtual address, so the memory of all page tables is a single store
`mem : Nat → Nat → Nat` keyed by the table's physical frame address and the
entry index.  The PMM is abstracted by the list `freeFrames` of the frames
`pmm_alloc_page` will hand out next, in order, together with the predicate
`validFrame` standing for `arch_memory_region_valid`; a `pmm_free_page`
during rollback pushes the frame back onto the head of the list (freeing
pulls the PMM search hint back to the freed frame, so it is the next one
found).  CR3 loads, TLB maintenance and the debug-only counters
(`vmm_x86_64_stats`, `space_id`) have no effect on the modelled state. -/

/-- `VMM_X86_64_ENTRIES_PER_TABLE` (512 entries per table). -/
def VMM_X86_64_ENTRIES_PER_TABLE : Nat := 512

/-- `VMM_X86_64_PRESENT` (bit 0). -/
def VMM_X86_64_PRESENT : Nat := 1

/-- `VMM_X86_64_WRITABLE` (bit 1). -/
def VMM_X86_64_WRITABLE : Nat := 2

/-- `VMM_X86_64_USER` (bit 2). -/
def VMM_X86_64_USER : Nat := 4

/-- `VMM_X86_64_CACHE_DISABLE` (bit 4). -/
def VMM_X86_64_CACHE_DISABLE : Nat := 16

/-- `VMM_X86_64_GLOBAL` (bit 8). -/
def VMM_X86_64_GLOBAL : Nat := 256

/-- `VMM_X86_64_NO_EXECUTE` (bit 63). -/
def VMM_X86_64_NO_EXECUTE : Nat := 2 ^ 63

/-- `VMM_X86_64_PHYS_ADDR_MASK` (bits 51..12). -/
def VMM_X86_64_PHYS_ADDR_MASK : Nat := 0x000FFFFFFFFFF000

/-- `VMM_X86_64_KERNEL_BASE`. -/
def VMM_X86_64_KERNEL_BASE : Nat := 0xFFFF800000000000

/-- `VMM_X86_64_DIRECT_MAP`. -/
def VMM_X86_64_DIRECT_MAP : Nat := 0xFFFF888000000000

/-- `VMM_X86_64_PML4_INDEX(vaddr)`. -/
def VMM_X86_64_PML4_INDEX (v : Nat) : Nat := (v >>> 39) &&& 0x1FF

/-- `VMM_X86_64_PDPT_INDEX(vaddr)`. -/
def VMM_X86_64_PDPT_INDEX (v : Nat) : Nat := (v >>> 30) &&& 0x1FF

/-- `VMM_X86_64_PD_INDEX(vaddr)`. -/
def VMM_X86_64_PD_INDEX (v : Nat) : Nat := (v >>> 21) &&& 0x1FF

/-- `VMM_X86_64_PT_INDEX(vaddr)`. -/
def VMM_X86_64_PT_INDEX (v : Nat) : Nat := (v >>> 12) &&& 0x1FF

/-- `VMM_X86_64_PAGE_OFFSET(vaddr)`. -/
def VMM_X86_64_PAGE_OFFSET (v : Nat) : Nat := v &&& (PAGE_SIZE - 1)

/-- `VMM_X86_64_PTE_ADDR(pte)`. -/
def VMM_X86_64_PTE_ADDR (pte : Nat) : Nat := pte &&& VMM_X86_64_PHYS_ADDR_MASK

/-- `VMM_X86_64_MAKE_PTE(phys_addr, flags)`. -/
def VMM_X86_64_MAKE_PTE (phys flags : Nat) : Nat :=
  (phys &&& VMM_X86_64_PHYS_ADDR_MASK) ||| flags

/-- `VMM_X86_64_PTE_PRESENT(pte)` as a Bool (C truthiness of `pte & 1`). -/
def VMM_X86_64_PTE_PRESENT (pte : Nat) : Bool :=
  pte &&& VMM_X86_64_PRESENT != 0

/-- `VMM_X86_64_CANONICALIZE(vaddr)`; the low mask `0x0000FFFFFFFFFFFFF`
is the source's literal (17 hex digits, bits 0..51). -/
def VMM_X86_64_CANONICALIZE (v : Nat) : Nat :=
  if v &&& (1 <<< 47) ≠ 0 then v ||| 0xFFFF000000000000
  else v &&& 0x0000FFFFFFFFFFFFF

/-- `VMM_X86_64_IS_CANONICAL(vaddr)`. -/
def VMM_X86_64_IS_CANONICAL (v : Nat) : Bool :=
  v == VMM_X86_64_CANONICALIZE v

/-- `vmm_flags_t` generic flag bits. -/
def VMM_FLAG_READ : Nat := 1

/-- `VMM_FLAG_WRITE`. -/
def VMM_FLAG_WRITE : Nat := 2

/-- `VMM_FLAG_EXEC`. -/
def VMM_FLAG_EXEC : Nat := 4

/-- `VMM_FLAG_USER`. -/
def VMM_FLAG_USER : Nat := 8

/-- `VMM_FLAG_GLOBAL`. -/
def VMM_FLAG_GLOBAL : Nat := 16

/-- `VMM_FLAG_NO_CACHE`. -/
def VMM_FLAG_NO_CACHE : Nat := 32

/-- `vmm_x86_64_convert_flags`. -/
def vmm_x86_64_convert_flags (g : Nat) : Nat :=
  let f := VMM_X86_64_PRESENT
  let f := if g &&& VMM_FLAG_WRITE ≠ 0 then f ||| VMM_X86_64_WRITABLE else f
  let f := if g &&& VMM_FLAG_USER ≠ 0 then f ||| VMM_X86_64_USER else f
  let f := if g &&& VMM_FLAG_GLOBAL ≠ 0 then f ||| VMM_X86_64_GLOBAL else f
  let f := if g &&& VMM_FLAG_NO_CACHE ≠ 0 then f ||| VMM_X86_64_CACHE_DISABLE else f
  if g &&& VMM_FLAG_EXEC = 0 then f ||| VMM_X86_64_NO_EXECUTE else f

/-- The machine state the VMM operations touch: the page-table store (by
physical frame address and entry index, holding raw 64-bit PTEs), the PMM
abstraction, and the `vmm_x86_64_initialized` flag. -/
structure VmmState where
  initialized : Bool
  mem : Nat → Nat → Nat
  freeFrames : List Nat
  validFrame : Nat → Bool

/-- `struct vmm_space` together with its embedded `vmm_x86_64_space_t`:
`pml4` is the physical frame address of the root table (`phys_pml4`; the
virtual pointer is its direct-map image), `selfFrame` the page holding the
`vmm_space` structure itself. -/
structure VmmSpace where
  pml4 : Nat
  selfFrame : Nat
  is_kernel_space : Bool
  is_active : Bool
  mapped_pages : Nat

/-- The direct-map virtual address of a table frame
(`VMM_X86_64_PHYS_TO_VIRT`, u64 arithmetic); comparing it with 0 models the
C NULL tests on table pointers. -/
def tableVirt (phys : Nat) : Nat := (phys + VMM_X86_64_DIRECT_MAP) % 2 ^ 64

/-- Point update of the page-table store (one `pte->raw = v`). -/
def memSet (m : Nat → Nat → Nat) (t i v : Nat) : Nat → Nat → Nat :=
  fun t2 i2 => if t2 = t ∧ i2 = i then v else m t2 i2

/-- `memset(virt_addr, 0, PAGE_SIZE)` of one page table. -/
def memClearTable (m : Nat → Nat → Nat) (t : Nat) : Nat → Nat → Nat :=
  fun t2 i2 => if t2 = t then 0 else m t2 i2

/-- `pmm_free_page` as seen through the free-frame list abstraction. -/
def pmmFree (s : VmmState) (f : Nat) : VmmState :=
  { s with freeFrames := f :: s.freeFrames }

/-- `alloc_page_table` (steady state): pop the next PMM frame, validate it
with `arch_memory_region_valid`, zero it.  On validation failure the C code
frees the frame back and fails; the freed frame stays at the head of the
list, so the state is unchanged. -/
def alloc_page_table (s : VmmState) : Option (Nat × VmmState) :=
  match s.freeFrames with
  | [] => none
  | f :: rest =>
    if s.validFrame f then
      some (f, { s with freeFrames := rest, mem := memClearTable s.mem f })
    else none

/-- The flags `page_walk` writes into a newly created table's parent entry
(`PRESENT | WRITABLE`, plus `USER` outside the kernel space). -/
def page_walk_table_flags (sp : VmmSpace) : Nat :=
  if !sp.is_kernel_space then
    VMM_X86_64_PRESENT ||| VMM_X86_64_WRITABLE ||| VMM_X86_64_USER
  else VMM_X86_64_PRESENT ||| VMM_X86_64_WRITABLE

/-- Outcome of one level of descent in `page_walk` (levels 1–3): the child
table found or created, or a failure — distinguishing an `alloc_page_table`
failure (after which the caller rolls back tables it created at outer
levels) from the no-create and invalid-child returns, which roll back
nothing. -/
inductive WalkOutcome where
  | ok (child : Nat) (s : VmmState) (isNew : Bool)
  | failPlain
  | failAlloc

/-- One level of `page_walk`: follow the entry `idx` of `table`, creating
the child table when absent and `create` is set (all three non-leaf levels
of the C function have this exact shape). -/
def walk_level (s : VmmState) (sp : VmmSpace) (table idx : Nat)
    (create : Bool) : WalkOutcome :=
  let e := s.mem table idx
  if VMM_X86_64_PTE_PRESENT e then
    let child := VMM_X86_64_PTE_ADDR e
    if s.validFrame child then .ok child s false else .failPlain
  else if !create then .failPlain
  else
    match alloc_page_table s with
    | none => .failAlloc
    | some (child, s1) =>
      .ok child
        { s1 with mem := (memSet s1.mem table idx
            (VMM_X86_64_MAKE_PTE child (page_walk_table_flags sp))) }
        true

/-- `page_walk`: descend PML4 → PDPT → PD and return the location
(table frame, entry index) of the leaf PTE, together with the possibly
modified state (created tables; on an inner allocation failure the tables
created by this walk are freed again and their parent entries zeroed). -/
def page_walk (s : VmmState) (sp : VmmSpace) (virt : Nat) (create : Bool) :
    Option (Nat × Nat) × VmmState :=
  if tableVirt sp.pml4 = 0 then (none, s)
  else
    match walk_level s sp sp.pml4 (VMM_X86_64_PML4_INDEX virt) create with
    | .failPlain => (none, s)
    | .failAlloc => (none, s)
    | .ok pdpt s1 new_pdpt =>
      match walk_level s1 sp pdpt (VMM_X86_64_PDPT_INDEX virt) create with
      | .failPlain => (none, s1)
      | .failAlloc =>
        (none,
          if new_pdpt then
            pmmFree { s1 with
              mem := memSet s1.mem sp.pml4 (VMM_X86_64_PML4_INDEX virt) 0 } pdpt
          else s1)
      | .ok pd s2 new_pd =>
        match walk_level s2 sp pd (VMM_X86_64_PD_INDEX virt) create with
        | .failPlain => (none, s2)
        | .failAlloc =>
          let s3 := if new_pd then
              pmmFree { s2 with
                mem := memSet s2.mem pdpt (VMM_X86_64_PDPT_INDEX virt) 0 } pd
            else s2
          let s4 := if new_pdpt then
              pmmFree { s3 with
                mem := memSet s3.mem sp.pml4 (VMM_X86_64_PML4_INDEX virt) 0 } pdpt
            else s3
          (none, s4)
        | .ok pt s3 _ => (some (pt, VMM_X86_64_PT_INDEX virt), s3)

/-- One iteration of the rollback loop of `vmm_x86_64_map_pages`, over the
result `w` of the walk for page `j`: clear the leaf if present, then
continue with `ih`. -/
def map_rollback_step (sp : VmmSpace) (j : Nat)
    (w : Option (Nat × Nat) × VmmState)
    (ih : VmmState → VmmSpace → Nat → VmmState × VmmSpace) :
    VmmState × VmmSpace :=
  match w with
  | (some (t, idx), s1) =>
    if VMM_X86_64_PTE_PRESENT (s1.mem t idx) then
      ih { s1 with mem := (memSet s1.mem t idx 0) }
        { sp with mapped_pages := PMM.u64sub sp.mapped_pages 1 } (j + 1)
    else ih s1 sp (j + 1)
  | (none, s1) => ih s1 sp (j + 1)

/-- The rollback loop of `vmm_x86_64_map_pages` on a failed walk: clear the
pages already mapped (indices `j < i`, ascending; fuel is the number of
iterations left). -/
def map_rollback (virtBase : Nat) (fuel : Nat) :
    VmmState → VmmSpace → Nat → VmmState × VmmSpace :=
  Nat.rec (motive := fun _ => VmmState → VmmSpace → Nat → VmmState × VmmSpace)
    (fun s sp _ => (s, sp))
    (fun _ ih s sp j =>
      map_rollback_step sp j (page_walk s sp (virtBase + j * PAGE_SIZE) false) ih)
    fuel

/-- One iteration of the mapping loop, over the result `w` of the
creating walk for page `i`: on walk failure roll back pages `0..i`,
otherwise write the leaf PTE (overwriting a present one) and continue
with `ih`. -/
def map_step (virtBase physBase xf i : Nat) (sp : VmmSpace)
    (w : Option (Nat × Nat) × VmmState)
    (ih : VmmState → VmmSpace → Nat → Bool × VmmState × VmmSpace) :
    Bool × VmmState × VmmSpace :=
  let curr_phys := physBase + i * PAGE_SIZE
  match w with
  | (none, s1) =>
    let r := map_rollback virtBase i s1 sp 0
    (false, r.1, r.2)
  | (some (t, idx), s1) =>
    ih { s1 with mem := (memSet s1.mem t idx (VMM_X86_64_MAKE_PTE curr_phys xf)) }
      { sp with mapped_pages := (sp.mapped_pages + 1) % 2 ^ 64 } (i + 1)

/-- The mapping loop of `vmm_x86_64_map_pages` (page `i`, `fuel` iterations
left). -/
def map_loop (virtBase physBase xf : Nat) (fuel : Nat) :
    VmmState → VmmSpace → Nat → Bool × VmmState × VmmSpace :=
  Nat.rec (motive := fun _ => VmmState → VmmSpace → Nat → Bool × VmmState × VmmSpace)
    (fun s sp _ => (true, s, sp))
    (fun _ ih s sp i =>
      map_step virtBase physBase xf i sp
        (page_walk s sp (virtBase + i * PAGE_SIZE) true) ih)
    fuel

/-- `vmm_x86_64_map_pages`.  When the leaf PTE is already present the C
code only logs a warning (`"già mappata (sovrascrittura)"`) and overwrites
it. -/
def vmm_x86_64_map_pages (s : VmmState) (sp : VmmSpace) (virt phys : Nat)
    (page_count : Nat) (flags : Nat) : Bool × VmmState × VmmSpace :=
  if !s.initialized then (false, s, sp)
  else if !IS_PAGE_ALIGNED virt || !IS_PAGE_ALIGNED phys then (false, s, sp)
  else if !VMM_X86_64_IS_CANONICAL virt then (false, s, sp)
  else map_loop virt phys (vmm_x86_64_convert_flags flags) page_count s sp 0

/-- One iteration of the unmapping loop, over the result `w` of the
non-creating walk for page `i`: skip unmapped pages, zero present
leaves. -/
def unmap_step (i : Nat) (sp : VmmSpace)
    (w : Option (Nat × Nat) × VmmState)
    (ih : VmmState → VmmSpace → Nat → VmmState × VmmSpace) :
    VmmState × VmmSpace :=
  match w with
  | (some (t, idx), s1) =>
    if VMM_X86_64_PTE_PRESENT (s1.mem t idx) then
      ih { s1 with mem := (memSet s1.mem t idx 0) }
        { sp with mapped_pages := PMM.u64sub sp.mapped_pages 1 } (i + 1)
    else ih s1 sp (i + 1)
  | (none, s1) => ih s1 sp (i + 1)

/-- The loop of `vmm_x86_64_unmap_pages`. -/
def unmap_loop (virtBase : Nat) (fuel : Nat) :
    VmmState → VmmSpace → Nat → VmmState × VmmSpace :=
  Nat.rec (motive := fun _ => VmmState → VmmSpace → Nat → VmmState × VmmSpace)
    (fun s sp _ => (s, sp))
    (fun _ ih s sp i =>
      unmap_step i sp (page_walk s sp (virtBase + i * PAGE_SIZE) false) ih)
    fuel

/-- `vmm_x86_64_unmap_pages`. -/
def vmm_x86_64_unmap_pages (s : VmmState) (sp : VmmSpace) (virt : Nat)
    (page_count : Nat) : VmmState × VmmSpace :=
  if !s.initialized then (s, sp)
  else if !IS_PAGE_ALIGNED virt then (s, sp)
  else unmap_loop virt page_count s sp 0

/-- The tail of `vmm_x86_64_resolve` over the walk result `w`: fail when
the walk or the present check fails, else base physical address plus page
offset. -/
def resolve_body (virt : Nat) (w : Option (Nat × Nat) × VmmState) :
    Option Nat :=
  match w with
  | (none, _) => none
  | (some (t, idx), s1) =>
    let pte := s1.mem t idx
    if !VMM_X86_64_PTE_PRESENT pte then none
    else
      some ((VMM_X86_64_PTE_ADDR pte + VMM_X86_64_PAGE_OFFSET virt) % 2 ^ 64)

/-- `vmm_x86_64_resolve`: `Some phys` for the C `true` + out-parameter. -/
def vmm_x86_64_resolve (s : VmmState) (sp : VmmSpace) (virt : Nat) :
    Option Nat :=
  if !s.initialized then none
  else resolve_body virt (page_walk s sp virt false)

/-- `vmm_x86_64_create_space`: allocate the `vmm_space` structure page and
the PML4, zero the PML4, copy the kernel higher-half entries
`[PML4_INDEX(KERNEL_BASE), 512)` from the kernel PML4. -/
def vmm_x86_64_create_space (s : VmmState) (kernel : VmmSpace) :
    Option (VmmSpace × VmmState) :=
  if !s.initialized then none
  else
    match s.freeFrames with
    | [] => none
    | structFrame :: rest =>
      match alloc_page_table { s with freeFrames := rest } with
      | none => none
      | some (pml4f, s1) =>
        let s2 := { s1 with mem := (fun t i =>
          if t = pml4f ∧ VMM_X86_64_PML4_INDEX VMM_X86_64_KERNEL_BASE ≤ i ∧
              i < VMM_X86_64_ENTRIES_PER_TABLE then
            s1.mem kernel.pml4 i
          else s1.mem t i) }
        some ({ pml4 := pml4f, selfFrame := structFrame,
                is_kernel_space := false, is_active := false,
                mapped_pages := 0 }, s2)

/-- `free_page_table`: the frame handed back to `pmm_free_page` (the C
guard is on the virtual pointer). -/
def free_page_table (t : Nat) : List Nat :=
  if tableVirt t ≠ 0 then [t] else []

/-- `free_page_tables_recursive`: the physical frames freed back to the
PMM, in call order.  At every level above 1 the C loop recurses into every
present entry of the table — index 0 through 511, the kernel higher half
included — and then frees the table itself. -/
def free_page_tables_recursive (s : VmmState) : Nat → Nat → List Nat
  | 0, _ => []
  | level + 1, table =>
    if tableVirt table = 0 then []
    else
      (if 0 < level then
        ((List.range VMM_X86_64_ENTRIES_PER_TABLE).map fun i =>
          if VMM_X86_64_PTE_PRESENT (s.mem table i) then
            free_page_tables_recursive s level
              (VMM_X86_64_PTE_ADDR (s.mem table i))
          else []).flatten
      else []) ++ free_page_table table

/-- `vmm_x86_64_destroy_space`: the frames freed back to the PMM, in order
(all reachable page tables from level 4 down, then the `vmm_space`
structure page).  The guard models the `space == &kernel_space` test; data
frames referenced by leaf PTEs are never in the list, since level 1 frees
nothing below itself. -/
def vmm_x86_64_destroy_space (s : VmmState) (sp : VmmSpace) : List Nat :=
  if sp.is_kernel_space then []
  else
    (if tableVirt sp.pml4 ≠ 0 then free_page_tables_recursive s 4 sp.pml4
     else []) ++ [sp.selfFrame]

/-- A fresh-space scenario: page-table store all zero (user half of the
root empty, as after `create_space` under an empty kernel higher half),
three valid frames ready in the PMM. -/
def c3State : VmmState :=
  { initialized := true
    mem := fun _ _ => 0
    freeFrames := [0x2000, 0x3000, 0x4000]
    validFrame := fun f => decide (f ≠ 0) }

/-- The space of the fresh-space scenario (PML4 frame `0x1000`). -/
def c3Space : VmmSpace :=
  { pml4 := 0x1000, selfFrame := 0x5000, is_kernel_space := false,
    is_active := false, mapped_pages := 0 }

/-- The fresh-space scenario after the walk created the PDPT (`0x2000`,
linked into PML4 frame `0x1000`; user-space table flags `0x7`). -/
def c3S1 (v : Nat) : VmmState :=
  { initialized := true
    mem := (memSet (memClearTable (fun _ _ => 0) 0x2000) 0x1000
      (VMM_X86_64_PML4_INDEX v) (VMM_X86_64_MAKE_PTE 0x2000 0x7))
    freeFrames := [0x3000, 0x4000]
    validFrame := fun f => decide (f ≠ 0) }

/-- After the walk also created the PD (`0x3000`). -/
def c3S2 (v : Nat) : VmmState :=
  { initialized := true
    mem := (memSet (memClearTable (c3S1 v).mem 0x3000) 0x2000
      (VMM_X86_64_PDPT_INDEX v) (VMM_X86_64_MAKE_PTE 0x3000 0x7))
    freeFrames := [0x4000]
    validFrame := fun f => decide (f ≠ 0) }

/-- After the walk also created the PT (`0x4000`). -/
def c3S3 (v : Nat) : VmmState :=
  { initialized := true
    mem := (memSet (memClearTable (c3S2 v).mem 0x4000) 0x3000
      (VMM_X86_64_PD_INDEX v) (VMM_X86_64_MAKE_PTE 0x4000 0x7))
    freeFrames := []
    validFrame := fun f => decide (f ≠ 0) }

/-- The state after mapping `v → p` (1 page) in the fresh-space scenario:
the three tables created along the walk, then the leaf PTE written. -/
def c3Mapped (v p flags : Nat) : VmmState :=
  { initialized := true
    mem := (memSet (c3S3 v).mem 0x4000 (VMM_X86_64_PT_INDEX v)
      (VMM_X86_64_MAKE_PTE p (vmm_x86_64_convert_flags flags)))
    freeFrames := []
    validFrame := fun f => decide (f ≠ 0) }

/-- The space after mapping one page in the fresh-space scenario. -/
def c3MappedSpace : VmmSpace :=
  { pml4 := 0x1000, selfFrame := 0x5000, is_kernel_space := false,
    is_active := false, mapped_pages := 1 }

/-- The state after unmapping the page again (leaf PTE zeroed). -/
def c3Unmapped (v p flags : Nat) : VmmState :=
  { initialized := true
    mem := (memSet (c3Mapped v p flags).mem 0x4000 (VMM_X86_64_PT_INDEX v) 0)
    freeFrames := []
    validFrame := fun f => decide (f ≠ 0) }

/-- The space after the unmap (mapped-page count back to zero). -/
def c3UnmappedSpace : VmmSpace :=
  { pml4 := 0x1000, selfFrame := 0x5000, is_kernel_space := false,
    is_active := false, mapped_pages := 0 }

/-- First mapping of the double-map scenario: `0x40000000 → 0x2000000`,
READ|WRITE, in the fresh-space scenario. -/
def c1FirstMap : Bool × VmmState × VmmSpace :=
  vmm_x86_64_map_pages c3State c3Space 0x40000000 0x2000000 1
    (VMM_FLAG_READ ||| VMM_FLAG_WRITE)

/-- Kernel page tables of the destroy-space scenario: the kernel PML4
(frame `0x1000`) has one higher-half entry, PML4[256] → PDPT frame
`0x2000`; two frames are free for `create_space`. -/
def c2State : VmmState :=
  { initialized := true
    mem := fun t i =>
      if t = 0x1000 ∧ i = 256 then VMM_X86_64_MAKE_PTE 0x2000 0x3 else 0
    freeFrames := [0x3000, 0x4000]
    validFrame := fun f => decide (f ≠ 0) }

/-- The kernel space of the destroy-space scenario. -/
def c2KernelSpace : VmmSpace :=
  { pml4 := 0x1000, selfFrame := 0, is_kernel_space := true,
    is_active := true, mapped_pages := 0 }

/-- The user space built by `create_space` in the destroy-space scenario
(structure page `0x3000`, PML4 frame `0x4000`, higher half copied from the
kernel PML4) and the state after its creation. -/
def c2Created : VmmSpace × VmmState :=
  (vmm_x86_64_create_space c2State c2KernelSpace).get (by decide)

end VMM

namespace Buddy

/-! ## Buddy allocator (`mm/heap/buddy.c`, `include/mm/heap/buddy.h`)

The C array `free_lists[BUDDY_MAX_ORDER + 1]` of list heads becomes a
21-entry list of lists of block addresses; `list_insert_after` on a
list head prepends, so the C head's `next` (the node `buddy_alloc`
takes) is the Lean list head.  The block headers the code writes into
the first bytes of every block are modelled as write logs (newest
first) `hdr_order`/`hdr_magic`, read through `hdrGet`; a header that
was never written reads as 0, the model's stand-in for uninitialized
memory.  The allocation bitmap is the `Nat` whose bit `i` is the
allocated flag of the `i`-th 4 KiB block.  All components are
first-order data, so allocator states have decidable equality and the
scenario states can be pinned to literal values.  The
`buddy_block_header_t` type itself is referenced by `buddy.c` but
defined nowhere under `src/` (the `buddy_block_t` in `buddy.h` has no
`header` field and no magic), so its size and the two magic constants
are modelled from the spec — see `buddyHdrSize`. -/

/-- `BUDDY_MIN_ORDER` (4 KiB blocks). -/
def BUDDY_MIN_ORDER : Nat := 12

/-- `BUDDY_MAX_ORDER` (1 MiB blocks). -/
def BUDDY_MAX_ORDER : Nat := 20

/-- `BUDDY_MIN_BLOCK_SIZE = 1 << BUDDY_MIN_ORDER`. -/
def BUDDY_MIN_BLOCK_SIZE : Nat := 1 <<< BUDDY_MIN_ORDER

/-- Modelled from the spec: the block header (`buddy_block_header_t`,
an order plus a FREE/ALLOC magic tag, per the spec's description of the
block layout) is not defined anywhere under `src/`; its size is taken
as 16 bytes.  Every theorem below about the buddy allocator holds for
any header size in `(0, 4096]`: the header only shifts the returned
payload address and makes a 4096-byte request need an order-13 block. -/
def buddyHdrSize : Nat := 16

/-- Modelled from the spec: the free-block magic tag.  The value is
immaterial — the code only compares it for equality with the tag of the
allocated state. -/
def BUDDY_FREE_MAGIC : Nat := 0xF5EE

/-- Modelled from the spec: the allocated-block magic tag. -/
def BUDDY_ALLOC_MAGIC : Nat := 0xA110C

/-- Header-store read: the newest write at address `k`, `0` when `k`
was never written. -/
def hdrGet (l : List (Nat × Nat)) (k : Nat) : Nat := (l.lookup k).getD 0

/-- `buddy_allocator_t` (stats fields kept; the spinlock dropped). -/
structure buddy_allocator_t where
  base_addr : Nat
  total_size : Nat
  free_lists : List (List Nat)
  hdr_order : List (Nat × Nat)
  hdr_magic : List (Nat × Nat)
  allocation_map : Nat
  total_allocs : Nat
  total_frees : Nat
  failed_allocs : Nat
deriving DecidableEq

/-- `bitmap_set` over `count` consecutive bits (the marking loop of
`buddy_alloc`). -/
def bmSetRange : Nat → Nat → Nat → Nat
  | m, _, 0 => m
  | m, start, n + 1 => bmSetRange (m ||| (1 <<< start)) (start + 1) n

/-- `bitmap_clear` over `count` consecutive bits (the clearing loop of
`buddy_free`).  Clearing one bit — `m AND NOT (1 << start)` in C — is
written as subtracting the (possibly zero) set bit `m AND (1 << start)`,
which is the same function on `Nat`. -/
def bmClearRange : Nat → Nat → Nat → Nat
  | m, _, 0 => m
  | m, start, n + 1 =>
    bmClearRange (m - Nat.land m (1 <<< start)) (start + 1) n

/-- All of `count` consecutive bits set — the validation loop of
`buddy_free`, which returns early on the first clear bit. -/
def bmAllSet : Nat → Nat → Nat → Bool
  | _, _, 0 => true
  | m, start, n + 1 => m.testBit start && bmAllSet m (start + 1) n

/-- All of `count` consecutive bits clear — the buddy-occupancy check of
the coalescing loop, which sets `buddy_free_flag = false` and breaks on
the first set bit. -/
def bmAllClear : Nat → Nat → Nat → Bool
  | _, _, 0 => true
  | m, start, n + 1 => !m.testBit start && bmAllClear m (start + 1) n

/-- While-loop of `order_for_request`: double `block` and bump `order`
until `block` covers `needed` or the order reaches `BUDDY_MAX_ORDER`.
The fuel is `BUDDY_MAX_ORDER - BUDDY_MIN_ORDER`, the exact number of
iterations the loop can still make (each one increments `order`). -/
def order_loop : Nat → Nat → Nat → Nat → Nat
  | _, _, order, 0 => order
  | needed, block, order, fuel + 1 =>
    if block < needed ∧ order < BUDDY_MAX_ORDER then
      order_loop needed (block <<< 1) (order + 1) fuel
    else order

/-- `order_for_request`: the order covering `size` payload bytes plus
the block header, clamped to `[BUDDY_MIN_ORDER, BUDDY_MAX_ORDER]`. -/
def order_for_request (size : Nat) : Nat :=
  let needed0 := size + buddyHdrSize
  let needed :=
    if needed0 < BUDDY_MIN_BLOCK_SIZE then BUDDY_MIN_BLOCK_SIZE else needed0
  let order := order_loop needed BUDDY_MIN_BLOCK_SIZE BUDDY_MIN_ORDER
    (BUDDY_MAX_ORDER - BUDDY_MIN_ORDER)
  if order > BUDDY_MAX_ORDER then BUDDY_MAX_ORDER else order

/-- `index_for_addr`: bitmap index of a block address. -/
def index_for_addr (a : buddy_allocator_t) (addr : Nat) : Nat :=
  (addr - a.base_addr) / BUDDY_MIN_BLOCK_SIZE

/-- `insert_block`: write a FREE header at `addr` and prepend the block
to the free list of `order`. -/
def insert_block (a : buddy_allocator_t) (addr order : Nat) :
    buddy_allocator_t :=
  { a with
    hdr_order := (addr, order) :: a.hdr_order
    hdr_magic := (addr, BUDDY_FREE_MAGIC) :: a.hdr_magic
    free_lists := (a.free_lists.set order
      (addr :: a.free_lists.getD order [])) }

/-- Inner while-loop of `buddy_init`: the largest order
`≤ BUDDY_MAX_ORDER` whose block size fits `remaining` with `addr`
aligned to it, falling back to `BUDDY_MIN_ORDER`.  The loop decrements
`order` from `BUDDY_MAX_ORDER` towards `BUDDY_MIN_ORDER`, so the fuel
is again `BUDDY_MAX_ORDER - BUDDY_MIN_ORDER`. -/
def init_pick_order : Nat → Nat → Nat → Nat → Nat
  | _, _, order, 0 => order
  | addr, remaining, order, fuel + 1 =>
    if order > BUDDY_MIN_ORDER then
      if (1 <<< order) ≤ remaining ∧ addr % (1 <<< order) = 0 then order
      else init_pick_order addr remaining (order - 1) fuel
    else order

/-- Outer while-loop of `buddy_init`: carve the region into maximal
aligned blocks.  Every iteration consumes at least
`BUDDY_MIN_BLOCK_SIZE` bytes, so `total_size / BUDDY_MIN_BLOCK_SIZE`
rounds of fuel cover the loop. -/
def init_loop : buddy_allocator_t → Nat → Nat → Nat → buddy_allocator_t
  | a, _, _, 0 => a
  | a, addr, remaining, fuel + 1 =>
    if remaining ≥ BUDDY_MIN_BLOCK_SIZE then
      let order := init_pick_order addr remaining BUDDY_MAX_ORDER
        (BUDDY_MAX_ORDER - BUDDY_MIN_ORDER)
      init_loop (insert_block a addr order) (addr + (1 <<< order))
        (remaining - (1 <<< order)) fuel
    else a

/-- `buddy_init`.  `base_addr & ~(BUDDY_MIN_BLOCK_SIZE - 1)` on u64 is
the `land` with the 52-high-bit mask.  `none` is the `false` return
(bitmap smaller than one bit per 4 KiB of the region). -/
def buddy_init (base_addr size_in_bytes bitmap_bits : Nat) :
    Option buddy_allocator_t :=
  let base := Nat.land base_addr 0xFFFFFFFFFFFFF000
  let total := Nat.land size_in_bytes 0xFFFFFFFFFFFFF000
  if bitmap_bits < total / BUDDY_MIN_BLOCK_SIZE then none
  else some (init_loop
    { base_addr := base
      total_size := total
      free_lists := List.replicate (BUDDY_MAX_ORDER + 1) []
      hdr_order := []
      hdr_magic := []
      allocation_map := 0
      total_allocs := 0
      total_frees := 0
      failed_allocs := 0 }
    base total (total / BUDDY_MIN_BLOCK_SIZE))

/-- Search loop of `buddy_alloc`: the first order `≥ current` with a
non-empty free list, `none` once past `BUDDY_MAX_ORDER`.  A fuel of
`BUDDY_MAX_ORDER + 2` covers every start order. -/
def search_order : buddy_allocator_t → Nat → Nat → Option Nat
  | _, _, 0 => none
  | a, current, fuel + 1 =>
    if current > BUDDY_MAX_ORDER then none
    else if (a.free_lists.getD current []).isEmpty then
      search_order a (current + 1) fuel
    else some current

/-- Split loop of `buddy_alloc`: halve the block `fuel = current - order`
times, re-inserting each upper half at the decremented order. -/
def split_loop : buddy_allocator_t → Nat → Nat → Nat → buddy_allocator_t
  | a, _, _, 0 => a
  | a, block, current, fuel + 1 =>
    split_loop (insert_block a (block + (1 <<< (current - 1))) (current - 1))
      block (current - 1) fuel

/-- `buddy_alloc`.  `(0, a)` with `failed_allocs` bumped is the NULL
return; on success the payload address `block + sizeof(header)` is
returned and the block's header and bitmap bits are marked allocated. -/
def buddy_alloc (a : buddy_allocator_t) (size : Nat) :
    Nat × buddy_allocator_t :=
  if size = 0 then (0, a)
  else
    let order := order_for_request size
    match search_order a order (BUDDY_MAX_ORDER + 2) with
    | none => (0, { a with failed_allocs := a.failed_allocs + 1 })
    | some current =>
      match a.free_lists.getD current [] with
      | [] => (0, a)  -- dead branch: `search_order` only returns non-empty orders
      | block :: rest =>
        let a1 := { a with free_lists := a.free_lists.set current rest }
        let a2 := split_loop a1 block current (current - order)
        let a3 := { a2 with
          hdr_order := (block, order) :: a2.hdr_order
          hdr_magic := (block, BUDDY_ALLOC_MAGIC) :: a2.hdr_magic }
        let start := index_for_addr a3 block
        let count := (1 <<< order) / BUDDY_MIN_BLOCK_SIZE
        (block + buddyHdrSize,
         { a3 with
           allocation_map := bmSetRange a3.allocation_map start count
           total_allocs := a3.total_allocs + 1 })

/-- Coalescing loop of `buddy_free`: as long as the order is below
`BUDDY_MAX_ORDER` and the XOR-buddy is fully clear in the bitmap, on
the free list of the same order and FREE-tagged, remove it, merge
(keeping the lower of the two addresses) and move one order up.  The
fuel `BUDDY_MAX_ORDER - order` is exact: each round increments the
order.  Returns the merged block address, its order and the state. -/
def coalesce_loop : buddy_allocator_t → Nat → Nat → Nat →
    Nat × Nat × buddy_allocator_t
  | a, block_addr, order, 0 => (block_addr, order, a)
  | a, block_addr, order, fuel + 1 =>
    if order < BUDDY_MAX_ORDER then
      let buddy_addr :=
        a.base_addr + Nat.xor (block_addr - a.base_addr) (1 <<< order)
      if bmAllClear a.allocation_map (index_for_addr a buddy_addr)
          ((1 <<< order) / BUDDY_MIN_BLOCK_SIZE) then
        if (a.free_lists.getD order []).contains buddy_addr ∧
            hdrGet a.hdr_magic buddy_addr = BUDDY_FREE_MAGIC then
          coalesce_loop
            { a with free_lists := (a.free_lists.set order
                ((a.free_lists.getD order []).erase buddy_addr)) }
            (min buddy_addr block_addr) (order + 1) fuel
        else (block_addr, order, a)
      else (block_addr, order, a)
    else (block_addr, order, a)

/-- `buddy_free`.  The C computes `addr - sizeof(header)` in u64; every
address the allocator hands out is `≥ buddyHdrSize`, and for smaller
`addr` both the wrapped C value and the truncated `Nat` subtraction
fall outside the managed range, so the range guard returns either way.
Invalid frees (out of range, wrong magic, bitmap not fully set) return
the state unchanged. -/
def buddy_free (a : buddy_allocator_t) (addr : Nat) : buddy_allocator_t :=
  let block_addr := addr - buddyHdrSize
  if block_addr < a.base_addr ∨ a.base_addr + a.total_size ≤ block_addr then a
  else if hdrGet a.hdr_magic block_addr ≠ BUDDY_ALLOC_MAGIC then a
  else
    let order := hdrGet a.hdr_order block_addr
    let start := index_for_addr a block_addr
    let count := (1 <<< order) / BUDDY_MIN_BLOCK_SIZE
    if !bmAllSet a.allocation_map start count then a
    else
      let a1 := { a with
        allocation_map := bmClearRange a.allocation_map start count }
      let r := coalesce_loop a1 block_addr order (BUDDY_MAX_ORDER - order)
      let a2 := insert_block r.2.2 r.1 r.2.1
      { a2 with total_frees := a2.total_frees + 1 }

/-- The `total_free` output of `buddy_get_stats`: sum over the orders of
(list length) × (block size). -/
def buddy_total_free (a : buddy_allocator_t) : Nat :=
  (List.range (BUDDY_MAX_ORDER - BUDDY_MIN_ORDER + 1)).foldl
    (fun acc k =>
      acc + (a.free_lists.getD (BUDDY_MIN_ORDER + k) []).length *
        (1 <<< (BUDDY_MIN_ORDER + k)))
    0

/-- The `largest_free` output of `buddy_get_stats`: the block size of
the highest order with a non-empty free list (0 if all are empty). -/
def buddy_largest_free (a : buddy_allocator_t) : Nat :=
  (List.range (BUDDY_MAX_ORDER - BUDDY_MIN_ORDER + 1)).foldl
    (fun largest k =>
      if (a.free_lists.getD (BUDDY_MIN_ORDER + k) []).isEmpty = false ∧
          largest < (1 <<< (BUDDY_MIN_ORDER + k)) then
        1 <<< (BUDDY_MIN_ORDER + k)
      else largest)
    0

/-- The 1 MiB region of the buddy coalescing scenario: base `0x100000`,
size `0x100000`, a 256-bit allocation map.  `buddy_init` carves it into
a single order-20 (1 MiB) block. -/
def c4Buddy : buddy_allocator_t :=
  (buddy_init 0x100000 0x100000 256).get (by decide)

/-- `a = buddy_alloc(4096)` of the coalescing scenario (payload address
and poststate). -/
def c4A : Nat × buddy_allocator_t := buddy_alloc c4Buddy 4096

/-- `b = buddy_alloc(4096)` after `a`. -/
def c4B : Nat × buddy_allocator_t := buddy_alloc c4A.2 4096

/-- The allocator after `free(a)`. -/
def c4FreeA : buddy_allocator_t := buddy_free c4B.2 c4A.1

/-- The allocator after `free(a); free(b)`. -/
def c4FreeB : buddy_allocator_t := buddy_free c4FreeA c4B.1

/-- The state after `free(a)`, written out literally (proved equal to
`c4FreeA` in the C4 theorem; anchoring the second free on this literal
keeps its evaluation linear). -/
def c4FreeALit : buddy_allocator_t :=
  { base_addr := 0x100000
    total_size := 0x100000
    free_lists := [[], [], [], [], [], [], [], [], [], [], [], [], [],
      [0x100000], [0x104000], [0x108000], [0x110000], [0x120000],
      [0x140000], [0x180000], []]
    hdr_order := [(0x100000, 13), (0x102000, 13), (0x100000, 13),
      (0x102000, 13), (0x104000, 14), (0x108000, 15), (0x110000, 16),
      (0x120000, 17), (0x140000, 18), (0x180000, 19), (0x100000, 20)]
    hdr_magic := [(0x100000, 0xF5EE), (0x102000, 0xA110C),
      (0x100000, 0xA110C), (0x102000, 0xF5EE), (0x104000, 0xF5EE),
      (0x108000, 0xF5EE), (0x110000, 0xF5EE), (0x120000, 0xF5EE),
      (0x140000, 0xF5EE), (0x180000, 0xF5EE), (0x100000, 0xF5EE)]
    allocation_map := 0xC
    total_allocs := 2
    total_frees := 1
    failed_allocs := 0 }

/-- The state after `free(a); free(b)`, written out literally: all the
split halves have been merged away and the order-20 list again holds
the single block `0x100000`. -/
def c4FreeBLit : buddy_allocator_t :=
  { base_addr := 0x100000
    total_size := 0x100000
    free_lists := [[], [], [], [], [], [], [], [], [], [], [], [], [],
      [], [], [], [], [], [], [], [0x100000]]
    hdr_order := [(0x100000, 20), (0x100000, 13), (0x102000, 13),
      (0x100000, 13), (0x102000, 13), (0x104000, 14), (0x108000, 15),
      (0x110000, 16), (0x120000, 17), (0x140000, 18), (0x180000, 19),
      (0x100000, 20)]
    hdr_magic := [(0x100000, 0xF5EE), (0x100000, 0xF5EE),
      (0x102000, 0xA110C), (0x100000, 0xA110C), (0x102000, 0xF5EE),
      (0x104000, 0xF5EE), (0x108000, 0xF5EE), (0x110000, 0xF5EE),
      (0x120000, 0xF5EE), (0x140000, 0xF5EE), (0x180000, 0xF5EE),
      (0x100000, 0xF5EE)]
    allocation_map := 0x0
    total_allocs := 2
    total_frees := 2
    failed_allocs := 0 }

end Buddy

namespace Slab

/-! ## Slab allocator (`mm/heap/slab.c`, `include/mm/heap/slab.h`)

Slab pages are identified by their (direct-mapped) page address; a
cache's three slab lists hold page addresses, head first
(`list_insert_after` on the list head prepends), and the map `slabs`
holds the `slab_t` header stored at the start of each page.  The PMM
behind `alloc_page` is abstracted as a list of the page addresses it
hands out next, as for the VMM.  Spinlocks, the `ctor`/`dtor` hooks
(`NULL` for every kmalloc cache), cache names, the coloring fields and
the global `g_stats` accounting are dropped. -/

/-- `SLAB_PAGE_SIZE` (4 KiB slab pages). -/
def SLAB_PAGE_SIZE : Nat := 4096

/-- `SLAB_MAX_SIZE` (largest object the slab layer serves). -/
def SLAB_MAX_SIZE : Nat := 2048

/-- `SLAB_MAGIC` from `slab.c`. -/
def SLAB_MAGIC : Nat := 0x51AB51AB

/-- `sizeof(slab_t)` under the x86-64 SysV ABI, from the struct in
`include/mm/heap/slab.h`: `list_node_t node` (two 8-byte pointers) at
offset 0, `void *page_addr` at 16, `slab_object_t *free_list` at 24,
the `u16` fields `total_objects`/`free_objects`/`object_size` at
32/34/36, `u32 magic` at 40 (2 bytes of padding before it), tail
padding to the 8-byte struct alignment: 48 bytes. -/
def sizeof_slab_t : Nat := 48

/-- `SLAB_OBJECTS_PER_PAGE(s) = (SLAB_PAGE_SIZE - sizeof(slab_t)) / s`. -/
def SLAB_OBJECTS_PER_PAGE (obj_size : Nat) : Nat :=
  (SLAB_PAGE_SIZE - sizeof_slab_t) / obj_size

/-- The slab page containing a pointer:
`(uintptr_t)ptr & ~(SLAB_PAGE_SIZE - 1)` in u64, from
`slab_cache_free` and `slab_find_cache_for_ptr`. -/
def slab_page_of (ptr : Nat) : Nat := Nat.land ptr 0xFFFFFFFFFFFFF000

/-- `SLAB_PTR_VALID(ptr) = ptr != NULL && (ptr & 0x3) == 0`. -/
def SLAB_PTR_VALID (ptr : Nat) : Bool := ptr != 0 && Nat.land ptr 3 == 0

/-- `slab_t`.  The in-page free list (the `obj->next_free` chain) is
the list of free object addresses, head first. -/
structure slab_t where
  page_addr : Nat
  free_list : List Nat
  total_objects : Nat
  free_objects : Nat
  object_size : Nat
  magic : Nat

/-- `slab_cache_t` (see the section comment for the dropped fields). -/
structure slab_cache_t where
  object_size : Nat
  full_slabs : List Nat
  partial_slabs : List Nat
  empty_slabs : List Nat
  slabs : Nat → slab_t
  total_slabs : Nat
  total_objects : Nat
  allocated_objects : Nat
  alloc_count : Nat
  free_count : Nat

/-- Point update of the page-to-slab map. -/
def slabSet (f : Nat → slab_t) (k : Nat) (v : slab_t) : Nat → slab_t :=
  fun j => if j = k then v else f j

/-- The free-list building loop of `create_slab`: objects
`obj_area + i * size` for `i = 0 .. n-1`, each pushed at the head, so
the final head is the highest-index object. -/
def build_free_list : Nat → Nat → Nat → List Nat
  | _, _, 0 => []
  | obj_area, size, n + 1 =>
    (obj_area + n * size) :: build_free_list obj_area size n

/-- `create_slab`: take a page from the PMM (the head of the free-page
list), format it as `[slab_t header | objects]` and account it in the
cache.  `none` is the out-of-memory `NULL` return. -/
def create_slab (cache : slab_cache_t) (freePages : List Nat) :
    Option (Nat × slab_cache_t × List Nat) :=
  match freePages with
  | [] => none
  | page :: rest =>
    let objs := SLAB_OBJECTS_PER_PAGE cache.object_size
    some (page,
      { cache with
        slabs := (slabSet cache.slabs page
          { page_addr := page
            free_list := build_free_list (page + sizeof_slab_t) cache.object_size objs
            total_objects := objs
            free_objects := objs
            object_size := cache.object_size
            magic := SLAB_MAGIC })
        total_slabs := cache.total_slabs + 1
        total_objects := cache.total_objects + objs },
      rest)

/-- `slab_cache_alloc`: pick the front partial slab, else move the
front empty slab to `partial`, else create a new slab onto `partial`;
pop its free list; on the last object move the slab to `full`. -/
def slab_cache_alloc (cache : slab_cache_t) (freePages : List Nat) :
    Option Nat × slab_cache_t × List Nat :=
  let pick : Option (Nat × slab_cache_t × List Nat) :=
    match cache.partial_slabs with
    | sp :: _ => some (sp, cache, freePages)
    | [] =>
      match cache.empty_slabs with
      | se :: restE =>
        some (se,
          { cache with
            empty_slabs := restE
            partial_slabs := se :: cache.partial_slabs },
          freePages)
      | [] =>
        match create_slab cache freePages with
        | none => none
        | some (page, c1, fp1) =>
          some (page, { c1 with partial_slabs := page :: c1.partial_slabs }, fp1)
  match pick with
  | none => (none, cache, freePages)
  | some (spage, c1, fp1) =>
    match (c1.slabs spage).free_list with
    | [] => (none, c1, fp1)  -- dead branch: slabs on `partial` have a free object
    | obj :: rest =>
      let slab0 := c1.slabs spage
      let slab1 := { slab0 with
        free_list := rest
        free_objects := slab0.free_objects - 1 }
      let c2 := { c1 with slabs := slabSet c1.slabs spage slab1 }
      let c3 :=
        if slab1.free_objects = 0 then
          { c2 with
            partial_slabs := c2.partial_slabs.erase spage
            full_slabs := spage :: c2.full_slabs }
        else c2
      (some obj,
       { c3 with
         allocated_objects := c3.allocated_objects + 1
         alloc_count := c3.alloc_count + 1 },
       fp1)

/-- `slab_cache_free`: check the slab magic, push the object back on
the slab's free list, and move the slab (from whichever list holds it —
`list_remove` works in place) to `empty` when fully free, else to
`partial`. -/
def slab_cache_free (cache : slab_cache_t) (ptr : Nat) : slab_cache_t :=
  let base := slab_page_of ptr
  let slab0 := cache.slabs base
  if slab0.magic ≠ SLAB_MAGIC then cache
  else
    let slab1 := { slab0 with
      free_list := ptr :: slab0.free_list
      free_objects := slab0.free_objects + 1 }
    let f1 := cache.full_slabs.erase base
    let p1 := cache.partial_slabs.erase base
    let e1 := cache.empty_slabs.erase base
    if slab1.free_objects = slab1.total_objects then
      { cache with
        slabs := slabSet cache.slabs base slab1
        full_slabs := f1
        partial_slabs := p1
        empty_slabs := base :: e1
        allocated_objects := cache.allocated_objects - 1
        free_count := cache.free_count + 1 }
    else
      { cache with
        slabs := slabSet cache.slabs base slab1
        full_slabs := f1
        partial_slabs := base :: p1
        empty_slabs := e1
        allocated_objects := cache.allocated_objects - 1
        free_count := cache.free_count + 1 }

/-- Runs `slab_cache_alloc` `n` times, collecting the returned pointers
in call order (the iteration of the 64-object scenario). -/
def slab_alloc_iter :
    Nat → slab_cache_t → List Nat → List (Option Nat) × slab_cache_t × List Nat
  | 0, c, fp => ([], c, fp)
  | n + 1, c, fp =>
    let r := slab_cache_alloc c fp
    let t := slab_alloc_iter n r.2.1 r.2.2
    (r.1 :: t.1, t.2.1, t.2.2)

/-- The value of the page-to-slab map off the formatted pages: its
magic `0` never matches `SLAB_MAGIC`. -/
def empty_slab_t : slab_t :=
  { page_addr := 0
    free_list := []
    total_objects := 0
    free_objects := 0
    object_size := 0
    magic := 0 }

/-- A fresh cache as `slab_cache_create` builds it for the kmalloc
sizes: for a power-of-two `object_size ≥ 16` the
`sizeof(slab_object_t)` bump and the align rounding are the identity.
The cache-descriptor page allocation is dropped. -/
def mk_cache (osize : Nat) : slab_cache_t :=
  { object_size := osize
    full_slabs := []
    partial_slabs := []
    empty_slabs := []
    slabs := fun _ => empty_slab_t
    total_slabs := 0
    total_objects := 0
    allocated_objects := 0
    alloc_count := 0
    free_count := 0 }

/-- The 64-object scenario: an initially-empty cache of 64-byte objects,
two 4 KiB pages available, 64 consecutive `slab_cache_alloc` calls. -/
def c5Run : List (Option Nat) × slab_cache_t × List Nat :=
  slab_alloc_iter 64 (mk_cache 64) [0x10000, 0x11000]

/-- The same scenario stopped after 63 allocations. -/
def c5Run63 : List (Option Nat) × slab_cache_t × List Nat :=
  slab_alloc_iter 63 (mk_cache 64) [0x10000, 0x11000]

/-- The search loop of `find_best_cache`: the cache with the smallest
`object_size ≥ size` (the first one wins ties), as an index into the
cache list paired with that size. -/
def find_best_loop :
    List slab_cache_t → Nat → Nat → Option (Nat × Nat) → Option (Nat × Nat)
  | [], _, _, best => best
  | c :: rest, size, i, best =>
    let best1 :=
      if c.object_size ≥ size then
        match best with
        | none => some (i, c.object_size)
        | some (bi, bs) =>
          if c.object_size < bs then some (i, c.object_size) else some (bi, bs)
      else best
    find_best_loop rest size (i + 1) best1

/-- The slab system: the `g_caches` array and the pages the PMM hands
to `create_slab`. -/
structure slab_sys where
  caches : List slab_cache_t
  freePages : List Nat

/-- `slab_alloc`: size gate (`0 < size ≤ SLAB_MAX_SIZE`), best-fit
cache, `slab_cache_alloc` on it. -/
def slab_alloc (sys : slab_sys) (size : Nat) : Option Nat × slab_sys :=
  if size = 0 ∨ size > SLAB_MAX_SIZE then (none, sys)
  else
    match find_best_loop sys.caches size 0 none with
    | none => (none, sys)
    | some (i, _) =>
      match sys.caches[i]? with
      | none => (none, sys)  -- dead branch: `find_best_loop` indices are in range
      | some c =>
        let r := slab_cache_alloc c sys.freePages
        (r.1, { caches := sys.caches.set i r.2.1, freePages := r.2.2 })

/-- The search of `slab_find_cache_for_ptr` over `g_caches`: the index
of the first cache holding the pointer's slab page on one of its three
lists. -/
def find_cache_for_ptr_loop : List slab_cache_t → Nat → Nat → Option Nat
  | [], _, _ => none
  | c :: rest, base, i =>
    if c.full_slabs.contains base ∨ c.partial_slabs.contains base ∨
        c.empty_slabs.contains base then some i
    else find_cache_for_ptr_loop rest base (i + 1)

/-- The default caches `slab_init` creates (16 … 2048 bytes). -/
def slab_init_caches : List slab_cache_t :=
  [16, 32, 64, 128, 256, 512, 1024, 2048].map mk_cache

end Slab

namespace Heap

/-! ## Kernel heap front end (`mm/heap/heap.c`)

Virtual and physical addresses are identified: the direct-map
translations `vmm_phys_to_virt`/`vmm_virt_to_phys` around the buddy
calls are mutually inverse bijections and are dropped, as in the slab
model. -/

/-- `HEAP_SLAB_MAX_SIZE` from `heap.c`. -/
def HEAP_SLAB_MAX_SIZE : Nat := 2048

/-- The heap state: the `heap_initialized` flag, the slab system and
the buddy allocator. -/
structure HeapState where
  initialized : Bool
  slab : Slab.slab_sys
  buddy : Buddy.buddy_allocator_t

/-- `kmalloc`: NULL for size 0 or an uninitialized heap; the slab layer
for sizes up to `HEAP_SLAB_MAX_SIZE`; otherwise the buddy allocator
(whose 0 return is NULL). -/
def kmalloc (h : HeapState) (size : Nat) : Option Nat × HeapState :=
  if ¬ h.initialized ∨ size = 0 then (none, h)
  else if size ≤ HEAP_SLAB_MAX_SIZE then
    let r := Slab.slab_alloc h.slab size
    (r.1, { h with slab := r.2 })
  else
    let r := Buddy.buddy_alloc h.buddy size
    (if r.1 = 0 then none else some r.1, { h with buddy := r.2 })

/-- `kcalloc`: `size_t total = nmemb * size` — a u64 multiplication
with no overflow guard, so the wrap-around is written out — then
`kmalloc(total)` and, on success, `memset(ptr, 0, total)`.  The middle
component of the result is the byte count of the `memset` performed
(`0` when the allocation failed and no `memset` runs): the observable
extent of the zeroing. -/
def kcalloc (h : HeapState) (nmemb size : Nat) :
    Option Nat × Nat × HeapState :=
  let total := nmemb * size % 2 ^ 64
  let r := kmalloc h total
  (r.1, if r.1.isSome then total else 0, r.2)

/-- `kfree`: pointers that look like slab objects and whose page is
found in a cache go back through `slab_cache_free`; everything else is
handed to `buddy_free`. -/
def kfree (h : HeapState) (ptr : Nat) : HeapState :=
  if ¬ h.initialized ∨ ptr = 0 then h
  else
    let found :=
      if Slab.SLAB_PTR_VALID ptr then
        Slab.find_cache_for_ptr_loop h.slab.caches (Slab.slab_page_of ptr) 0
      else none
    match found with
    | some i =>
      match h.slab.caches[i]? with
      | some c =>
        { h with slab := { h.slab with
            caches := h.slab.caches.set i (Slab.slab_cache_free c ptr) } }
      | none => h
    | none => { h with buddy := Buddy.buddy_free h.buddy ptr }

/-- `memcpy(dst, src, len)` on byte memories (the regions the heap
copies never overlap). -/
def memcpy (mem : Nat → Nat) (dst src len : Nat) : Nat → Nat :=
  fun a => if dst ≤ a ∧ a < dst + len then mem (src + (a - dst)) else mem a

/-- Modelled from the spec: `krealloc` is declared in
`include/mm/heap/heap.h` but implemented nowhere under `src/`.  The
spec defines it by cases: `krealloc(NULL, n) = kalloc(n)`;
`krealloc(p, 0)` frees `p` and returns NULL; otherwise allocate a new
block, copy `min(old_size, new_size)` bytes and free the old block
(when the new allocation fails NULL is returned and the old block is
kept).  `old_size` — the old block's size, which the spec says the
allocator tracks — is passed explicitly; `mem` is the heap's byte
memory. -/
def krealloc (h : HeapState) (mem : Nat → Nat) (p old_size n : Nat) :
    Option Nat × HeapState × (Nat → Nat) :=
  if p = 0 then
    let r := kmalloc h n
    (r.1, r.2, mem)
  else if n = 0 then
    (none, kfree h p, mem)
  else
    let r := kmalloc h n
    match r.1 with
    | none => (none, r.2, mem)
    | some q => (some q, kfree r.2 p, memcpy mem q p (min old_size n))

/-- An idle buddy allocator for the scenarios that never reach the
buddy path. -/
def idleBuddy : Buddy.buddy_allocator_t :=
  { base_addr := 0
    total_size := 0
    free_lists := List.replicate (Buddy.BUDDY_MAX_ORDER + 1) []
    hdr_order := []
    hdr_magic := []
    allocation_map := 0
    total_allocs := 0
    total_frees := 0
    failed_allocs := 0 }

/-- The initialized heap of the kcalloc/krealloc scenarios: the eight
default slab caches, one free page for the slab layer, an idle buddy. -/
def c9Heap : HeapState :=
  { initialized := true
    slab := { caches := Slab.slab_init_caches, freePages := [0x20000] }
    buddy := idleBuddy }

end Heap

namespace PMM

/-! ### Bitmap-counting lemmas -/

theorem freeBelow_add_usedBelow (s : PmmState) (n : Nat) :
    freeBelow s n + usedBelow s n = n := by
  induction n with
  | zero => rfl
  | succ n ih =>
    simp only [freeBelow, usedBelow]
    cases pmm_is_page_used_internal s n <;> simp <;> omega

theorem freeBelow_congr {s1 s2 : PmmState} (hb : s1.bitmap = s2.bitmap)
    (ht : s1.total_pages = s2.total_pages) (n : Nat) :
    freeBelow s1 n = freeBelow s2 n := by
  induction n with
  | zero => rfl
  | succ n ih =>
    simp only [freeBelow, pmm_is_page_used_internal, hb, ht, ih]

theorem usedBelow_congr {s1 s2 : PmmState} (hb : s1.bitmap = s2.bitmap)
    (ht : s1.total_pages = s2.total_pages) (n : Nat) :
    usedBelow s1 n = usedBelow s2 n := by
  induction n with
  | zero => rfl
  | succ n ih =>
    simp only [usedBelow, pmm_is_page_used_internal, hb, ht, ih]

@[simp] theorem markUsed_total (s : PmmState) (i : Nat) :
    (pmm_mark_page_used s i).total_pages = s.total_pages := by
  unfold pmm_mark_page_used; split <;> rfl

@[simp] theorem markFree_total (s : PmmState) (i : Nat) :
    (pmm_mark_page_free s i).total_pages = s.total_pages := by
  unfold pmm_mark_page_free; split <;> rfl

@[simp] theorem markUsed_free_pages (s : PmmState) (i : Nat) :
    (pmm_mark_page_used s i).free_pages = s.free_pages := by
  unfold pmm_mark_page_used; split <;> rfl

@[simp] theorem markUsed_used_pages (s : PmmState) (i : Nat) :
    (pmm_mark_page_used s i).used_pages = s.used_pages := by
  unfold pmm_mark_page_used; split <;> rfl

@[simp] theorem markFree_free_pages (s : PmmState) (i : Nat) :
    (pmm_mark_page_free s i).free_pages = s.free_pages := by
  unfold pmm_mark_page_free; split <;> rfl

@[simp] theorem markFree_used_pages (s : PmmState) (i : Nat) :
    (pmm_mark_page_free s i).used_pages = s.used_pages := by
  unfold pmm_mark_page_free; split <;> rfl

@[simp] theorem markUsed_initialized (s : PmmState) (i : Nat) :
    (pmm_mark_page_used s i).initialized = s.initialized := by
  unfold pmm_mark_page_used; split <;> rfl

@[simp] theorem markFree_initialized (s : PmmState) (i : Nat) :
    (pmm_mark_page_free s i).initialized = s.initialized := by
  unfold pmm_mark_page_free; split <;> rfl

@[simp] theorem updateHint_bitmap (s : PmmState) (h : Nat) :
    (pmm_update_hint_locked s h).bitmap = s.bitmap := by
  unfold pmm_update_hint_locked; split <;> rfl

@[simp] theorem updateHint_total (s : PmmState) (h : Nat) :
    (pmm_update_hint_locked s h).total_pages = s.total_pages := by
  unfold pmm_update_hint_locked; split <;> rfl

@[simp] theorem updateHint_free_pages (s : PmmState) (h : Nat) :
    (pmm_update_hint_locked s h).free_pages = s.free_pages := by
  unfold pmm_update_hint_locked; split <;> rfl

@[simp] theorem updateHint_used_pages (s : PmmState) (h : Nat) :
    (pmm_update_hint_locked s h).used_pages = s.used_pages := by
  unfold pmm_update_hint_locked; split <;> rfl

@[simp] theorem updateHint_initialized (s : PmmState) (h : Nat) :
    (pmm_update_hint_locked s h).initialized = s.initialized := by
  unfold pmm_update_hint_locked; split <;> rfl

theorem isUsed_markUsed (s : PmmState) (i j : Nat) :
    pmm_is_page_used_internal (pmm_mark_page_used s i) j =
      if j = i ∧ i < s.total_pages then true
      else pmm_is_page_used_internal s j := by
  unfold pmm_mark_page_used pmm_is_page_used_internal bmSet
  by_cases hi : i < s.total_pages
  · simp only [if_pos hi]
    by_cases hj : j = i <;> simp_all
  · simp only [if_neg hi]
    have hne : ¬(j = i ∧ i < s.total_pages) := fun h => hi h.2
    simp [hne]

theorem isUsed_markFree (s : PmmState) (i j : Nat) :
    pmm_is_page_used_internal (pmm_mark_page_free s i) j =
      if j = i ∧ i < s.total_pages then false
      else pmm_is_page_used_internal s j := by
  unfold pmm_mark_page_free pmm_is_page_used_internal bmSet
  by_cases hi : i < s.total_pages
  · simp only [if_pos hi]
    by_cases hj : j = i <;> simp_all
  · simp only [if_neg hi]
    have hne : ¬(j = i ∧ i < s.total_pages) := fun h => hi h.2
    simp [hne]

theorem freeBelow_markUsed_of_le {s : PmmState} {i : Nat} :
    ∀ n, n ≤ i → freeBelow (pmm_mark_page_used s i) n = freeBelow s n := by
  intro n
  induction n with
  | zero => intro _; rfl
  | succ m ih =>
    intro hn
    simp only [freeBelow]
    rw [isUsed_markUsed, ih (by omega)]
    have hne : ¬(m = i ∧ i < s.total_pages) := by omega
    rw [if_neg hne]

theorem freeBelow_markFree_of_le {s : PmmState} {i : Nat} :
    ∀ n, n ≤ i → freeBelow (pmm_mark_page_free s i) n = freeBelow s n := by
  intro n
  induction n with
  | zero => intro _; rfl
  | succ m ih =>
    intro hn
    simp only [freeBelow]
    rw [isUsed_markFree, ih (by omega)]
    have hne : ¬(m = i ∧ i < s.total_pages) := by omega
    rw [if_neg hne]

theorem freeBelow_markUsed {s : PmmState} {i : Nat}
    (hfree : pmm_is_page_used_internal s i = false) :
    ∀ n, i < n → freeBelow (pmm_mark_page_used s i) n + 1 = freeBelow s n := by
  have hit : i < s.total_pages := by
    by_contra h
    simp [pmm_is_page_used_internal, h] at hfree
  intro n hn
  induction n with
  | zero => omega
  | succ n ih =>
    by_cases hi : i = n
    · subst hi
      simp only [freeBelow]
      rw [isUsed_markUsed, freeBelow_markUsed_of_le i (le_refl i)]
      simp [hit, hfree]
    · have hlt : i < n := by omega
      simp only [freeBelow]
      rw [isUsed_markUsed]
      have hne : ¬(n = i ∧ i < s.total_pages) := by
        intro h; exact hi h.1.symm
      rw [if_neg hne]
      have := ih hlt
      cases pmm_is_page_used_internal s n <;> simp <;> omega

theorem freeBelow_markFree {s : PmmState} {i : Nat}
    (hused : pmm_is_page_used_internal s i = true) (hit : i < s.total_pages) :
    ∀ n, i < n → freeBelow (pmm_mark_page_free s i) n = freeBelow s n + 1 := by
  intro n hn
  induction n with
  | zero => omega
  | succ n ih =>
    by_cases hi : i = n
    · subst hi
      simp only [freeBelow]
      rw [isUsed_markFree, freeBelow_markFree_of_le i (le_refl i)]
      simp [hit, hused]
    · have hlt : i < n := by omega
      simp only [freeBelow]
      rw [isUsed_markFree]
      have hne : ¬(n = i ∧ i < s.total_pages) := by
        intro h; exact hi h.1.symm
      rw [if_neg hne]
      have := ih hlt
      cases pmm_is_page_used_internal s n <;> simp <;> omega

theorem usedBelow_markUsed {s : PmmState} {i : Nat}
    (hfree : pmm_is_page_used_internal s i = false) (n : Nat) (hn : i < n) :
    usedBelow (pmm_mark_page_used s i) n = usedBelow s n + 1 := by
  have h1 := freeBelow_add_usedBelow (pmm_mark_page_used s i) n
  have h2 := freeBelow_add_usedBelow s n
  have h3 := freeBelow_markUsed hfree n hn
  omega

theorem usedBelow_markFree {s : PmmState} {i : Nat}
    (hused : pmm_is_page_used_internal s i = true) (hit : i < s.total_pages)
    (n : Nat) (hn : i < n) :
    usedBelow (pmm_mark_page_free s i) n + 1 = usedBelow s n := by
  have h1 := freeBelow_add_usedBelow (pmm_mark_page_free s i) n
  have h2 := freeBelow_add_usedBelow s n
  have h3 := freeBelow_markFree hused hit n hn
  omega

/-! ### Range-marking lemmas -/

theorem markUsedRange_fields :
    ∀ (count : Nat) (s : PmmState) (start : Nat),
      (markUsedRange s start count).total_pages = s.total_pages ∧
      (markUsedRange s start count).free_pages = s.free_pages ∧
      (markUsedRange s start count).used_pages = s.used_pages ∧
      (markUsedRange s start count).initialized = s.initialized ∧
      (markUsedRange s start count).next_free_hint = s.next_free_hint := by
  intro count
  induction count with
  | zero => intro s start; exact ⟨rfl, rfl, rfl, rfl, rfl⟩
  | succ n ih =>
    intro s start
    have h := ih (pmm_mark_page_used s start) (start + 1)
    have hh : (pmm_mark_page_used s start).next_free_hint = s.next_free_hint := by
      unfold pmm_mark_page_used; split <;> rfl
    simpa [markUsedRange, hh] using h

theorem markFreeRange_fields :
    ∀ (count : Nat) (s : PmmState) (start : Nat),
      (markFreeRange s start count).total_pages = s.total_pages ∧
      (markFreeRange s start count).free_pages = s.free_pages ∧
      (markFreeRange s start count).used_pages = s.used_pages ∧
      (markFreeRange s start count).initialized = s.initialized ∧
      (markFreeRange s start count).next_free_hint = s.next_free_hint := by
  intro count
  induction count with
  | zero => intro s start; exact ⟨rfl, rfl, rfl, rfl, rfl⟩
  | succ n ih =>
    intro s start
    have h := ih (pmm_mark_page_free s start) (start + 1)
    have hh : (pmm_mark_page_free s start).next_free_hint = s.next_free_hint := by
      unfold pmm_mark_page_free; split <;> rfl
    simpa [markFreeRange, hh] using h

theorem freeBelow_markUsedRange :
    ∀ (count : Nat) (s : PmmState) (start n : Nat),
      (∀ k < count, pmm_is_page_used_internal s (start + k) = false) →
      start + count ≤ n →
      freeBelow (markUsedRange s start count) n + count = freeBelow s n := by
  intro count
  induction count with
  | zero => intro s start n _ _; simp [markUsedRange]
  | succ c ih =>
    intro s start n hw hn
    have h0 : pmm_is_page_used_internal s start = false := by
      simpa using hw 0 (by omega)
    have hw' : ∀ k < c,
        pmm_is_page_used_internal (pmm_mark_page_used s start) (start + 1 + k) = false := by
      intro k hk
      rw [isUsed_markUsed]
      have hne : ¬(start + 1 + k = start ∧ start < s.total_pages) := by omega
      rw [if_neg hne]
      have h := hw (k + 1) (by omega)
      have harg : start + (k + 1) = start + 1 + k := by omega
      rwa [harg] at h
    have hstep := ih (pmm_mark_page_used s start) (start + 1) n hw' (by omega)
    have hone := freeBelow_markUsed h0 n (by omega)
    simp only [markUsedRange] at *
    omega

theorem usedBelow_markUsedRange (count : Nat) (s : PmmState) (start n : Nat)
    (hw : ∀ k < count, pmm_is_page_used_internal s (start + k) = false)
    (hn : start + count ≤ n) :
    usedBelow (markUsedRange s start count) n = usedBelow s n + count := by
  have h1 := freeBelow_add_usedBelow (markUsedRange s start count) n
  have h2 := freeBelow_add_usedBelow s n
  have h3 := freeBelow_markUsedRange count s start n hw hn
  omega

theorem freeBelow_markFreeRange :
    ∀ (count : Nat) (s : PmmState) (start n : Nat),
      (∀ k < count, pmm_is_page_used_internal s (start + k) = true) →
      start + count ≤ s.total_pages →
      start + count ≤ n →
      freeBelow (markFreeRange s start count) n = freeBelow s n + count := by
  intro count
  induction count with
  | zero => intro s start n _ _ _; simp [markFreeRange]
  | succ c ih =>
    intro s start n hw ht hn
    have h0 : pmm_is_page_used_internal s start = true := by
      simpa using hw 0 (by omega)
    have hw' : ∀ k < c,
        pmm_is_page_used_internal (pmm_mark_page_free s start) (start + 1 + k) = true := by
      intro k hk
      rw [isUsed_markFree]
      have hne : ¬(start + 1 + k = start ∧ start < s.total_pages) := by omega
      rw [if_neg hne]
      have h := hw (k + 1) (by omega)
      have harg : start + (k + 1) = start + 1 + k := by omega
      rwa [harg] at h
    have hstep := ih (pmm_mark_page_free s start) (start + 1) n hw'
      (by simp; omega) (by omega)
    have hone := freeBelow_markFree h0 (by omega) n (by omega)
    simp only [markFreeRange] at *
    omega

theorem usedBelow_markFreeRange (count : Nat) (s : PmmState) (start n : Nat)
    (hw : ∀ k < count, pmm_is_page_used_internal s (start + k) = true)
    (ht : start + count ≤ s.total_pages) (hn : start + count ≤ n) :
    usedBelow (markFreeRange s start count) n + count = usedBelow s n := by
  have h1 := freeBelow_add_usedBelow (markFreeRange s start count) n
  have h2 := freeBelow_add_usedBelow s n
  have h3 := freeBelow_markFreeRange count s start n hw ht hn
  omega

/-! ### Search-result lemmas -/

theorem scanFreeAux_some {s : PmmState} :
    ∀ fuel i r, scanFreeAux s fuel i = some r →
      pmm_is_page_used_internal s r = false ∧ i ≤ r ∧ r < i + fuel ∧
      ∀ j, i ≤ j → j < r → pmm_is_page_used_internal s j = true := by
  intro fuel
  induction fuel with
  | zero => intro i r h; simp [scanFreeAux] at h
  | succ f ih =>
    intro i r h
    simp only [scanFreeAux] at h
    by_cases hu : pmm_is_page_used_internal s i = true
    · rw [if_pos hu] at h
      obtain ⟨h1, h2, h3, h4⟩ := ih (i + 1) r h
      refine ⟨h1, by omega, by omega, ?_⟩
      intro j hj1 hj2
      rcases Nat.eq_or_lt_of_le hj1 with rfl | hlt
      · exact hu
      · exact h4 j hlt hj2
    · rw [if_neg hu] at h
      cases h
      exact ⟨by simpa using hu, le_refl i, by omega, fun j hj1 hj2 => by omega⟩

theorem scanFreeAux_none {s : PmmState} :
    ∀ fuel i, scanFreeAux s fuel i = none →
      ∀ j, i ≤ j → j < i + fuel → pmm_is_page_used_internal s j = true := by
  intro fuel
  induction fuel with
  | zero => intro i _ j hj1 hj2; omega
  | succ f ih =>
    intro i h j hj1 hj2
    simp only [scanFreeAux] at h
    by_cases hu : pmm_is_page_used_internal s i = true
    · rw [if_pos hu] at h
      rcases Nat.eq_or_lt_of_le hj1 with rfl | hlt
      · exact hu
      · exact ih (i + 1) h j hlt (by omega)
    · rw [if_neg hu] at h
      cases h

theorem firstUsedFrom_none {s : PmmState} :
    ∀ n p, firstUsedFrom s p n = none →
      ∀ k < n, pmm_is_page_used_internal s (p + k) = false := by
  intro n
  induction n with
  | zero => intro p _ k hk; omega
  | succ m ih =>
    intro p h k hk
    simp only [firstUsedFrom] at h
    by_cases hu : pmm_is_page_used_internal s p = true
    · rw [if_pos hu] at h; cases h
    · rw [if_neg hu] at h
      rcases Option.map_eq_none'.mp h with h'
      match k with
      | 0 => simpa using hu
      | k + 1 =>
        have := ih (p + 1) h' k (by omega)
        have harg : p + (k + 1) = p + 1 + k := by omega
        rwa [harg]

theorem findRunAux_some {s : PmmState} {count : Nat} {ok : Nat → Bool}
    {stop bound : Nat} :
    ∀ fuel start r, findRunAux s count ok stop bound fuel start = some r →
      r + count ≤ stop ∧ ∀ k < count, pmm_is_page_used_internal s (r + k) = false := by
  intro fuel
  induction fuel with
  | zero => intro start r h; simp [findRunAux] at h
  | succ f ih =>
    intro start r h
    simp only [findRunAux] at h
    by_cases hc : (start < bound && start + count ≤ stop) = true
    · rw [if_pos hc] at h
      by_cases hok : ok start = true
      · rw [if_pos hok] at h
        cases hfu : firstUsedFrom s start count with
        | none =>
          rw [hfu] at h
          have hc' : start < bound ∧ start + count ≤ stop := by simpa using hc
          cases h
          exact ⟨hc'.2, firstUsedFrom_none count start hfu⟩
        | some i =>
          rw [hfu] at h
          exact ih _ r h
      · rw [if_neg hok] at h
        exact ih _ r h
    · rw [if_neg hc] at h
      cases h

theorem findRun_some {s : PmmState} {count : Nat} {ok : Nat → Bool}
    {stop bound start r : Nat}
    (h : findRun s count ok stop bound start = some r) :
    r + count ≤ stop ∧ ∀ k < count, pmm_is_page_used_internal s (r + k) = false :=
  findRunAux_some _ start r h

theorem anyFreeIn_false {s : PmmState} :
    ∀ count start, anyFreeIn s start count = false →
      ∀ k < count, pmm_is_page_used_internal s (start + k) = true := by
  intro count
  induction count with
  | zero => intro start _ k hk; omega
  | succ c ih =>
    intro start h k hk
    simp only [anyFreeIn, Bool.or_eq_false_iff] at h
    match k with
    | 0 =>
      have := h.1
      simpa using by
        cases hu : pmm_is_page_used_internal s start with
        | false => rw [hu] at this; simp at this
        | true => rfl
    | k + 1 =>
      have hr := ih (start + 1) h.2 k (by omega)
      have harg : start + (k + 1) = start + 1 + k := by omega
      rwa [harg]

/-! ### Invariant preservation for the public PMM operations -/

/-! ### Invariant preservation for the public PMM operations -/

theorem pmm_find_free_page_isFree {s : PmmState} {hint p : Nat}
    (hfind : pmm_find_free_page_from s hint = p) (hlt : p < s.total_pages) :
    pmm_is_page_used_internal s p = false := by
  unfold pmm_find_free_page_from at hfind
  cases h1 : scanFree s hint s.total_pages with
  | some i =>
    simp only [h1] at hfind
    subst hfind
    exact (scanFreeAux_some _ _ _ h1).1
  | none =>
    simp only [h1] at hfind
    cases h2 : scanFree s 0 hint with
    | some i =>
      simp only [h2] at hfind
      subst hfind
      exact (scanFreeAux_some _ _ _ h2).1
    | none =>
      simp only [h2] at hfind
      omega

theorem pmmInv_of_counts {s s' : PmmState}
    (hb : s'.bitmap = s.bitmap) (ht : s'.total_pages = s.total_pages)
    (hi : s'.initialized = true)
    (hf : s'.free_pages = freeBelow s s.total_pages)
    (hu : s'.used_pages = usedBelow s s.total_pages) : pmmInv s' := by
  refine ⟨hi, ?_, ?_⟩
  · rw [hf, ht, freeBelow_congr hb ht]
  · rw [hu, ht, usedBelow_congr hb ht]

theorem pmmInv_alloc_core {s : PmmState} (hInv : pmmInv s) {p count : Nat}
    (hw : ∀ k < count, pmm_is_page_used_internal s (p + k) = false)
    (hrange : p + count ≤ s.total_pages) (newhint : Nat) :
    pmmInv (pmm_update_hint_locked
      { markUsedRange s p count with
          free_pages := (markUsedRange s p count).free_pages - count
          used_pages := (markUsedRange s p count).used_pages + count
          alloc_count := (markUsedRange s p count).alloc_count + 1 } newhint) := by
  obtain ⟨hInit, hFree, hUsed⟩ := hInv
  obtain ⟨hT, hF, hU, hI, _⟩ := markUsedRange_fields count s p
  have hfb := freeBelow_markUsedRange count s p s.total_pages hw hrange
  have hub := usedBelow_markUsedRange count s p s.total_pages hw hrange
  apply pmmInv_of_counts (s := markUsedRange s p count)
  · simp only [updateHint_bitmap]
  · simp only [updateHint_total]
  · simp only [updateHint_initialized]
    show (markUsedRange s p count).initialized = true
    rw [hI, hInit]
  · simp only [updateHint_free_pages]
    show (markUsedRange s p count).free_pages - count =
      freeBelow (markUsedRange s p count) (markUsedRange s p count).total_pages
    rw [hF, hT]
    omega
  · simp only [updateHint_used_pages]
    show (markUsedRange s p count).used_pages + count =
      usedBelow (markUsedRange s p count) (markUsedRange s p count).total_pages
    rw [hU, hT]
    omega

theorem pmmInv_alloc_page {s : PmmState} (hInv : pmmInv s) {a : Nat} {s' : PmmState}
    (h : pmm_alloc_page s = some (a, s')) : pmmInv s' := by
  have hInit := hInv.1
  unfold pmm_alloc_page at h
  rw [hInit] at h
  simp only [Bool.not_true, Bool.false_eq_true, if_false] at h
  by_cases hf0 : s.free_pages = 0
  · rw [if_pos hf0] at h; cases h
  rw [if_neg hf0] at h
  by_cases hlt : s.total_pages ≤ pmm_find_free_page_from s s.next_free_hint
  · rw [if_pos hlt] at h; cases h
  rw [if_neg hlt] at h
  have hpfree : pmm_is_page_used_internal s
      (pmm_find_free_page_from s s.next_free_hint) = false :=
    pmm_find_free_page_isFree rfl (by omega)
  have hwin : ∀ k < 1, pmm_is_page_used_internal s
      (pmm_find_free_page_from s s.next_free_hint + k) = false := by
    intro k hk
    match k, hk with
    | 0, _ => simpa using hpfree
  have hcore := pmmInv_alloc_core hInv hwin (by omega)
    (pmm_find_free_page_from s s.next_free_hint + 1)
  cases h
  exact hcore

theorem pmmInv_alloc_pages {s : PmmState} (hInv : pmmInv s) {count a : Nat}
    {s' : PmmState} (h : pmm_alloc_pages s count = some (a, s')) : pmmInv s' := by
  have hInit := hInv.1
  unfold pmm_alloc_pages at h
  rw [hInit] at h
  by_cases hc0 : count = 0
  · simp [hc0] at h
  simp only [Bool.not_true, Bool.false_or, hc0, decide_False, Bool.false_eq_true,
    if_false] at h
  by_cases hf0 : s.free_pages < count
  · rw [if_pos hf0] at h; cases h
  rw [if_neg hf0] at h
  by_cases hlt : s.total_pages ≤ pmm_find_free_pages_from s s.next_free_hint count
  · rw [if_pos hlt] at h; cases h
  rw [if_neg hlt] at h
  have hspec : pmm_find_free_pages_from s s.next_free_hint count + count ≤ s.total_pages ∧
      ∀ k < count, pmm_is_page_used_internal s
        (pmm_find_free_pages_from s s.next_free_hint count + k) = false := by
    unfold pmm_find_free_pages_from at hlt ⊢
    cases h1 : findRun s count (fun _ => true) s.total_pages (s.total_pages + 1)
        s.next_free_hint with
    | some r => simp only [h1]; exact findRun_some h1
    | none =>
      simp only [h1]
      cases h2 : findRun s count (fun _ => true) s.total_pages s.next_free_hint 0 with
      | some r => simp only [h2]; exact findRun_some h2
      | none =>
        simp only [h1, h2] at hlt
        omega
  have hcore := pmmInv_alloc_core hInv hspec.2 hspec.1
    (pmm_find_free_pages_from s s.next_free_hint count + count)
  cases h
  exact hcore

theorem pmmInv_alloc_pages_in_range {s : PmmState} (hInv : pmmInv s)
    {count lo hi a : Nat} {s' : PmmState}
    (h : pmm_alloc_pages_in_range s count lo hi = some (a, s')) : pmmInv s' := by
  have hInit := hInv.1
  unfold pmm_alloc_pages_in_range at h
  rw [hInit] at h
  by_cases hc0 : count = 0
  · simp [hc0] at h
  by_cases hrange : hi ≤ lo
  · simp [hrange] at h
  simp only [Bool.not_true, Bool.false_or, hc0, hrange, decide_False,
    Bool.or_false, Bool.false_eq_true, if_false] at h
  by_cases hsp : s.total_pages ≤ ADDR_TO_PAGE (PAGE_ALIGN_UP lo)
  · rw [if_pos hsp] at h; cases h
  rw [if_neg hsp] at h
  set ep := if s.total_pages < ADDR_TO_PAGE (PAGE_ALIGN_DOWN hi) then s.total_pages
            else ADDR_TO_PAGE (PAGE_ALIGN_DOWN hi) with hep
  have heple : ep ≤ s.total_pages := by
    rw [hep]; split <;> omega
  by_cases hcnt : ep < ADDR_TO_PAGE (PAGE_ALIGN_UP lo) + count
  · rw [if_pos hcnt] at h; cases h
  rw [if_neg hcnt] at h
  cases hfr : findRun s count (fun _ => true) ep (ep + 1) (ADDR_TO_PAGE (PAGE_ALIGN_UP lo)) with
  | none => rw [hfr] at h; cases h
  | some p =>
    rw [hfr] at h
    obtain ⟨hw1, hw2⟩ := findRun_some hfr
    have hcore := pmmInv_alloc_core hInv hw2 (by omega) (p + count)
    cases h
    exact hcore

theorem pmmInv_alloc_aligned {s : PmmState} (hInv : pmmInv s)
    {pages align a : Nat} {s' : PmmState}
    (h : pmm_alloc_aligned s pages align = some (a, s')) : pmmInv s' := by
  have hInit := hInv.1
  unfold pmm_alloc_aligned at h
  rw [hInit] at h
  by_cases hc0 : pages = 0
  · simp [hc0] at h
  simp only [Bool.not_true, Bool.false_or, hc0, decide_False, Bool.false_eq_true,
    if_false] at h
  by_cases hal : (decide (align < PAGE_SIZE) || decide (Nat.land align (align - 1) ≠ 0)) = true
  · rw [if_pos hal] at h; cases h
  rw [if_neg hal] at h
  cases h1 : findRun s pages (fun p => PAGE_TO_ADDR p % align == 0) s.total_pages
      (s.total_pages + 1) s.next_free_hint with
  | some p =>
    simp only [h1] at h
    obtain ⟨hw1, hw2⟩ := findRun_some h1
    have hcore := pmmInv_alloc_core hInv hw2 hw1 (p + pages)
    cases h
    exact hcore
  | none =>
    simp only [h1] at h
    cases h2 : findRun s pages (fun p => PAGE_TO_ADDR p % align == 0) s.total_pages
        s.next_free_hint 0 with
    | none => simp only [h2] at h; cases h
    | some p =>
      simp only [h2] at h
      obtain ⟨hw1, hw2⟩ := findRun_some h2
      have hcore := pmmInv_alloc_core hInv hw2 hw1 (p + pages)
      cases h
      exact hcore

theorem pmmInv_free_core {s : PmmState} (hInv : pmmInv s) {p count : Nat}
    (hw : ∀ k < count, pmm_is_page_used_internal s (p + k) = true)
    (hrange : p + count ≤ s.total_pages) (cond : Prop) [Decidable cond] :
    pmmInv (
      if cond
      then pmm_update_hint_locked ({ markFreeRange s p count with
          free_pages := (markFreeRange s p count).free_pages + count
          used_pages := (markFreeRange s p count).used_pages - count
          free_count := (markFreeRange s p count).free_count + 1 } : PmmState) p
      else ({ markFreeRange s p count with
          free_pages := (markFreeRange s p count).free_pages + count
          used_pages := (markFreeRange s p count).used_pages - count
          free_count := (markFreeRange s p count).free_count + 1 } : PmmState)) := by
  obtain ⟨hInit, hFree, hUsed⟩ := hInv
  obtain ⟨hT, hF, hU, hI, _⟩ := markFreeRange_fields count s p
  have hfb := freeBelow_markFreeRange count s p s.total_pages hw hrange hrange
  have hub := usedBelow_markFreeRange count s p s.total_pages hw hrange hrange
  have main : pmmInv ({ markFreeRange s p count with
      free_pages := (markFreeRange s p count).free_pages + count
      used_pages := (markFreeRange s p count).used_pages - count
      free_count := (markFreeRange s p count).free_count + 1 } : PmmState) := by
    apply pmmInv_of_counts (s := markFreeRange s p count)
    · rfl
    · rfl
    · show (markFreeRange s p count).initialized = true
      rw [hI, hInit]
    · show (markFreeRange s p count).free_pages + count =
        freeBelow (markFreeRange s p count) (markFreeRange s p count).total_pages
      rw [hF, hT]
      omega
    · show (markFreeRange s p count).used_pages - count =
        usedBelow (markFreeRange s p count) (markFreeRange s p count).total_pages
      rw [hU, hT]
      omega
  split
  · apply pmmInv_of_counts (s := ({ markFreeRange s p count with
        free_pages := (markFreeRange s p count).free_pages + count
        used_pages := (markFreeRange s p count).used_pages - count
        free_count := (markFreeRange s p count).free_count + 1 } : PmmState))
    · exact updateHint_bitmap _ _
    · exact updateHint_total _ _
    · rw [updateHint_initialized]
      exact main.1
    · rw [updateHint_free_pages]
      exact main.2.1
    · rw [updateHint_used_pages]
      exact main.2.2
  · exact main

theorem pmmInv_free_page {s : PmmState} (hInv : pmmInv s) {addr : Nat}
    {r : PmmResult} {s' : PmmState} (h : pmm_free_page s addr = (r, s')) :
    pmmInv s' := by
  have hInit := hInv.1
  unfold pmm_free_page at h
  rw [hInit] at h
  simp only [Bool.not_true, Bool.false_eq_true, if_false] at h
  by_cases h0 : addr = 0
  · rw [if_pos h0] at h; cases h; exact hInv
  rw [if_neg h0] at h
  by_cases ha : addr % PAGE_SIZE ≠ 0
  · rw [if_pos ha] at h; cases h; exact hInv
  rw [if_neg ha] at h
  by_cases hp : s.total_pages ≤ ADDR_TO_PAGE addr
  · rw [if_pos hp] at h; cases h; exact hInv
  rw [if_neg hp] at h
  by_cases hu : pmm_is_page_used_internal s (ADDR_TO_PAGE addr) = true
  · rw [hu] at h
    simp only [Bool.not_true, Bool.false_eq_true, if_false] at h
    have hw : ∀ k < 1, pmm_is_page_used_internal s (ADDR_TO_PAGE addr + k) = true := by
      intro k hk
      match k, hk with
      | 0, _ => simpa using hu
    have hcore := pmmInv_free_core hInv hw (by omega)
      (ADDR_TO_PAGE addr < ({ pmm_mark_page_free s (ADDR_TO_PAGE addr) with
        free_pages := (pmm_mark_page_free s (ADDR_TO_PAGE addr)).free_pages + 1
        used_pages := (pmm_mark_page_free s (ADDR_TO_PAGE addr)).used_pages - 1
        free_count := (pmm_mark_page_free s (ADDR_TO_PAGE addr)).free_count + 1 } :
          PmmState).next_free_hint)
    cases h
    exact hcore
  · rw [Bool.not_eq_true] at hu
    rw [hu] at h
    simp only [Bool.not_false, if_true] at h
    cases h
    exact hInv

theorem pmmInv_free_pages {s : PmmState} (hInv : pmmInv s) {addr count : Nat}
    {r : PmmResult} {s' : PmmState} (h : pmm_free_pages s addr count = (r, s')) :
    pmmInv s' := by
  have hInit := hInv.1
  unfold pmm_free_pages at h
  rw [hInit] at h
  simp only [Bool.not_true, Bool.false_eq_true, if_false] at h
  by_cases h0 : (addr = 0 || count = 0) = true
  · rw [if_pos h0] at h; cases h; exact hInv
  rw [if_neg h0] at h
  by_cases ha : addr % PAGE_SIZE ≠ 0
  · rw [if_pos ha] at h; cases h; exact hInv
  rw [if_neg ha] at h
  by_cases hp : s.total_pages < ADDR_TO_PAGE addr + count
  · rw [if_pos hp] at h; cases h; exact hInv
  rw [if_neg hp] at h
  by_cases hf : anyFreeIn s (ADDR_TO_PAGE addr) count = true
  · rw [hf] at h
    simp only [if_true] at h
    cases h
    exact hInv
  · rw [Bool.not_eq_true] at hf
    rw [hf] at h
    simp only [Bool.false_eq_true, if_false] at h
    have hw := anyFreeIn_false count (ADDR_TO_PAGE addr) hf
    have hcore := pmmInv_free_core hInv hw (by omega)
      (ADDR_TO_PAGE addr < ({ markFreeRange s (ADDR_TO_PAGE addr) count with
        free_pages := (markFreeRange s (ADDR_TO_PAGE addr) count).free_pages + count
        used_pages := (markFreeRange s (ADDR_TO_PAGE addr) count).used_pages - count
        free_count := (markFreeRange s (ADDR_TO_PAGE addr) count).free_count + 1 } :
          PmmState).next_free_hint)
    cases h
    exact hcore

theorem pmmInv_apply_op {s : PmmState} (hInv : pmmInv s) (op : PmmOp) :
    pmmInv (pmm_apply_op s op) := by
  cases op with
  | allocPage =>
    simp only [pmm_apply_op]
    cases h : pmm_alloc_page s with
    | some v =>
      obtain ⟨a, s2⟩ := v
      exact pmmInv_alloc_page hInv h
    | none => exact hInv
  | allocPages count =>
    simp only [pmm_apply_op]
    cases h : pmm_alloc_pages s count with
    | some v =>
      obtain ⟨a, s2⟩ := v
      exact pmmInv_alloc_pages hInv h
    | none => exact hInv
  | freePage addr =>
    exact pmmInv_free_page hInv rfl
  | freePages addr count =>
    exact pmmInv_free_pages hInv rfl
  | allocPagesInRange count lo hi =>
    simp only [pmm_apply_op]
    cases h : pmm_alloc_pages_in_range s count lo hi with
    | some v =>
      obtain ⟨a, s2⟩ := v
      exact pmmInv_alloc_pages_in_range hInv h
    | none => exact hInv
  | allocAligned pages align =>
    simp only [pmm_apply_op]
    cases h : pmm_alloc_aligned s pages align with
    | some v =>
      obtain ⟨a, s2⟩ := v
      exact pmmInv_alloc_aligned hInv h
    | none => exact hInv

theorem pmmInv_apply_ops {s : PmmState} (hInv : pmmInv s) (ops : List PmmOp) :
    pmmInv (pmm_apply_ops s ops) := by
  induction ops generalizing s with
  | nil => exact hInv
  | cons op rest ih => exact ih (pmmInv_apply_op hInv op)


theorem pmmInv_update_stats_wrap (x : PmmState) :
    pmmInv { pmm_update_hint_locked (pmm_update_stats x) 0 with initialized := true } := by
  have hb : ({ pmm_update_hint_locked (pmm_update_stats x) 0 with
      initialized := true } : PmmState).bitmap = x.bitmap := by
    show (pmm_update_hint_locked (pmm_update_stats x) 0).bitmap = _
    rw [updateHint_bitmap]
    rfl
  have ht : ({ pmm_update_hint_locked (pmm_update_stats x) 0 with
      initialized := true } : PmmState).total_pages = x.total_pages := by
    show (pmm_update_hint_locked (pmm_update_stats x) 0).total_pages = _
    rw [updateHint_total]
    rfl
  refine ⟨rfl, ?_, ?_⟩
  · have h1 : ({ pmm_update_hint_locked (pmm_update_stats x) 0 with
        initialized := true } : PmmState).free_pages = freeBelow x x.total_pages := by
      show (pmm_update_hint_locked (pmm_update_stats x) 0).free_pages = _
      rw [updateHint_free_pages]
      rfl
    rw [h1, ht, freeBelow_congr hb ht]
  · have h1 : ({ pmm_update_hint_locked (pmm_update_stats x) 0 with
        initialized := true } : PmmState).used_pages = usedBelow x x.total_pages := by
      show (pmm_update_hint_locked (pmm_update_stats x) 0).used_pages = _
      rw [updateHint_used_pages]
      rfl
    rw [h1, ht, usedBelow_congr hb ht]

theorem pmmInv_init {regions : List MemoryRegion} {s : PmmState}
    (h : pmm_init regions = some s) : pmmInv s := by
  unfold pmm_init at h
  by_cases he : regions.isEmpty
  · rw [if_pos he] at h; cases h
  rw [if_neg he] at h
  cases hf : regions.find? (fun r =>
      r.type = MemoryType.usable &&
      (ADDR_TO_PAGE (regions.foldl (fun acc r => max acc (regionEnd r)) 0) + 7) / 8 ≤
        r.length &&
      (ADDR_TO_PAGE (regions.foldl (fun acc r => max acc (regionEnd r)) 0) + 7) / 8 ≤
        u64sub (regionEnd r) (PAGE_ALIGN_UP r.base)) with
  | none =>
    simp only [hf] at h
    cases h
  | some reg =>
    simp only [hf] at h
    cases h
    exact pmmInv_update_stats_wrap _

/-! ### Further PMM facts used by the scenario claims -/

theorem isUsed_congr {s1 s2 : PmmState} (hb : s1.bitmap = s2.bitmap)
    (ht : s1.total_pages = s2.total_pages) (i : Nat) :
    pmm_is_page_used_internal s1 i = pmm_is_page_used_internal s2 i := by
  unfold pmm_is_page_used_internal
  rw [hb, ht]

theorem scanFreeAux_hits {s : PmmState} :
    ∀ fuel i q, i ≤ q → q < i + fuel → pmm_is_page_used_internal s q = false →
      (∀ j, i ≤ j → j < q → pmm_is_page_used_internal s j = true) →
      scanFreeAux s fuel i = some q := by
  intro fuel
  induction fuel with
  | zero => intro i q h1 h2; omega
  | succ f ih =>
    intro i q h1 h2 hq hmin
    simp only [scanFreeAux]
    by_cases hi : i = q
    · subst hi
      rw [hq]
      simp
    · have hiu : pmm_is_page_used_internal s i = true := hmin i (le_refl i) (by omega)
      rw [hiu]
      simp only [if_true]
      exact ih (i + 1) q (by omega) (by omega) hq (fun j hj1 hj2 => hmin j (by omega) hj2)

theorem shiftLeft12_shiftRight12 (p : Nat) : (p <<< 12) >>> 12 = p := by
  rw [Nat.shiftLeft_eq, Nat.shiftRight_eq_div_pow]
  exact Nat.mul_div_cancel p (by norm_num)

theorem shiftLeft12_mod (p : Nat) : (p <<< 12) % 4096 = 0 := by
  rw [Nat.shiftLeft_eq]
  simp [Nat.mul_mod_left]

theorem shiftLeft12_eq_zero {p : Nat} (h : p <<< 12 = 0) : p = 0 := by
  rw [Nat.shiftLeft_eq] at h
  omega

theorem updateHint_zero_hint (x : PmmState) :
    (pmm_update_hint_locked x 0).next_free_hint = 0 := by
  unfold pmm_update_hint_locked
  split <;> rfl

theorem init_hint_zero {regions : List MemoryRegion} {s : PmmState}
    (h : pmm_init regions = some s) : s.next_free_hint = 0 := by
  unfold pmm_init at h
  by_cases he : regions.isEmpty
  · rw [if_pos he] at h; cases h
  rw [if_neg he] at h
  cases hf : regions.find? (fun r =>
      r.type = MemoryType.usable &&
      (ADDR_TO_PAGE (regions.foldl (fun acc r => max acc (regionEnd r)) 0) + 7) / 8 ≤
        r.length &&
      (ADDR_TO_PAGE (regions.foldl (fun acc r => max acc (regionEnd r)) 0) + 7) / 8 ≤
        u64sub (regionEnd r) (PAGE_ALIGN_UP r.base)) with
  | none =>
    simp only [hf] at h
    cases h
  | some reg =>
    simp only [hf] at h
    cases h
    exact updateHint_zero_hint _

theorem isUsed_zero_after_mark (x : PmmState) :
    pmm_is_page_used_internal (pmm_mark_page_used x 0) 0 = true := by
  rw [isUsed_markUsed]
  unfold pmm_is_page_used_internal
  by_cases h0 : 0 < x.total_pages <;> simp [h0]

theorem isUsed_zero_wrap (x : PmmState) :
    pmm_is_page_used_internal
      { pmm_update_hint_locked (pmm_update_stats (pmm_mark_page_used x 0)) 0 with
        initialized := true } 0 = true := by
  have hb : ({ pmm_update_hint_locked (pmm_update_stats (pmm_mark_page_used x 0)) 0 with
      initialized := true } : PmmState).bitmap = (pmm_mark_page_used x 0).bitmap := by
    show (pmm_update_hint_locked (pmm_update_stats (pmm_mark_page_used x 0)) 0).bitmap = _
    rw [updateHint_bitmap]
    rfl
  have ht : ({ pmm_update_hint_locked (pmm_update_stats (pmm_mark_page_used x 0)) 0 with
      initialized := true } : PmmState).total_pages = (pmm_mark_page_used x 0).total_pages := by
    show (pmm_update_hint_locked (pmm_update_stats (pmm_mark_page_used x 0)) 0).total_pages = _
    rw [updateHint_total]
    rfl
  rw [isUsed_congr hb ht]
  exact isUsed_zero_after_mark x

theorem init_page0_used {regions : List MemoryRegion} {s : PmmState}
    (h : pmm_init regions = some s) : pmm_is_page_used_internal s 0 = true := by
  unfold pmm_init at h
  by_cases he : regions.isEmpty
  · rw [if_pos he] at h; cases h
  rw [if_neg he] at h
  cases hf : regions.find? (fun r =>
      r.type = MemoryType.usable &&
      (ADDR_TO_PAGE (regions.foldl (fun acc r => max acc (regionEnd r)) 0) + 7) / 8 ≤
        r.length &&
      (ADDR_TO_PAGE (regions.foldl (fun acc r => max acc (regionEnd r)) 0) + 7) / 8 ≤
        u64sub (regionEnd r) (PAGE_ALIGN_UP r.base)) with
  | none =>
    simp only [hf] at h
    cases h
  | some reg =>
    simp only [hf] at h
    cases h
    exact isUsed_zero_wrap _

theorem init_initialized {regions : List MemoryRegion} {s : PmmState}
    (h : pmm_init regions = some s) : s.initialized = true :=
  (pmmInv_init h).1

@[simp] theorem markUsed_hint (s : PmmState) (i : Nat) :
    (pmm_mark_page_used s i).next_free_hint = s.next_free_hint := by
  unfold pmm_mark_page_used; split <;> rfl

@[simp] theorem markFree_hint (s : PmmState) (i : Nat) :
    (pmm_mark_page_free s i).next_free_hint = s.next_free_hint := by
  unfold pmm_mark_page_free; split <;> rfl

theorem updateHint_hint (x : PmmState) (h : Nat) :
    (pmm_update_hint_locked x h).next_free_hint =
      if h < x.total_pages then h else 0 := by
  unfold pmm_update_hint_locked
  split <;> simp_all

theorem scanFree_hits {s : PmmState} {start stop q : Nat} (h1 : start ≤ q)
    (h2 : q < stop) (hq : pmm_is_page_used_internal s q = false)
    (hmin : ∀ j, start ≤ j → j < q → pmm_is_page_used_internal s j = true) :
    scanFree s start stop = some q :=
  scanFreeAux_hits (stop - start) start q h1 (by omega) hq hmin

/-- Inversion of a successful `pmm_alloc_page`: the allocated page index, and
how every observable component of the successor state relates to the input
state. -/
theorem alloc_page_succ {s : PmmState} {a : Nat} {s' : PmmState}
    (h : pmm_alloc_page s = some (a, s')) :
    ∃ p, a = PAGE_TO_ADDR p ∧ p < s.total_pages ∧
      p = pmm_find_free_page_from s s.next_free_hint ∧
      s.free_pages ≠ 0 ∧ s.initialized = true ∧
      s'.total_pages = s.total_pages ∧
      s'.initialized = s.initialized ∧
      s'.free_pages = s.free_pages - 1 ∧
      s'.next_free_hint = (if p + 1 < s.total_pages then p + 1 else 0) ∧
      (∀ j, pmm_is_page_used_internal s' j =
        if j = p ∧ p < s.total_pages then true else pmm_is_page_used_internal s j) := by
  have hinit : s.initialized = true := by
    by_contra hc
    unfold pmm_alloc_page at h
    simp [Bool.not_eq_true] at hc
    rw [hc] at h
    simp at h
  unfold pmm_alloc_page at h
  rw [hinit] at h
  simp only [Bool.not_true, Bool.false_eq_true, if_false] at h
  by_cases hf0 : s.free_pages = 0
  · rw [if_pos hf0] at h; cases h
  rw [if_neg hf0] at h
  by_cases hlt : s.total_pages ≤ pmm_find_free_page_from s s.next_free_hint
  · rw [if_pos hlt] at h; cases h
  rw [if_neg hlt] at h
  cases h
  refine ⟨pmm_find_free_page_from s s.next_free_hint, rfl, by omega, rfl, hf0, hinit,
    ?_, ?_, ?_, ?_, ?_⟩
  · rw [updateHint_total]
    show (pmm_mark_page_used s _).total_pages = s.total_pages
    rw [markUsed_total]
  · rw [updateHint_initialized]
    show (pmm_mark_page_used s _).initialized = s.initialized
    rw [markUsed_initialized]
  · rw [updateHint_free_pages]
    show (pmm_mark_page_used s _).free_pages - 1 = s.free_pages - 1
    rw [markUsed_free_pages]
  · rw [updateHint_hint]
    show (if _ < (pmm_mark_page_used s _).total_pages then _ else 0) = _
    rw [markUsed_total]
  · intro j
    have hb : (pmm_update_hint_locked
        { pmm_mark_page_used s (pmm_find_free_page_from s s.next_free_hint) with
          free_pages := (pmm_mark_page_used s
            (pmm_find_free_page_from s s.next_free_hint)).free_pages - 1
          used_pages := (pmm_mark_page_used s
            (pmm_find_free_page_from s s.next_free_hint)).used_pages + 1
          alloc_count := (pmm_mark_page_used s
            (pmm_find_free_page_from s s.next_free_hint)).alloc_count + 1 }
        (pmm_find_free_page_from s s.next_free_hint + 1)).bitmap =
        (pmm_mark_page_used s (pmm_find_free_page_from s s.next_free_hint)).bitmap := by
      rw [updateHint_bitmap]
    have ht : (pmm_update_hint_locked
        { pmm_mark_page_used s (pmm_find_free_page_from s s.next_free_hint) with
          free_pages := (pmm_mark_page_used s
            (pmm_find_free_page_from s s.next_free_hint)).free_pages - 1
          used_pages := (pmm_mark_page_used s
            (pmm_find_free_page_from s s.next_free_hint)).used_pages + 1
          alloc_count := (pmm_mark_page_used s
            (pmm_find_free_page_from s s.next_free_hint)).alloc_count + 1 }
        (pmm_find_free_page_from s s.next_free_hint + 1)).total_pages =
        (pmm_mark_page_used s (pmm_find_free_page_from s s.next_free_hint)).total_pages := by
      rw [updateHint_total]
    rw [isUsed_congr hb ht, isUsed_markUsed]

/-- Inversion of a successful validation path of `pmm_free_page`. -/
theorem free_page_succ {s : PmmState} {addr : Nat}
    (hinit : s.initialized = true) (h0 : addr ≠ 0) (hal : addr % PAGE_SIZE = 0)
    (hlt : ADDR_TO_PAGE addr < s.total_pages)
    (hused : pmm_is_page_used_internal s (ADDR_TO_PAGE addr) = true) :
    (pmm_free_page s addr).1 = PmmResult.success ∧
    (pmm_free_page s addr).2.total_pages = s.total_pages ∧
    (pmm_free_page s addr).2.initialized = s.initialized ∧
    (pmm_free_page s addr).2.free_pages = s.free_pages + 1 ∧
    (pmm_free_page s addr).2.next_free_hint =
      (if ADDR_TO_PAGE addr < s.next_free_hint then ADDR_TO_PAGE addr
       else s.next_free_hint) ∧
    ∀ j, pmm_is_page_used_internal (pmm_free_page s addr).2 j =
      (if j = ADDR_TO_PAGE addr ∧ ADDR_TO_PAGE addr < s.total_pages then false
       else pmm_is_page_used_internal s j) := by
  have hexp : pmm_free_page s addr = (PmmResult.success,
      if ADDR_TO_PAGE addr < ({ pmm_mark_page_free s (ADDR_TO_PAGE addr) with
          free_pages := (pmm_mark_page_free s (ADDR_TO_PAGE addr)).free_pages + 1
          used_pages := (pmm_mark_page_free s (ADDR_TO_PAGE addr)).used_pages - 1
          free_count := (pmm_mark_page_free s (ADDR_TO_PAGE addr)).free_count + 1 } :
            PmmState).next_free_hint
      then pmm_update_hint_locked ({ pmm_mark_page_free s (ADDR_TO_PAGE addr) with
          free_pages := (pmm_mark_page_free s (ADDR_TO_PAGE addr)).free_pages + 1
          used_pages := (pmm_mark_page_free s (ADDR_TO_PAGE addr)).used_pages - 1
          free_count := (pmm_mark_page_free s (ADDR_TO_PAGE addr)).free_count + 1 } :
            PmmState) (ADDR_TO_PAGE addr)
      else ({ pmm_mark_page_free s (ADDR_TO_PAGE addr) with
          free_pages := (pmm_mark_page_free s (ADDR_TO_PAGE addr)).free_pages + 1
          used_pages := (pmm_mark_page_free s (ADDR_TO_PAGE addr)).used_pages - 1
          free_count := (pmm_mark_page_free s (ADDR_TO_PAGE addr)).free_count + 1 } :
            PmmState)) := by
    unfold pmm_free_page
    rw [hinit]
    simp only [Bool.not_true, Bool.false_eq_true, if_false]
    rw [if_neg h0, if_neg (by omega : ¬addr % PAGE_SIZE ≠ 0),
      if_neg (by omega : ¬s.total_pages ≤ ADDR_TO_PAGE addr), hused]
    simp only [Bool.not_true, Bool.false_eq_true, if_false]
  have hhint : ({ pmm_mark_page_free s (ADDR_TO_PAGE addr) with
      free_pages := (pmm_mark_page_free s (ADDR_TO_PAGE addr)).free_pages + 1
      used_pages := (pmm_mark_page_free s (ADDR_TO_PAGE addr)).used_pages - 1
      free_count := (pmm_mark_page_free s (ADDR_TO_PAGE addr)).free_count + 1 } :
        PmmState).next_free_hint = s.next_free_hint := by
    show (pmm_mark_page_free s (ADDR_TO_PAGE addr)).next_free_hint = _
    rw [markFree_hint]
  rw [hexp]
  by_cases hcond : ADDR_TO_PAGE addr < s.next_free_hint
  · rw [if_pos (by rw [hhint]; exact hcond)]
    refine ⟨rfl, ?_, ?_, ?_, ?_, ?_⟩
    · rw [updateHint_total]
      show (pmm_mark_page_free s (ADDR_TO_PAGE addr)).total_pages = _
      rw [markFree_total]
    · rw [updateHint_initialized]
      show (pmm_mark_page_free s (ADDR_TO_PAGE addr)).initialized = _
      rw [markFree_initialized]
    · rw [updateHint_free_pages]
      show (pmm_mark_page_free s (ADDR_TO_PAGE addr)).free_pages + 1 = _
      rw [markFree_free_pages]
    · rw [updateHint_hint]
      rw [if_pos hcond]
      rw [show ({ pmm_mark_page_free s (ADDR_TO_PAGE addr) with
          free_pages := (pmm_mark_page_free s (ADDR_TO_PAGE addr)).free_pages + 1
          used_pages := (pmm_mark_page_free s (ADDR_TO_PAGE addr)).used_pages - 1
          free_count := (pmm_mark_page_free s (ADDR_TO_PAGE addr)).free_count + 1 } :
            PmmState).total_pages =
          (pmm_mark_page_free s (ADDR_TO_PAGE addr)).total_pages from rfl,
        markFree_total]
      rw [if_pos hlt]
    · intro j
      have hstep : pmm_is_page_used_internal (pmm_update_hint_locked
          ({ pmm_mark_page_free s (ADDR_TO_PAGE addr) with
            free_pages := (pmm_mark_page_free s (ADDR_TO_PAGE addr)).free_pages + 1
            used_pages := (pmm_mark_page_free s (ADDR_TO_PAGE addr)).used_pages - 1
            free_count := (pmm_mark_page_free s (ADDR_TO_PAGE addr)).free_count + 1 } :
              PmmState) (ADDR_TO_PAGE addr)) j =
          pmm_is_page_used_internal (pmm_mark_page_free s (ADDR_TO_PAGE addr)) j :=
        isUsed_congr (by rw [updateHint_bitmap]) (by rw [updateHint_total]) j
      rw [hstep, isUsed_markFree]
  · rw [if_neg (by rw [hhint]; exact hcond)]
    refine ⟨rfl, ?_, ?_, ?_, ?_, ?_⟩
    · show (pmm_mark_page_free s (ADDR_TO_PAGE addr)).total_pages = _
      rw [markFree_total]
    · show (pmm_mark_page_free s (ADDR_TO_PAGE addr)).initialized = _
      rw [markFree_initialized]
    · show (pmm_mark_page_free s (ADDR_TO_PAGE addr)).free_pages + 1 = _
      rw [markFree_free_pages]
    · rw [if_neg hcond, hhint]
    · intro j
      have hstep : pmm_is_page_used_internal
          ({ pmm_mark_page_free s (ADDR_TO_PAGE addr) with
            free_pages := (pmm_mark_page_free s (ADDR_TO_PAGE addr)).free_pages + 1
            used_pages := (pmm_mark_page_free s (ADDR_TO_PAGE addr)).used_pages - 1
            free_count := (pmm_mark_page_free s (ADDR_TO_PAGE addr)).free_count + 1 } :
              PmmState) j =
          pmm_is_page_used_internal (pmm_mark_page_free s (ADDR_TO_PAGE addr)) j :=
        isUsed_congr rfl rfl j
      rw [hstep, isUsed_markFree]

/-- A successful single-page allocation can be predicted from the search
result: the forward direction of `pmm_alloc_page`. -/
theorem alloc_page_returns {s : PmmState} (hinit : s.initialized = true)
    (hf : s.free_pages ≠ 0)
    (hlt : pmm_find_free_page_from s s.next_free_hint < s.total_pages) :
    ∃ s4, pmm_alloc_page s = some
      (PAGE_TO_ADDR (pmm_find_free_page_from s s.next_free_hint), s4) := by
  unfold pmm_alloc_page
  rw [hinit]
  simp only [Bool.not_true, Bool.false_eq_true, if_false]
  rw [if_neg hf, if_neg (by omega : ¬s.total_pages ≤
    pmm_find_free_page_from s s.next_free_hint)]
  exact ⟨_, rfl⟩

theorem find_from_zero_min {s : PmmState} {p : Nat}
    (hp : pmm_find_free_page_from s 0 = p) (hlt : p < s.total_pages) :
    pmm_is_page_used_internal s p = false ∧
    ∀ j < p, pmm_is_page_used_internal s j = true := by
  unfold pmm_find_free_page_from at hp
  cases h1 : scanFree s 0 s.total_pages with
  | some i =>
    simp only [h1] at hp
    subst hp
    obtain ⟨hfree, _, _, hmin⟩ := scanFreeAux_some _ _ _ h1
    exact ⟨hfree, fun j hj => hmin j (by omega) hj⟩
  | none =>
    simp only [h1] at hp
    have hz : scanFree s 0 0 = none := rfl
    simp only [hz] at hp
    omega

theorem pmmDemo_init : pmm_init pmmDemoRegions = some pmmDemoState :=
  (Option.some_get (by decide)).symm

/-! ### Facts about `pmm_init`'s bitmap marking, for C10 -/

theorem testBit_mask_4096 (k : Nat) :
    Nat.testBit 0xFFFFFFFFFFFFF000 k = (decide (12 ≤ k) && decide (k < 64)) := by
  have hmask : (0xFFFFFFFFFFFFF000 : Nat) = (2 ^ 52 - 1) <<< 12 := by decide
  rw [hmask, Nat.testBit_shiftLeft, Nat.testBit_two_pow_sub_one]
  by_cases h1 : 12 ≤ k <;> by_cases h2 : k < 64 <;>
    simp [h1, h2] <;> omega

theorem land_mask_eq {a : Nat} (ha : a < 2 ^ 64) :
    Nat.land a 0xFFFFFFFFFFFFF000 = (a >>> 12) <<< 12 := by
  show (a &&& 0xFFFFFFFFFFFFF000) = a >>> 12 <<< 12
  apply Nat.eq_of_testBit_eq
  intro k
  rw [Nat.testBit_land, testBit_mask_4096, Nat.testBit_shiftLeft,
    Nat.testBit_shiftRight]
  by_cases h1 : 12 ≤ k
  · by_cases h2 : k < 64
    · simp [h1, h2, Nat.add_sub_cancel' h1]
    · have hbit : Nat.testBit a k = false := by
        apply Nat.testBit_eq_false_of_lt
        calc a < 2 ^ 64 := ha
        _ ≤ 2 ^ k := Nat.pow_le_pow_right (by norm_num) (by omega)
      have hbit2 : Nat.testBit a (12 + (k - 12)) = false := by
        rwa [Nat.add_sub_cancel' h1]
      simp [h1, h2, hbit, hbit2]
  · simp [h1]

theorem align_down_shape {a : Nat} (ha : a < 2 ^ 64) :
    PAGE_ALIGN_DOWN a = (a >>> 12) <<< 12 := land_mask_eq ha

theorem align_up_shape (a : Nat) :
    PAGE_ALIGN_UP a = ((((a + 4095) % 2 ^ 64)) >>> 12) <<< 12 :=
  land_mask_eq (Nat.mod_lt _ (by norm_num))

theorem addr_to_page_shape (p : Nat) : ADDR_TO_PAGE (p <<< 12) = p :=
  shiftLeft12_shiftRight12 p

theorem isUsed_markUsed_mono {s : PmmState} {j : Nat} (i : Nat)
    (h : pmm_is_page_used_internal s j = true) :
    pmm_is_page_used_internal (pmm_mark_page_used s i) j = true := by
  rw [isUsed_markUsed]
  split
  · rfl
  · exact h

theorem isUsed_markUsedRange_mono :
    ∀ (n : Nat) (s : PmmState) (start j : Nat),
      pmm_is_page_used_internal s j = true →
      pmm_is_page_used_internal (markUsedRange s start n) j = true := by
  intro n
  induction n with
  | zero => intro s start j h; exact h
  | succ m ih =>
    intro s start j h
    exact ih (pmm_mark_page_used s start) (start + 1) j (isUsed_markUsed_mono start h)

theorem isUsed_markUsedRange_inside :
    ∀ (n : Nat) (s : PmmState) (start j : Nat), start ≤ j → j < start + n →
      j < s.total_pages →
      pmm_is_page_used_internal (markUsedRange s start n) j = true := by
  intro n
  induction n with
  | zero => intro s start j h1 h2; omega
  | succ m ih =>
    intro s start j h1 h2 ht
    by_cases hj : j = start
    · subst hj
      show pmm_is_page_used_internal
        (markUsedRange (pmm_mark_page_used s j) (j + 1) m) j = true
      apply isUsed_markUsedRange_mono
      rw [isUsed_markUsed, if_pos ⟨rfl, ht⟩]
    · show pmm_is_page_used_internal
        (markUsedRange (pmm_mark_page_used s start) (start + 1) m) j = true
      exact ih (pmm_mark_page_used s start) (start + 1) j (by omega) (by omega)
        (by rw [markUsed_total]; exact ht)

theorem isUsed_markFreeRange_outside :
    ∀ (n : Nat) (s : PmmState) (start j : Nat), (j < start ∨ start + n ≤ j) →
      pmm_is_page_used_internal (markFreeRange s start n) j =
        pmm_is_page_used_internal s j := by
  intro n
  induction n with
  | zero => intro s start j _; rfl
  | succ m ih =>
    intro s start j hout
    show pmm_is_page_used_internal
      (markFreeRange (pmm_mark_page_free s start) (start + 1) m) j = _
    rw [ih (pmm_mark_page_free s start) (start + 1) j (by omega), isUsed_markFree,
      if_neg (by omega)]

theorem initMarkRegion_total (st : PmmState) (r : MemoryRegion) :
    (initMarkRegion st r).total_pages = st.total_pages := by
  simp only [initMarkRegion]
  split
  · rfl
  · split
    · exact (markFreeRange_fields _ _ _).1
    · rfl

theorem initMark_fold_total :
    ∀ (rs : List MemoryRegion) (s : PmmState),
      (rs.foldl initMarkRegion s).total_pages = s.total_pages := by
  intro rs
  induction rs with
  | nil => intro s; rfl
  | cons r rest ih =>
    intro s
    show (rest.foldl initMarkRegion (initMarkRegion s r)).total_pages = _
    rw [ih, initMarkRegion_total]

theorem initMarkRegion_used {i : Nat} (st : PmmState) (r : MemoryRegion)
    (h : pmm_is_page_used_internal st i = true)
    (hr : r.type.isReclaimable = true → ¬ pageInInterior i r) :
    pmm_is_page_used_internal (initMarkRegion st r) i = true := by
  simp only [initMarkRegion]
  split
  · exact h
  · split
    case isTrue hrt =>
      rename_i hend
      have hint := hr hrt
      unfold pageInInterior at hint
      push_neg at hint
      rw [isUsed_markFreeRange_outside]
      · exact h
      · -- the marked indices are [start_page, start_page + (end_page + 1 - start_page))
        by_cases hlow : i < ADDR_TO_PAGE (PAGE_ALIGN_UP r.base)
        · exact Or.inl hlow
        · right
          have hge := hint (by omega)
          -- i ≥ ADDR_TO_PAGE (PAGE_ALIGN_DOWN (regionEnd r)); relate the two shapes
          have hdown : PAGE_ALIGN_DOWN (regionEnd r) =
              (regionEnd r >>> 12) <<< 12 :=
            align_down_shape (Nat.mod_lt _ (by norm_num))
          have hup : PAGE_ALIGN_UP r.base =
              (((r.base + 4095) % 2 ^ 64) >>> 12) <<< 12 := align_up_shape r.base
          rw [hdown, addr_to_page_shape] at hge
          rw [hdown, hup] at hend
          -- aligned_end > aligned_start, both of shape `page <<< 12`
          have hcmp : (((r.base + 4095) % 2 ^ 64) >>> 12) <
              (regionEnd r >>> 12) := by
            by_contra hc
            push_neg at hc
            apply hend
            rw [Nat.shiftLeft_eq, Nat.shiftLeft_eq]
            exact Nat.mul_le_mul_right _ hc
          rw [hup, hdown, addr_to_page_shape, addr_to_page_shape]
          omega
    case isFalse hrt =>
      exact h

theorem initMark_fold_used {i : Nat} :
    ∀ (rs : List MemoryRegion) (s : PmmState),
      pmm_is_page_used_internal s i = true →
      (∀ r ∈ rs, r.type.isReclaimable = true → ¬ pageInInterior i r) →
      pmm_is_page_used_internal (rs.foldl initMarkRegion s) i = true := by
  intro rs
  induction rs with
  | nil => intro s h _; exact h
  | cons r rest ih =>
    intro s h hall
    exact ih (initMarkRegion s r)
      (initMarkRegion_used s r h (hall r (List.mem_cons_self r rest)))
      (fun q hq => hall q (List.mem_cons_of_mem r hq))

theorem isUsed_wrap (x : PmmState) (i : Nat) :
    pmm_is_page_used_internal
      { pmm_update_hint_locked (pmm_update_stats x) 0 with initialized := true } i =
    pmm_is_page_used_internal x i := by
  have hb : ({ pmm_update_hint_locked (pmm_update_stats x) 0 with
      initialized := true } : PmmState).bitmap = x.bitmap := by
    show (pmm_update_hint_locked (pmm_update_stats x) 0).bitmap = _
    rw [updateHint_bitmap]
    rfl
  have ht : ({ pmm_update_hint_locked (pmm_update_stats x) 0 with
      initialized := true } : PmmState).total_pages = x.total_pages := by
    show (pmm_update_hint_locked (pmm_update_stats x) 0).total_pages = _
    rw [updateHint_total]
    rfl
  exact isUsed_congr hb ht i

theorem wrap_total (x : PmmState) :
    ({ pmm_update_hint_locked (pmm_update_stats x) 0 with
      initialized := true } : PmmState).total_pages = x.total_pages := by
  show (pmm_update_hint_locked (pmm_update_stats x) 0).total_pages = _
  rw [updateHint_total]
  rfl

/-- After a successful `pmm_init`, a page that lies in no reclaimable
region's page-aligned interior — e.g. any page of a `MEMORY_RESERVED`
region — or that backs the PMM bitmap itself, is marked used. -/
theorem init_used_of {regions : List MemoryRegion} {s : PmmState}
    (h : pmm_init regions = some s) {i : Nat} (hi : i < s.total_pages)
    (hcase : (∀ r ∈ regions, r.type.isReclaimable = true → ¬ pageInInterior i r) ∨
      (∃ bs be, pmmInitBitmapPages regions = some (bs, be) ∧ bs ≤ i ∧ i ≤ be)) :
    pmm_is_page_used_internal s i = true := by
  unfold pmm_init at h
  by_cases he : regions.isEmpty
  · rw [if_pos he] at h; cases h
  rw [if_neg he] at h
  cases hf : regions.find? (fun r =>
      r.type = MemoryType.usable &&
      (ADDR_TO_PAGE (regions.foldl (fun acc r => max acc (regionEnd r)) 0) + 7) / 8 ≤
        r.length &&
      (ADDR_TO_PAGE (regions.foldl (fun acc r => max acc (regionEnd r)) 0) + 7) / 8 ≤
        u64sub (regionEnd r) (PAGE_ALIGN_UP r.base)) with
  | none =>
    simp only [hf] at h
    cases h
  | some reg =>
    simp only [hf] at h
    cases h
    rw [wrap_total] at hi
    rw [markUsed_total, (markUsedRange_fields _ _ _).1] at hi
    rw [isUsed_wrap]
    apply isUsed_markUsed_mono
    rcases hcase with hres | ⟨bs, be, hbm, hbi1, hbi2⟩
    · apply isUsed_markUsedRange_mono
      apply initMark_fold_used regions _ _ hres
      unfold pmm_is_page_used_internal
      split <;> rfl
    · unfold pmmInitBitmapPages at hbm
      simp only [hf] at hbm
      injection hbm with hpair
      have hbs : bs = ADDR_TO_PAGE (PAGE_ALIGN_UP reg.base) := by
        have h1 := congrArg Prod.fst hpair
        simpa using h1.symm
      have hbe : be = ADDR_TO_PAGE ((PAGE_ALIGN_UP reg.base +
          (ADDR_TO_PAGE (regions.foldl (fun acc r => max acc (regionEnd r)) 0) + 7) / 8 +
          2 ^ 64 - 1) % 2 ^ 64) := by
        have h1 := congrArg Prod.snd hpair
        simpa using h1.symm
      apply isUsed_markUsedRange_inside
      · omega
      · omega
      · exact hi

end PMM

namespace VMM

/-! ### Page-table store, PTE and index lemmas -/

theorem memSet_get (m : Nat → Nat → Nat) (t i v t2 i2 : Nat) :
    memSet m t i v t2 i2 = if t2 = t ∧ i2 = i then v else m t2 i2 := rfl

theorem memClearTable_get (m : Nat → Nat → Nat) (t t2 i2 : Nat) :
    memClearTable m t t2 i2 = if t2 = t then 0 else m t2 i2 := rfl

theorem memSet_same (m : Nat → Nat → Nat) (t i v : Nat) :
    memSet m t i v t i = v := by
  simp [memSet]

theorem memSet_ne {t2 t i2 i : Nat} (h : t2 ≠ t ∨ i2 ≠ i)
    (m : Nat → Nat → Nat) (v : Nat) : memSet m t i v t2 i2 = m t2 i2 := by
  unfold memSet
  rw [if_neg]
  tauto

theorem memClearTable_ne {t2 t : Nat} (h : t2 ≠ t) (m : Nat → Nat → Nat)
    (i2 : Nat) : memClearTable m t t2 i2 = m t2 i2 := by
  unfold memClearTable
  rw [if_neg h]

theorem convert_flags_and_one (g : Nat) :
    vmm_x86_64_convert_flags g &&& 1 = 1 := by
  simp only [vmm_x86_64_convert_flags]
  split <;> split <;> split <;> split <;> split <;> decide

theorem convert_flags_mask (g : Nat) :
    vmm_x86_64_convert_flags g &&& VMM_X86_64_PHYS_ADDR_MASK = 0 := by
  simp only [vmm_x86_64_convert_flags]
  split <;> split <;> split <;> split <;> split <;> decide

theorem PTE_PRESENT_make (p : Nat) {flags : Nat} (hf : flags &&& 1 = 1) :
    VMM_X86_64_PTE_PRESENT (VMM_X86_64_MAKE_PTE p flags) = true := by
  have hb : Nat.testBit flags 0 = true := by
    rw [Nat.and_one_is_mod] at hf
    simp [Nat.testBit_zero, hf]
  have hx : Nat.testBit (VMM_X86_64_MAKE_PTE p flags) 0 = true := by
    unfold VMM_X86_64_MAKE_PTE
    rw [Nat.testBit_or, hb, Bool.or_true]
  unfold VMM_X86_64_PTE_PRESENT VMM_X86_64_PRESENT
  rw [Nat.and_one_is_mod]
  simp only [Nat.testBit_zero, decide_eq_true_eq] at hx
  simp [hx]

theorem PTE_ADDR_make {p flags : Nat} (hp : p &&& VMM_X86_64_PHYS_ADDR_MASK = p)
    (hf : flags &&& VMM_X86_64_PHYS_ADDR_MASK = 0) :
    VMM_X86_64_PTE_ADDR (VMM_X86_64_MAKE_PTE p flags) = p := by
  unfold VMM_X86_64_PTE_ADDR VMM_X86_64_MAKE_PTE
  apply Nat.eq_of_testBit_eq
  intro k
  have hpk := congrArg (fun x => Nat.testBit x k) hp
  have hfk := congrArg (fun x => Nat.testBit x k) hf
  simp only [Nat.testBit_and, Nat.testBit_or, Nat.zero_testBit] at hpk hfk ⊢
  cases hm : Nat.testBit VMM_X86_64_PHYS_ADDR_MASK k <;> simp_all

theorem aligned_mod_4096 {v : Nat} (h : IS_PAGE_ALIGNED v = true) :
    v % 4096 = 0 := by
  unfold IS_PAGE_ALIGNED at h
  have h1 : Nat.land v 4095 = 0 := by simpa using h
  have h2 : v &&& 2 ^ 12 - 1 = v % 2 ^ 12 := Nat.and_pow_two_sub_one_eq_mod v 12
  norm_num at h2
  have h3 : Nat.land v 4095 = v % 4096 := h2
  rw [h3] at h1
  exact h1

theorem shiftRight_add_stable {v off : Nat} (k : Nat) (hal : v % 4096 = 0)
    (hoff : off < 4096) (hk : 12 ≤ k) : (v + off) >>> k = v >>> k := by
  rw [Nat.shiftRight_eq_div_pow, Nat.shiftRight_eq_div_pow]
  obtain ⟨c, hc⟩ : 2 ^ 12 ∣ 2 ^ k := Nat.pow_dvd_pow 2 hk
  rw [hc]
  norm_num
  rw [← Nat.div_div_eq_div_mul, ← Nat.div_div_eq_div_mul]
  congr 1
  omega

theorem PML4_INDEX_add {v off : Nat} (hal : v % 4096 = 0) (hoff : off < 4096) :
    VMM_X86_64_PML4_INDEX (v + off) = VMM_X86_64_PML4_INDEX v := by
  unfold VMM_X86_64_PML4_INDEX
  rw [shiftRight_add_stable 39 hal hoff (by omega)]

theorem PDPT_INDEX_add {v off : Nat} (hal : v % 4096 = 0) (hoff : off < 4096) :
    VMM_X86_64_PDPT_INDEX (v + off) = VMM_X86_64_PDPT_INDEX v := by
  unfold VMM_X86_64_PDPT_INDEX
  rw [shiftRight_add_stable 30 hal hoff (by omega)]

theorem PD_INDEX_add {v off : Nat} (hal : v % 4096 = 0) (hoff : off < 4096) :
    VMM_X86_64_PD_INDEX (v + off) = VMM_X86_64_PD_INDEX v := by
  unfold VMM_X86_64_PD_INDEX
  rw [shiftRight_add_stable 21 hal hoff (by omega)]

theorem PT_INDEX_add {v off : Nat} (hal : v % 4096 = 0) (hoff : off < 4096) :
    VMM_X86_64_PT_INDEX (v + off) = VMM_X86_64_PT_INDEX v := by
  unfold VMM_X86_64_PT_INDEX
  rw [shiftRight_add_stable 12 hal hoff (by omega)]

theorem PAGE_OFFSET_add {v off : Nat} (hal : v % 4096 = 0) (hoff : off < 4096) :
    VMM_X86_64_PAGE_OFFSET (v + off) = off := by
  have h2 : (v + off) &&& 4095 = (v + off) % 4096 := by
    have h3 := Nat.and_pow_two_sub_one_eq_mod (v + off) 12
    norm_num at h3
    exact h3
  unfold VMM_X86_64_PAGE_OFFSET PAGE_SIZE
  norm_num
  rw [h2]
  omega

theorem walk_level_present {s : VmmState} (sp : VmmSpace) {table idx : Nat}
    (hp : VMM_X86_64_PTE_PRESENT (s.mem table idx) = true)
    (hv : s.validFrame (VMM_X86_64_PTE_ADDR (s.mem table idx)) = true)
    (c : Bool) :
    walk_level s sp table idx c =
      .ok (VMM_X86_64_PTE_ADDR (s.mem table idx)) s false := by
  simp only [walk_level, hp, hv, if_true]

theorem walk_level_create {s : VmmState} {sp : VmmSpace} {table idx : Nat}
    {f : Nat} {rest : List Nat}
    (hnp : VMM_X86_64_PTE_PRESENT (s.mem table idx) = false)
    (hff : s.freeFrames = f :: rest) (hvf : s.validFrame f = true) :
    walk_level s sp table idx true = .ok f
      { s with
        freeFrames := rest
        mem := (memSet (memClearTable s.mem f) table idx
          (VMM_X86_64_MAKE_PTE f (page_walk_table_flags sp))) } true := by
  simp only [walk_level, hnp, alloc_page_table, hff, hvf, if_true,
    Bool.false_eq_true, if_false, Bool.not_true]

theorem map_loop_zero (vB pB xf : Nat) (s : VmmState) (sp : VmmSpace)
    (i : Nat) : map_loop vB pB xf 0 s sp i = (true, s, sp) := rfl

theorem map_loop_succ (vB pB xf fuel : Nat) (s : VmmState) (sp : VmmSpace)
    (i : Nat) :
    map_loop vB pB xf (fuel + 1) s sp i =
      map_step vB pB xf i sp (page_walk s sp (vB + i * PAGE_SIZE) true)
        (map_loop vB pB xf fuel) := rfl

theorem map_step_some (vB pB xf i : Nat) (sp : VmmSpace) (t idx : Nat)
    (s1 : VmmState)
    (f : VmmState → VmmSpace → Nat → Bool × VmmState × VmmSpace) :
    map_step vB pB xf i sp (some (t, idx), s1) f =
      f { s1 with mem := (memSet s1.mem t idx
          (VMM_X86_64_MAKE_PTE (pB + i * PAGE_SIZE) xf)) }
        { sp with mapped_pages := (sp.mapped_pages + 1) % 2 ^ 64 } (i + 1) := rfl

theorem unmap_loop_zero (vB : Nat) (s : VmmState) (sp : VmmSpace) (i : Nat) :
    unmap_loop vB 0 s sp i = (s, sp) := rfl

theorem unmap_loop_succ (vB fuel : Nat) (s : VmmState) (sp : VmmSpace)
    (i : Nat) :
    unmap_loop vB (fuel + 1) s sp i =
      unmap_step i sp (page_walk s sp (vB + i * PAGE_SIZE) false)
        (unmap_loop vB fuel) := rfl

theorem resolve_body_some (virt t idx : Nat) (s1 : VmmState) :
    resolve_body virt (some (t, idx), s1) =
      (if !VMM_X86_64_PTE_PRESENT (s1.mem t idx) then none
       else some ((VMM_X86_64_PTE_ADDR (s1.mem t idx) +
         VMM_X86_64_PAGE_OFFSET virt) % 2 ^ 64)) := rfl

theorem c3_map_eq (v p flags : Nat) (hv : IS_PAGE_ALIGNED v = true)
    (hp : IS_PAGE_ALIGNED p = true) (hcanon : VMM_X86_64_IS_CANONICAL v = true) :
    vmm_x86_64_map_pages c3State c3Space v p 1 flags =
      (true, c3Mapped v p flags, c3MappedSpace) := by
  have hw1 : walk_level c3State c3Space 0x1000 (VMM_X86_64_PML4_INDEX v) true =
      .ok 0x2000 (c3S1 v) true :=
    @walk_level_create c3State c3Space 0x1000 (VMM_X86_64_PML4_INDEX v)
      0x2000 [0x3000, 0x4000]
      (by show VMM_X86_64_PTE_PRESENT 0 = false; rfl) rfl
      (by show decide ((0x2000 : Nat) ≠ 0) = true; rfl)
  have hw2 : walk_level (c3S1 v) c3Space 0x2000 (VMM_X86_64_PDPT_INDEX v) true =
      .ok 0x3000 (c3S2 v) true :=
    @walk_level_create (c3S1 v) c3Space 0x2000 (VMM_X86_64_PDPT_INDEX v)
      0x3000 [0x4000]
      (by show VMM_X86_64_PTE_PRESENT 0 = false; rfl) rfl
      (by show decide ((0x3000 : Nat) ≠ 0) = true; rfl)
  have hw3 : walk_level (c3S2 v) c3Space 0x3000 (VMM_X86_64_PD_INDEX v) true =
      .ok 0x4000 (c3S3 v) true :=
    @walk_level_create (c3S2 v) c3Space 0x3000 (VMM_X86_64_PD_INDEX v)
      0x4000 []
      (by show VMM_X86_64_PTE_PRESENT 0 = false; rfl) rfl
      (by show decide ((0x4000 : Nat) ≠ 0) = true; rfl)
  have hpw : page_walk c3State c3Space v true =
      (some (0x4000, VMM_X86_64_PT_INDEX v), c3S3 v) := by
    simp only [page_walk]
    rw [show c3Space.pml4 = 0x1000 from rfl]
    rw [if_neg (by decide)]
    simp only [hw1, hw2, hw3]
  unfold vmm_x86_64_map_pages
  rw [if_neg (by decide), hv, hp, hcanon]
  rw [if_neg (by decide), if_neg (by decide)]
  rw [map_loop_succ]
  simp only [Nat.zero_mul, Nat.add_zero]
  rw [hpw, map_step_some, map_loop_zero]
  simp only [Nat.zero_mul, Nat.add_zero]
  rfl

theorem walk_present_path (s : VmmState) (sp : VmmSpace) (pdpt pd pt : Nat)
    (v : Nat) (c : Bool)
    (hpml : tableVirt sp.pml4 ≠ 0)
    (hp1 : VMM_X86_64_PTE_PRESENT (s.mem sp.pml4 (VMM_X86_64_PML4_INDEX v)) = true)
    (ha1 : VMM_X86_64_PTE_ADDR (s.mem sp.pml4 (VMM_X86_64_PML4_INDEX v)) = pdpt)
    (hv1 : s.validFrame pdpt = true)
    (hp2 : VMM_X86_64_PTE_PRESENT (s.mem pdpt (VMM_X86_64_PDPT_INDEX v)) = true)
    (ha2 : VMM_X86_64_PTE_ADDR (s.mem pdpt (VMM_X86_64_PDPT_INDEX v)) = pd)
    (hv2 : s.validFrame pd = true)
    (hp3 : VMM_X86_64_PTE_PRESENT (s.mem pd (VMM_X86_64_PD_INDEX v)) = true)
    (ha3 : VMM_X86_64_PTE_ADDR (s.mem pd (VMM_X86_64_PD_INDEX v)) = pt)
    (hv3 : s.validFrame pt = true) :
    page_walk s sp v c = (some (pt, VMM_X86_64_PT_INDEX v), s) := by
  have hw1 : walk_level s sp sp.pml4 (VMM_X86_64_PML4_INDEX v) c =
      .ok pdpt s false := by
    have h := walk_level_present sp hp1 (by rw [ha1]; exact hv1) c
    rw [ha1] at h
    exact h
  have hw2 : walk_level s sp pdpt (VMM_X86_64_PDPT_INDEX v) c =
      .ok pd s false := by
    have h := walk_level_present sp hp2 (by rw [ha2]; exact hv2) c
    rw [ha2] at h
    exact h
  have hw3 : walk_level s sp pd (VMM_X86_64_PD_INDEX v) c =
      .ok pt s false := by
    have h := walk_level_present sp hp3 (by rw [ha3]; exact hv3) c
    rw [ha3] at h
    exact h
  simp only [page_walk]
  rw [if_neg hpml]
  simp only [hw1, hw2, hw3]

theorem c3_mem_pml4 (v p flags : Nat) :
    (c3Mapped v p flags).mem 0x1000 (VMM_X86_64_PML4_INDEX v) =
      VMM_X86_64_MAKE_PTE 0x2000 0x7 := by
  simp [c3Mapped, c3S3, c3S2, c3S1, memSet_get, memClearTable_get]

theorem c3_mem_pdpt (v p flags : Nat) :
    (c3Mapped v p flags).mem 0x2000 (VMM_X86_64_PDPT_INDEX v) =
      VMM_X86_64_MAKE_PTE 0x3000 0x7 := by
  simp [c3Mapped, c3S3, c3S2, c3S1, memSet_get, memClearTable_get]

theorem c3_mem_pd (v p flags : Nat) :
    (c3Mapped v p flags).mem 0x3000 (VMM_X86_64_PD_INDEX v) =
      VMM_X86_64_MAKE_PTE 0x4000 0x7 := by
  simp [c3Mapped, c3S3, c3S2, c3S1, memSet_get, memClearTable_get]

theorem c3_mem_pt (v p flags : Nat) :
    (c3Mapped v p flags).mem 0x4000 (VMM_X86_64_PT_INDEX v) =
      VMM_X86_64_MAKE_PTE p (vmm_x86_64_convert_flags flags) := by
  simp [c3Mapped, memSet_get]

theorem c3_walk_mapped (v p flags off : Nat) (hal : v % 4096 = 0)
    (hoff : off < 4096) :
    page_walk (c3Mapped v p flags) c3MappedSpace (v + off) false =
      (some (0x4000, VMM_X86_64_PT_INDEX v), c3Mapped v p flags) := by
  have h := walk_present_path (c3Mapped v p flags) c3MappedSpace
    0x2000 0x3000 0x4000 (v + off) false
    (by decide)
    (by rw [show c3MappedSpace.pml4 = 0x1000 from rfl,
          PML4_INDEX_add hal hoff, c3_mem_pml4]; decide)
    (by rw [show c3MappedSpace.pml4 = 0x1000 from rfl,
          PML4_INDEX_add hal hoff, c3_mem_pml4]; decide)
    (by show decide ((0x2000 : Nat) ≠ 0) = true; rfl)
    (by rw [PDPT_INDEX_add hal hoff, c3_mem_pdpt]; decide)
    (by rw [PDPT_INDEX_add hal hoff, c3_mem_pdpt]; decide)
    (by show decide ((0x3000 : Nat) ≠ 0) = true; rfl)
    (by rw [PD_INDEX_add hal hoff, c3_mem_pd]; decide)
    (by rw [PD_INDEX_add hal hoff, c3_mem_pd]; decide)
    (by show decide ((0x4000 : Nat) ≠ 0) = true; rfl)
  rw [PT_INDEX_add hal hoff] at h
  exact h

theorem c3_resolve (v p flags off : Nat) (hal : v % 4096 = 0)
    (hoff : off < 4096) (hpm : p &&& VMM_X86_64_PHYS_ADDR_MASK = p) :
    vmm_x86_64_resolve (c3Mapped v p flags) c3MappedSpace (v + off) =
      some (p + off) := by
  simp only [vmm_x86_64_resolve]
  rw [if_neg (by simp [c3Mapped])]
  rw [c3_walk_mapped v p flags off hal hoff, resolve_body_some]
  rw [c3_mem_pt]
  rw [PTE_PRESENT_make p (convert_flags_and_one flags)]
  simp only [Bool.not_true, Bool.false_eq_true, if_false]
  rw [PTE_ADDR_make hpm (convert_flags_mask flags), PAGE_OFFSET_add hal hoff]
  have hple : p ≤ 0x000FFFFFFFFFF000 := by
    rw [← hpm]
    exact Nat.and_le_right
  rw [Nat.mod_eq_of_lt (by omega)]

theorem c3_unmap_eq (v p flags : Nat) (hv : IS_PAGE_ALIGNED v = true) :
    vmm_x86_64_unmap_pages (c3Mapped v p flags) c3MappedSpace v 1 =
      (c3Unmapped v p flags, c3UnmappedSpace) := by
  have hal := aligned_mod_4096 hv
  have hwalk := c3_walk_mapped v p flags 0 hal (by omega)
  rw [Nat.add_zero] at hwalk
  unfold vmm_x86_64_unmap_pages
  rw [if_neg (by simp [c3Mapped]), hv, if_neg (by decide)]
  rw [unmap_loop_succ]
  simp only [Nat.zero_mul, Nat.add_zero]
  rw [hwalk]
  simp only [unmap_step]
  rw [c3_mem_pt, PTE_PRESENT_make p (convert_flags_and_one flags)]
  rw [if_pos rfl, unmap_loop_zero]
  rfl

theorem c3u_mem_pml4 (v p flags : Nat) :
    (c3Unmapped v p flags).mem 0x1000 (VMM_X86_64_PML4_INDEX v) =
      VMM_X86_64_MAKE_PTE 0x2000 0x7 := by
  simp [c3Unmapped, c3Mapped, c3S3, c3S2, c3S1, memSet_get, memClearTable_get]

theorem c3u_mem_pdpt (v p flags : Nat) :
    (c3Unmapped v p flags).mem 0x2000 (VMM_X86_64_PDPT_INDEX v) =
      VMM_X86_64_MAKE_PTE 0x3000 0x7 := by
  simp [c3Unmapped, c3Mapped, c3S3, c3S2, c3S1, memSet_get, memClearTable_get]

theorem c3u_mem_pd (v p flags : Nat) :
    (c3Unmapped v p flags).mem 0x3000 (VMM_X86_64_PD_INDEX v) =
      VMM_X86_64_MAKE_PTE 0x4000 0x7 := by
  simp [c3Unmapped, c3Mapped, c3S3, c3S2, c3S1, memSet_get, memClearTable_get]

theorem c3u_mem_pt (v p flags : Nat) :
    (c3Unmapped v p flags).mem 0x4000 (VMM_X86_64_PT_INDEX v) = 0 := by
  simp [c3Unmapped, memSet_get]

theorem c3_resolve_unmapped (v p flags : Nat) :
    vmm_x86_64_resolve (c3Unmapped v p flags) c3UnmappedSpace v = none := by
  have hwalk := walk_present_path (c3Unmapped v p flags) c3UnmappedSpace
    0x2000 0x3000 0x4000 v false
    (by decide)
    (by rw [show c3UnmappedSpace.pml4 = 0x1000 from rfl, c3u_mem_pml4]; decide)
    (by rw [show c3UnmappedSpace.pml4 = 0x1000 from rfl, c3u_mem_pml4]; decide)
    (by show decide ((0x2000 : Nat) ≠ 0) = true; rfl)
    (by rw [c3u_mem_pdpt]; decide)
    (by rw [c3u_mem_pdpt]; decide)
    (by show decide ((0x3000 : Nat) ≠ 0) = true; rfl)
    (by rw [c3u_mem_pd]; decide)
    (by rw [c3u_mem_pd]; decide)
    (by show decide ((0x4000 : Nat) ≠ 0) = true; rfl)
  simp only [vmm_x86_64_resolve]
  rw [if_neg (by simp [c3Unmapped])]
  rw [hwalk, resolve_body_some]
  rw [c3u_mem_pt]
  rfl

theorem map_present_eq (s : VmmState) (sp : VmmSpace) (pdpt pd pt : Nat)
    (v p flags : Nat)
    (hinit : s.initialized = true)
    (hv : IS_PAGE_ALIGNED v = true) (hp : IS_PAGE_ALIGNED p = true)
    (hcanon : VMM_X86_64_IS_CANONICAL v = true)
    (hpml : tableVirt sp.pml4 ≠ 0)
    (hp1 : VMM_X86_64_PTE_PRESENT (s.mem sp.pml4 (VMM_X86_64_PML4_INDEX v)) = true)
    (ha1 : VMM_X86_64_PTE_ADDR (s.mem sp.pml4 (VMM_X86_64_PML4_INDEX v)) = pdpt)
    (hv1 : s.validFrame pdpt = true)
    (hp2 : VMM_X86_64_PTE_PRESENT (s.mem pdpt (VMM_X86_64_PDPT_INDEX v)) = true)
    (ha2 : VMM_X86_64_PTE_ADDR (s.mem pdpt (VMM_X86_64_PDPT_INDEX v)) = pd)
    (hv2 : s.validFrame pd = true)
    (hp3 : VMM_X86_64_PTE_PRESENT (s.mem pd (VMM_X86_64_PD_INDEX v)) = true)
    (ha3 : VMM_X86_64_PTE_ADDR (s.mem pd (VMM_X86_64_PD_INDEX v)) = pt)
    (hv3 : s.validFrame pt = true) :
    vmm_x86_64_map_pages s sp v p 1 flags =
      (true,
        { s with mem := (memSet s.mem pt (VMM_X86_64_PT_INDEX v)
            (VMM_X86_64_MAKE_PTE p (vmm_x86_64_convert_flags flags))) },
        { sp with mapped_pages := (sp.mapped_pages + 1) % 2 ^ 64 }) := by
  have hpw := walk_present_path s sp pdpt pd pt v true hpml
    hp1 ha1 hv1 hp2 ha2 hv2 hp3 ha3 hv3
  unfold vmm_x86_64_map_pages
  rw [hinit, if_neg (by decide)]
  rw [hv, hp, if_neg (by decide), hcanon, if_neg (by decide)]
  rw [map_loop_succ]
  simp only [Nat.zero_mul, Nat.add_zero]
  rw [hpw, map_step_some, map_loop_zero]
  simp only [Nat.zero_mul, Nat.add_zero]
  rw [hinit]


theorem resolve_after_overwrite (s : VmmState) (sp : VmmSpace)
    (pdpt pd pt : Nat) (v p flags off : Nat)
    (hinit : s.initialized = true)
    (hal : v % 4096 = 0) (hoff : off < 4096)
    (hpml : tableVirt sp.pml4 ≠ 0)
    (hp1 : VMM_X86_64_PTE_PRESENT (s.mem sp.pml4 (VMM_X86_64_PML4_INDEX v)) = true)
    (ha1 : VMM_X86_64_PTE_ADDR (s.mem sp.pml4 (VMM_X86_64_PML4_INDEX v)) = pdpt)
    (hv1 : s.validFrame pdpt = true)
    (hp2 : VMM_X86_64_PTE_PRESENT (s.mem pdpt (VMM_X86_64_PDPT_INDEX v)) = true)
    (ha2 : VMM_X86_64_PTE_ADDR (s.mem pdpt (VMM_X86_64_PDPT_INDEX v)) = pd)
    (hv2 : s.validFrame pd = true)
    (hp3 : VMM_X86_64_PTE_PRESENT (s.mem pd (VMM_X86_64_PD_INDEX v)) = true)
    (ha3 : VMM_X86_64_PTE_ADDR (s.mem pd (VMM_X86_64_PD_INDEX v)) = pt)
    (hv3 : s.validFrame pt = true)
    (hd1 : sp.pml4 ≠ pt) (hd2 : pdpt ≠ pt) (hd3 : pd ≠ pt)
    (hpm : p &&& VMM_X86_64_PHYS_ADDR_MASK = p) :
    vmm_x86_64_resolve
      { s with mem := (memSet s.mem pt (VMM_X86_64_PT_INDEX v)
          (VMM_X86_64_MAKE_PTE p (vmm_x86_64_convert_flags flags))) }
      { sp with mapped_pages := (sp.mapped_pages + 1) % 2 ^ 64 }
      (v + off) = some (p + off) := by
  have hw := walk_present_path
    { s with mem := (memSet s.mem pt (VMM_X86_64_PT_INDEX v)
        (VMM_X86_64_MAKE_PTE p (vmm_x86_64_convert_flags flags))) }
    { sp with mapped_pages := (sp.mapped_pages + 1) % 2 ^ 64 }
    pdpt pd pt (v + off) false
    (by show tableVirt sp.pml4 ≠ 0
        exact hpml)
    (by show VMM_X86_64_PTE_PRESENT (memSet s.mem pt (VMM_X86_64_PT_INDEX v)
          (VMM_X86_64_MAKE_PTE p (vmm_x86_64_convert_flags flags)) sp.pml4
          (VMM_X86_64_PML4_INDEX (v + off))) = true
        rw [PML4_INDEX_add hal hoff, memSet_ne (Or.inl hd1)]
        exact hp1)
    (by show VMM_X86_64_PTE_ADDR (memSet s.mem pt (VMM_X86_64_PT_INDEX v)
          (VMM_X86_64_MAKE_PTE p (vmm_x86_64_convert_flags flags)) sp.pml4
          (VMM_X86_64_PML4_INDEX (v + off))) = pdpt
        rw [PML4_INDEX_add hal hoff, memSet_ne (Or.inl hd1)]
        exact ha1)
    (by show s.validFrame pdpt = true
        exact hv1)
    (by show VMM_X86_64_PTE_PRESENT (memSet s.mem pt (VMM_X86_64_PT_INDEX v)
          (VMM_X86_64_MAKE_PTE p (vmm_x86_64_convert_flags flags)) pdpt
          (VMM_X86_64_PDPT_INDEX (v + off))) = true
        rw [PDPT_INDEX_add hal hoff, memSet_ne (Or.inl hd2)]
        exact hp2)
    (by show VMM_X86_64_PTE_ADDR (memSet s.mem pt (VMM_X86_64_PT_INDEX v)
          (VMM_X86_64_MAKE_PTE p (vmm_x86_64_convert_flags flags)) pdpt
          (VMM_X86_64_PDPT_INDEX (v + off))) = pd
        rw [PDPT_INDEX_add hal hoff, memSet_ne (Or.inl hd2)]
        exact ha2)
    (by show s.validFrame pd = true
        exact hv2)
    (by show VMM_X86_64_PTE_PRESENT (memSet s.mem pt (VMM_X86_64_PT_INDEX v)
          (VMM_X86_64_MAKE_PTE p (vmm_x86_64_convert_flags flags)) pd
          (VMM_X86_64_PD_INDEX (v + off))) = true
        rw [PD_INDEX_add hal hoff, memSet_ne (Or.inl hd3)]
        exact hp3)
    (by show VMM_X86_64_PTE_ADDR (memSet s.mem pt (VMM_X86_64_PT_INDEX v)
          (VMM_X86_64_MAKE_PTE p (vmm_x86_64_convert_flags flags)) pd
          (VMM_X86_64_PD_INDEX (v + off))) = pt
        rw [PD_INDEX_add hal hoff, memSet_ne (Or.inl hd3)]
        exact ha3)
    (by show s.validFrame pt = true
        exact hv3)
  rw [PT_INDEX_add hal hoff] at hw
  simp only [vmm_x86_64_resolve]
  rw [if_neg (by simp [hinit])]
  rw [hw, resolve_body_some]
  rw [show ({ s with mem := (memSet s.mem pt (VMM_X86_64_PT_INDEX v)
      (VMM_X86_64_MAKE_PTE p (vmm_x86_64_convert_flags flags))) } :
        VmmState).mem = memSet s.mem pt (VMM_X86_64_PT_INDEX v)
      (VMM_X86_64_MAKE_PTE p (vmm_x86_64_convert_flags flags)) from rfl]
  rw [memSet_same]
  rw [PTE_PRESENT_make p (convert_flags_and_one flags)]
  simp only [Bool.not_true, Bool.false_eq_true, if_false]
  rw [PTE_ADDR_make hpm (convert_flags_mask flags), PAGE_OFFSET_add hal hoff]
  have hple : p ≤ 0x000FFFFFFFFFF000 := by
    rw [← hpm]
    exact Nat.and_le_right
  rw [Nat.mod_eq_of_lt (by omega)]

end VMM

/-- **C6**: after a successful `pmm_init`, at every
quiescent point — that is, after any sequence of completed public PMM
operations — the cached counters satisfy
`free_pages + used_pages = total_pages`, and a full recount of the bitmap
(`pmm_check_integrity`) agrees with the cached `free_pages`/`used_pages`. -/
theorem C6_pmm_conservation (regions : List PMM.MemoryRegion)
    (ops : List PMM.PmmOp) (s : PMM.PmmState)
    (h : PMM.pmm_init regions = some s) :
    PMM.pmm_check_integrity (PMM.pmm_apply_ops s ops) = true ∧
    (PMM.pmm_apply_ops s ops).free_pages + (PMM.pmm_apply_ops s ops).used_pages =
      (PMM.pmm_apply_ops s ops).total_pages := by
  obtain ⟨hi, hfp, hup⟩ := PMM.pmmInv_apply_ops (PMM.pmmInv_init h) ops
  refine ⟨?_, ?_⟩
  · unfold PMM.pmm_check_integrity
    rw [hi]
    simp [hfp, hup]
  · rw [hfp, hup, PMM.freeBelow_add_usedBelow]

/-- Witness for C6: the concrete 8-page demo map, followed by a mixed
sequence of allocations and frees (including a failing free). -/
theorem C6_pmm_conservation_witness :
    PMM.pmm_check_integrity (PMM.pmm_apply_ops PMM.pmmDemoState
      [PMM.PmmOp.allocPage, PMM.PmmOp.allocPages 2, PMM.PmmOp.freePage 0x2000,
       PMM.PmmOp.freePage 0x2000, PMM.PmmOp.allocAligned 1 8192,
       PMM.PmmOp.allocPagesInRange 1 0x0 0x8000]) = true ∧
    (PMM.pmm_apply_ops PMM.pmmDemoState
      [PMM.PmmOp.allocPage, PMM.PmmOp.allocPages 2, PMM.PmmOp.freePage 0x2000,
       PMM.PmmOp.freePage 0x2000, PMM.PmmOp.allocAligned 1 8192,
       PMM.PmmOp.allocPagesInRange 1 0x0 0x8000]).free_pages +
    (PMM.pmm_apply_ops PMM.pmmDemoState
      [PMM.PmmOp.allocPage, PMM.PmmOp.allocPages 2, PMM.PmmOp.freePage 0x2000,
       PMM.PmmOp.freePage 0x2000, PMM.PmmOp.allocAligned 1 8192,
       PMM.PmmOp.allocPagesInRange 1 0x0 0x8000]).used_pages =
    (PMM.pmm_apply_ops PMM.pmmDemoState
      [PMM.PmmOp.allocPage, PMM.PmmOp.allocPages 2, PMM.PmmOp.freePage 0x2000,
       PMM.PmmOp.freePage 0x2000, PMM.PmmOp.allocAligned 1 8192,
       PMM.PmmOp.allocPagesInRange 1 0x0 0x8000]).total_pages :=
  C6_pmm_conservation PMM.pmmDemoRegions _ PMM.pmmDemoState PMM.pmmDemo_init

/-- **C7** (lowest-free reuse): immediately after `pmm_init`, running
`a = alloc_page(); b = alloc_page(); free_page(a); c = alloc_page()` with the
two leading allocations succeeding, the free succeeds and the third
allocation succeeds and returns the same frame as the first (`c = a`): the
free pulls the search hint back to `a`'s page index and the next scan finds
it first. -/
theorem C7_pmm_lowest_free_reuse {regions : List PMM.MemoryRegion}
    {s0 s1 s2 : PMM.PmmState} {a b : Nat}
    (h : PMM.pmm_init regions = some s0)
    (ha : PMM.pmm_alloc_page s0 = some (a, s1))
    (hb : PMM.pmm_alloc_page s1 = some (b, s2)) :
    (PMM.pmm_free_page s2 a).1 = PMM.PmmResult.success ∧
    ∃ s4, PMM.pmm_alloc_page (PMM.pmm_free_page s2 a).2 = some (a, s4) := by
  have hhint0 := PMM.init_hint_zero h
  have hpage0 := PMM.init_page0_used h
  obtain ⟨pa, haeq, hpa_lt, hpa_find, hfree0, hinit0, ht1, hi1, hf1, hh1, hu1⟩ :=
    PMM.alloc_page_succ ha
  rw [hhint0] at hpa_find
  obtain ⟨hpa_free, hpa_min⟩ := PMM.find_from_zero_min hpa_find.symm hpa_lt
  have hpa_ne0 : pa ≠ 0 := by
    intro h0
    rw [h0, hpage0] at hpa_free
    cases hpa_free
  obtain ⟨pb, hbeq, hpb_lt, hpb_find, hfree1, hinit1, ht2, hi2, hf2, hh2, hu2⟩ :=
    PMM.alloc_page_succ hb
  rw [ht1] at hpb_lt
  have hused1 : ∀ j, j ≤ pa → PMM.pmm_is_page_used_internal s1 j = true := by
    intro j hj
    rw [hu1 j]
    by_cases hje : j = pa
    · rw [if_pos ⟨hje, hpa_lt⟩]
    · rw [if_neg (by tauto)]
      exact hpa_min j (by omega)
  have hpb_gt : pa < pb := by
    by_cases hcase : pa + 1 < s0.total_pages
    · rw [hh1, if_pos hcase] at hpb_find
      unfold PMM.pmm_find_free_page_from at hpb_find
      cases hs1 : PMM.scanFree s1 (pa + 1) s1.total_pages with
      | some r =>
        simp only [hs1] at hpb_find
        obtain ⟨_, hr1, _, _⟩ := PMM.scanFreeAux_some _ _ _ hs1
        omega
      | none =>
        simp only [hs1] at hpb_find
        cases hs2 : PMM.scanFree s1 0 (pa + 1) with
        | some r =>
          simp only [hs2] at hpb_find
          obtain ⟨hrfree, _, hr2, _⟩ := PMM.scanFreeAux_some _ _ _ hs2
          have hru := hused1 r (by omega)
          rw [hru] at hrfree
          cases hrfree
        | none =>
          simp only [hs2] at hpb_find
          rw [ht1] at hpb_find
          omega
    · rw [hh1, if_neg hcase] at hpb_find
      exfalso
      unfold PMM.pmm_find_free_page_from at hpb_find
      cases hs1 : PMM.scanFree s1 0 s1.total_pages with
      | some r =>
        simp only [hs1] at hpb_find
        obtain ⟨hrfree, _, hr2, _⟩ := PMM.scanFreeAux_some _ _ _ hs1
        rw [ht1] at hr2
        have hru := hused1 r (by omega)
        rw [hru] at hrfree
        cases hrfree
      | none =>
        simp only [hs1] at hpb_find
        have hz : PMM.scanFree s1 0 0 = none := rfl
        simp only [hz] at hpb_find
        rw [ht1] at hpb_find
        omega
  -- the free of `a`
  have hpa_a : ADDR_TO_PAGE a = pa := by
    rw [haeq]
    exact PMM.shiftLeft12_shiftRight12 pa
  have hane : a ≠ 0 := by
    rw [haeq]
    intro hz
    exact hpa_ne0 (PMM.shiftLeft12_eq_zero hz)
  have hamod : a % PAGE_SIZE = 0 := by
    rw [haeq]
    exact PMM.shiftLeft12_mod pa
  have hinit2 : s2.initialized = true := by rw [hi2, hi1, hinit0]
  have hused2_pa : PMM.pmm_is_page_used_internal s2 pa = true := by
    rw [hu2 pa, if_neg (by omega)]
    exact hused1 pa (le_refl pa)
  have hlt2 : ADDR_TO_PAGE a < s2.total_pages := by
    rw [hpa_a, ht2, ht1]
    exact hpa_lt
  obtain ⟨hfr, hft, hfi, hff, hfh, hfu⟩ :=
    PMM.free_page_succ hinit2 hane hamod hlt2 (by rw [hpa_a]; exact hused2_pa)
  refine ⟨hfr, ?_⟩
  rw [hpa_a] at hfh hfu
  -- the state after the free
  have hs3init : (PMM.pmm_free_page s2 a).2.initialized = true := by
    rw [hfi]
    exact hinit2
  have hs3free : (PMM.pmm_free_page s2 a).2.free_pages ≠ 0 := by
    rw [hff]
    omega
  have hs3total : (PMM.pmm_free_page s2 a).2.total_pages = s0.total_pages := by
    rw [hft, ht2, ht1]
  have hs3pa_free : PMM.pmm_is_page_used_internal (PMM.pmm_free_page s2 a).2 pa = false := by
    rw [hfu pa, if_pos ⟨rfl, by rw [ht2, ht1]; exact hpa_lt⟩]
  have hs3_below : ∀ j, j < pa →
      PMM.pmm_is_page_used_internal (PMM.pmm_free_page s2 a).2 j = true := by
    intro j hj
    rw [hfu j, if_neg (by omega)]
    rw [hu2 j, if_neg (by omega)]
    exact hused1 j (by omega)
  -- the hint after the free, and where the next search lands
  have hfind3 : PMM.pmm_find_free_page_from (PMM.pmm_free_page s2 a).2
      (PMM.pmm_free_page s2 a).2.next_free_hint = pa := by
    have hpa_lt3 : pa < (PMM.pmm_free_page s2 a).2.total_pages := by
      rw [hs3total]
      exact hpa_lt
    rw [hfh, hh2, ht1]
    by_cases hcase : pb + 1 < s0.total_pages
    · rw [if_pos hcase, if_pos (by omega)]
      unfold PMM.pmm_find_free_page_from
      rw [PMM.scanFree_hits (le_refl pa) hpa_lt3 hs3pa_free
        (fun j hj1 hj2 => by omega)]
    · rw [if_neg hcase]
      have hzero : ¬ pa < 0 := by omega
      rw [if_neg hzero]
      unfold PMM.pmm_find_free_page_from
      rw [PMM.scanFree_hits (Nat.zero_le pa) hpa_lt3 hs3pa_free
        (fun j hj1 hj2 => hs3_below j hj2)]
  obtain ⟨s4, hs4⟩ := PMM.alloc_page_returns hs3init hs3free
    (by rw [hfind3, hs3total]; exact hpa_lt)
  rw [hfind3] at hs4
  rw [← haeq] at hs4
  exact ⟨s4, hs4⟩

/-- Witness for C7: the demo map; the first allocation returns page 2
(address `0x2000`), and after `b = alloc; free(a)` the next allocation
returns `0x2000` again. -/
theorem C7_pmm_lowest_free_reuse_witness :
    (PMM.pmm_free_page PMM.pmmDemoAlloc2.2 PMM.pmmDemoAlloc1.1).1 =
      PMM.PmmResult.success ∧
    ∃ s4, PMM.pmm_alloc_page
      (PMM.pmm_free_page PMM.pmmDemoAlloc2.2 PMM.pmmDemoAlloc1.1).2 =
        some (PMM.pmmDemoAlloc1.1, s4) :=
  C7_pmm_lowest_free_reuse PMM.pmmDemo_init
    (Option.some_get (by decide)).symm (Option.some_get (by decide)).symm


/-- Counterexample to C10 as stated: page 0 lies inside the reserved region
`[0x0, 0x2000)` of `c10Regions` and is marked used after init, yet
`pmm_free_page` on its address (`0x0`) is rejected as `PMM_INVALID_ADDRESS`
by the NULL-pointer guard, leaving the page used — so not every
reserved-region page can be freed. -/
theorem C10_pmm_free_validation_counterexample :
    PMM.pmm_is_page_used_internal PMM.c10State 0 = true ∧
    (PMM.pmm_free_page PMM.c10State 0).1 = PMM.PmmResult.invalidAddress ∧
    PMM.pmm_is_page_used_internal (PMM.pmm_free_page PMM.c10State 0).2 0 = true ∧
    PMM.pmm_is_page_free (PMM.pmm_free_page PMM.c10State 0).2 0 = false :=
  ⟨by decide, by decide, by decide, by decide⟩

/-- **C10** (amended). `pmm_free_page` validates only that the address is
non-NULL, page-aligned, in range, and currently marked used in the bitmap;
it does not distinguish pages reserved at init from allocator-owned pages.
For every state produced by `pmm_init` and every *nonzero* page `i` that
init left marked used — because it lies in no reclaimable region's
page-aligned interior (e.g. any page of a reserved region) or backs the PMM
bitmap itself — freeing its address, never returned by any allocation,
returns success and leaves the frame free for subsequent allocations. -/
theorem C10_pmm_free_validation {regions : List PMM.MemoryRegion}
    {s : PMM.PmmState} (h : PMM.pmm_init regions = some s) (i : Nat)
    (hi0 : i ≠ 0) (hi : i < s.total_pages)
    (hcase : (∀ r ∈ regions, r.type.isReclaimable = true →
        ¬ PMM.pageInInterior i r) ∨
      (∃ bs be, PMM.pmmInitBitmapPages regions = some (bs, be) ∧
        bs ≤ i ∧ i ≤ be)) :
    (PMM.pmm_free_page s (PAGE_TO_ADDR i)).1 = PMM.PmmResult.success ∧
    PMM.pmm_is_page_free (PMM.pmm_free_page s (PAGE_TO_ADDR i)).2
      (PAGE_TO_ADDR i) = true := by
  have hused := PMM.init_used_of h hi hcase
  have hinit := PMM.init_initialized h
  have hne : PAGE_TO_ADDR i ≠ 0 := fun hz => hi0 (PMM.shiftLeft12_eq_zero hz)
  have hmod : PAGE_TO_ADDR i % PAGE_SIZE = 0 := PMM.shiftLeft12_mod i
  have hpa : ADDR_TO_PAGE (PAGE_TO_ADDR i) = i := PMM.shiftLeft12_shiftRight12 i
  have hlt : ADDR_TO_PAGE (PAGE_TO_ADDR i) < s.total_pages := by
    rw [hpa]; exact hi
  obtain ⟨hr, ht, hini, _, _, hu⟩ :=
    PMM.free_page_succ hinit hne hmod hlt (by rw [hpa]; exact hused)
  refine ⟨hr, ?_⟩
  rw [hpa] at hu
  simp only [PMM.pmm_is_page_free]
  rw [hini, hinit]
  simp only [Bool.not_true, Bool.false_or, decide_eq_true_eq]
  rw [if_neg hne, if_neg (fun hc => hc (PMM.shiftLeft12_mod i))]
  rw [if_neg (by rw [ht, hpa]; omega)]
  rw [hpa, hu i, if_pos ⟨rfl, hi⟩]
  rfl

/-- Witness for C10: over the demo map, page 1 backs the PMM bitmap (no
allocation ever returns it), yet freeing address `0x1000` succeeds and the
frame becomes free. -/
theorem C10_pmm_free_validation_witness :
    (PMM.pmm_free_page PMM.pmmDemoState (PAGE_TO_ADDR 1)).1 =
      PMM.PmmResult.success ∧
    PMM.pmm_is_page_free
      (PMM.pmm_free_page PMM.pmmDemoState (PAGE_TO_ADDR 1)).2
      (PAGE_TO_ADDR 1) = true :=
  C10_pmm_free_validation PMM.pmmDemo_init 1 (by decide) (by decide)
    (Or.inr ⟨1, 1, by decide, by decide, by decide⟩)


/-- C3: in the fresh-space scenario, a successful one-page map of a
page-aligned canonical `v` to an address-field-sized aligned `p` makes
`resolve(v+off)` return `p+off` for every in-page offset, a subsequent
one-page unmap brings the mapped-page count back to zero, and after it
`resolve(v)` reports the address as not mapped. -/
theorem C3_vmm_map_resolve_unmap (v p flags : Nat)
    (hv : ZoneOS.IS_PAGE_ALIGNED v = true)
    (hp : ZoneOS.IS_PAGE_ALIGNED p = true)
    (hcanon : VMM.VMM_X86_64_IS_CANONICAL v = true)
    (hpm : p &&& VMM.VMM_X86_64_PHYS_ADDR_MASK = p) :
    (VMM.vmm_x86_64_map_pages VMM.c3State VMM.c3Space v p 1 flags).1 = true ∧
    (∀ off, off < 4096 →
      VMM.vmm_x86_64_resolve
        (VMM.vmm_x86_64_map_pages VMM.c3State VMM.c3Space v p 1 flags).2.1
        (VMM.vmm_x86_64_map_pages VMM.c3State VMM.c3Space v p 1 flags).2.2
        (v + off) = some (p + off)) ∧
    (VMM.vmm_x86_64_unmap_pages
        (VMM.vmm_x86_64_map_pages VMM.c3State VMM.c3Space v p 1 flags).2.1
        (VMM.vmm_x86_64_map_pages VMM.c3State VMM.c3Space v p 1 flags).2.2
        v 1).2.mapped_pages = 0 ∧
    VMM.vmm_x86_64_resolve
      (VMM.vmm_x86_64_unmap_pages
        (VMM.vmm_x86_64_map_pages VMM.c3State VMM.c3Space v p 1 flags).2.1
        (VMM.vmm_x86_64_map_pages VMM.c3State VMM.c3Space v p 1 flags).2.2
        v 1).1
      (VMM.vmm_x86_64_unmap_pages
        (VMM.vmm_x86_64_map_pages VMM.c3State VMM.c3Space v p 1 flags).2.1
        (VMM.vmm_x86_64_map_pages VMM.c3State VMM.c3Space v p 1 flags).2.2
        v 1).2
      v = none := by
  have hmap := VMM.c3_map_eq v p flags hv hp hcanon
  have hal := VMM.aligned_mod_4096 hv
  have hunmap := VMM.c3_unmap_eq v p flags hv
  refine ⟨?_, ?_, ?_, ?_⟩
  · rw [hmap]
  · intro off hoff
    rw [hmap]
    exact VMM.c3_resolve v p flags off hal hoff hpm
  · rw [hmap]
    show (VMM.vmm_x86_64_unmap_pages (VMM.c3Mapped v p flags)
      VMM.c3MappedSpace v 1).2.mapped_pages = 0
    rw [hunmap]
    rfl
  · rw [hmap]
    show VMM.vmm_x86_64_resolve
      (VMM.vmm_x86_64_unmap_pages (VMM.c3Mapped v p flags)
        VMM.c3MappedSpace v 1).1
      (VMM.vmm_x86_64_unmap_pages (VMM.c3Mapped v p flags)
        VMM.c3MappedSpace v 1).2
      v = none
    rw [hunmap]
    exact VMM.c3_resolve_unmapped v p flags

/-- Witness for C3: the fresh space, mapping virtual `0x40000000` to
physical `0x2000000` with READ|WRITE; `resolve(0x40000123)` returns
`0x2000123`, and after the unmap `resolve(0x40000000)` is `none`. -/
theorem C3_vmm_map_resolve_unmap_witness :
    (VMM.vmm_x86_64_map_pages VMM.c3State VMM.c3Space 0x40000000 0x2000000 1
      (VMM.VMM_FLAG_READ ||| VMM.VMM_FLAG_WRITE)).1 = true ∧
    VMM.vmm_x86_64_resolve
      (VMM.vmm_x86_64_map_pages VMM.c3State VMM.c3Space 0x40000000 0x2000000 1
        (VMM.VMM_FLAG_READ ||| VMM.VMM_FLAG_WRITE)).2.1
      (VMM.vmm_x86_64_map_pages VMM.c3State VMM.c3Space 0x40000000 0x2000000 1
        (VMM.VMM_FLAG_READ ||| VMM.VMM_FLAG_WRITE)).2.2
      (0x40000000 + 0x123) = some (0x2000000 + 0x123) ∧
    VMM.vmm_x86_64_resolve
      (VMM.vmm_x86_64_unmap_pages
        (VMM.vmm_x86_64_map_pages VMM.c3State VMM.c3Space 0x40000000 0x2000000 1
          (VMM.VMM_FLAG_READ ||| VMM.VMM_FLAG_WRITE)).2.1
        (VMM.vmm_x86_64_map_pages VMM.c3State VMM.c3Space 0x40000000 0x2000000 1
          (VMM.VMM_FLAG_READ ||| VMM.VMM_FLAG_WRITE)).2.2
        0x40000000 1).1
      (VMM.vmm_x86_64_unmap_pages
        (VMM.vmm_x86_64_map_pages VMM.c3State VMM.c3Space 0x40000000 0x2000000 1
          (VMM.VMM_FLAG_READ ||| VMM.VMM_FLAG_WRITE)).2.1
        (VMM.vmm_x86_64_map_pages VMM.c3State VMM.c3Space 0x40000000 0x2000000 1
          (VMM.VMM_FLAG_READ ||| VMM.VMM_FLAG_WRITE)).2.2
        0x40000000 1).2
      0x40000000 = none :=
  have h := C3_vmm_map_resolve_unmap 0x40000000 0x2000000
    (VMM.VMM_FLAG_READ ||| VMM.VMM_FLAG_WRITE)
    (by decide) (by decide) (by decide) (by decide)
  ⟨h.1, h.2.1 0x123 (by decide), h.2.2.2⟩

/-- C1 (amended): mapping a page whose leaf PTE is already present does
not fail — the C code logs a warning and overwrites.  Along any fully
present and valid walk path (PDPT `pdpt`, PD `pd`, PT `pt`, all distinct
from the leaf table), a second one-page map of `v` to `p` returns `true`,
replaces the leaf PTE, and `resolve(v+off)` then returns `p+off`. -/
theorem C1_vmm_double_map (s : VMM.VmmState) (sp : VMM.VmmSpace)
    (pdpt pd pt : Nat) (v p flags : Nat)
    (hinit : s.initialized = true)
    (hv : ZoneOS.IS_PAGE_ALIGNED v = true)
    (hp : ZoneOS.IS_PAGE_ALIGNED p = true)
    (hcanon : VMM.VMM_X86_64_IS_CANONICAL v = true)
    (hpml : VMM.tableVirt sp.pml4 ≠ 0)
    (hp1 : VMM.VMM_X86_64_PTE_PRESENT
      (s.mem sp.pml4 (VMM.VMM_X86_64_PML4_INDEX v)) = true)
    (ha1 : VMM.VMM_X86_64_PTE_ADDR
      (s.mem sp.pml4 (VMM.VMM_X86_64_PML4_INDEX v)) = pdpt)
    (hv1 : s.validFrame pdpt = true)
    (hp2 : VMM.VMM_X86_64_PTE_PRESENT
      (s.mem pdpt (VMM.VMM_X86_64_PDPT_INDEX v)) = true)
    (ha2 : VMM.VMM_X86_64_PTE_ADDR
      (s.mem pdpt (VMM.VMM_X86_64_PDPT_INDEX v)) = pd)
    (hv2 : s.validFrame pd = true)
    (hp3 : VMM.VMM_X86_64_PTE_PRESENT
      (s.mem pd (VMM.VMM_X86_64_PD_INDEX v)) = true)
    (ha3 : VMM.VMM_X86_64_PTE_ADDR
      (s.mem pd (VMM.VMM_X86_64_PD_INDEX v)) = pt)
    (hv3 : s.validFrame pt = true)
    (hleaf : VMM.VMM_X86_64_PTE_PRESENT
      (s.mem pt (VMM.VMM_X86_64_PT_INDEX v)) = true)
    (hd1 : sp.pml4 ≠ pt) (hd2 : pdpt ≠ pt) (hd3 : pd ≠ pt)
    (hpm : p &&& VMM.VMM_X86_64_PHYS_ADDR_MASK = p) :
    (VMM.vmm_x86_64_map_pages s sp v p 1 flags).1 = true ∧
    (VMM.vmm_x86_64_map_pages s sp v p 1 flags).2.1.mem pt
      (VMM.VMM_X86_64_PT_INDEX v) =
      VMM.VMM_X86_64_MAKE_PTE p (VMM.vmm_x86_64_convert_flags flags) ∧
    (∀ off, off < 4096 →
      VMM.vmm_x86_64_resolve (VMM.vmm_x86_64_map_pages s sp v p 1 flags).2.1
        (VMM.vmm_x86_64_map_pages s sp v p 1 flags).2.2 (v + off) =
        some (p + off)) := by
  have hal := VMM.aligned_mod_4096 hv
  have hmap := VMM.map_present_eq s sp pdpt pd pt v p flags hinit hv hp hcanon
    hpml hp1 ha1 hv1 hp2 ha2 hv2 hp3 ha3 hv3
  refine ⟨?_, ?_, ?_⟩
  · rw [hmap]
  · rw [hmap]
    show VMM.memSet s.mem pt (VMM.VMM_X86_64_PT_INDEX v)
      (VMM.VMM_X86_64_MAKE_PTE p (VMM.vmm_x86_64_convert_flags flags)) pt
      (VMM.VMM_X86_64_PT_INDEX v) = _
    exact VMM.memSet_same _ _ _ _
  · intro off hoff
    rw [hmap]
    exact VMM.resolve_after_overwrite s sp pdpt pd pt v p flags off hinit hal
      hoff hpml hp1 ha1 hv1 hp2 ha2 hv2 hp3 ha3 hv3 hd1 hd2 hd3 hpm

/-- Witness for C1: in the fresh-space scenario, after mapping
`0x40000000 → 0x2000000` the leaf is present; re-mapping the same page to
`0x5000000` returns `true`, overwrites the leaf, and
`resolve(0x40000123)` now returns `0x5000123`. -/
theorem C1_vmm_double_map_witness :
    (VMM.vmm_x86_64_map_pages VMM.c1FirstMap.2.1 VMM.c1FirstMap.2.2
      0x40000000 0x5000000 1 (VMM.VMM_FLAG_READ ||| VMM.VMM_FLAG_WRITE)).1 =
      true ∧
    (VMM.vmm_x86_64_map_pages VMM.c1FirstMap.2.1 VMM.c1FirstMap.2.2
      0x40000000 0x5000000 1 (VMM.VMM_FLAG_READ ||| VMM.VMM_FLAG_WRITE)).2.1.mem
      0x4000 (VMM.VMM_X86_64_PT_INDEX 0x40000000) =
      VMM.VMM_X86_64_MAKE_PTE 0x5000000
        (VMM.vmm_x86_64_convert_flags (VMM.VMM_FLAG_READ ||| VMM.VMM_FLAG_WRITE)) ∧
    VMM.vmm_x86_64_resolve
      (VMM.vmm_x86_64_map_pages VMM.c1FirstMap.2.1 VMM.c1FirstMap.2.2
        0x40000000 0x5000000 1 (VMM.VMM_FLAG_READ ||| VMM.VMM_FLAG_WRITE)).2.1
      (VMM.vmm_x86_64_map_pages VMM.c1FirstMap.2.1 VMM.c1FirstMap.2.2
        0x40000000 0x5000000 1 (VMM.VMM_FLAG_READ ||| VMM.VMM_FLAG_WRITE)).2.2
      (0x40000000 + 0x123) = some (0x5000000 + 0x123) :=
  have h := C1_vmm_double_map VMM.c1FirstMap.2.1 VMM.c1FirstMap.2.2
    0x2000 0x3000 0x4000 0x40000000 0x5000000
    (VMM.VMM_FLAG_READ ||| VMM.VMM_FLAG_WRITE)
    (by decide) (by decide) (by decide) (by decide) (by decide) (by decide)
    (by decide) (by decide) (by decide) (by decide) (by decide) (by decide)
    (by decide) (by decide) (by decide) (by decide) (by decide) (by decide)
    (by decide)
  ⟨h.1, h.2.1, h.2.2 0x123 (by decide)⟩

/-- Counterexample to C1 as stated: after the first map of `0x40000000`
the leaf PTE is present, yet the second map (to a different physical
address) does not fail — it returns `true` and `resolve` afterwards
reports the new physical address, not the original one. -/
theorem C1_vmm_double_map_counterexample :
    VMM.c1FirstMap.1 = true ∧
    VMM.VMM_X86_64_PTE_PRESENT (VMM.c1FirstMap.2.1.mem 0x4000
      (VMM.VMM_X86_64_PT_INDEX 0x40000000)) = true ∧
    (VMM.vmm_x86_64_map_pages VMM.c1FirstMap.2.1 VMM.c1FirstMap.2.2
      0x40000000 0x5000000 1 (VMM.VMM_FLAG_READ ||| VMM.VMM_FLAG_WRITE)).1 =
      true ∧
    VMM.vmm_x86_64_resolve
      (VMM.vmm_x86_64_map_pages VMM.c1FirstMap.2.1 VMM.c1FirstMap.2.2
        0x40000000 0x5000000 1 (VMM.VMM_FLAG_READ ||| VMM.VMM_FLAG_WRITE)).2.1
      (VMM.vmm_x86_64_map_pages VMM.c1FirstMap.2.1 VMM.c1FirstMap.2.2
        0x40000000 0x5000000 1 (VMM.VMM_FLAG_READ ||| VMM.VMM_FLAG_WRITE)).2.2
      0x40000000 = some 0x5000000 :=
  ⟨by decide, by decide, by decide, by decide⟩

set_option maxRecDepth 100000 in
/-- C2 (code bug): in the destroy-space scenario the PDPT frame `0x2000`
is reachable only through the kernel higher-half entry PML4[256] — the
user half PML4[0..256) of the created space is entirely non-present — and
it is still referenced by the kernel PML4, yet `destroy_space` frees it
back to the PMM. -/
theorem C2_vmm_destroy_frees_kernel_tables :
    ((List.range 256).all fun i => !VMM.VMM_X86_64_PTE_PRESENT
      (VMM.c2Created.2.mem VMM.c2Created.1.pml4 i)) = true ∧
    VMM.VMM_X86_64_PTE_ADDR
      (VMM.c2Created.2.mem VMM.c2Created.1.pml4 256) = 0x2000 ∧
    VMM.VMM_X86_64_PTE_ADDR
      (VMM.c2Created.2.mem VMM.c2KernelSpace.pml4 256) = 0x2000 ∧
    0x2000 ∈ VMM.vmm_x86_64_destroy_space VMM.c2Created.2 VMM.c2Created.1 :=
  ⟨by decide, by decide, by decide, by decide⟩

set_option maxRecDepth 100000 in
set_option maxHeartbeats 2000000 in
/-- **C4**: in the 1 MiB buddy scenario both 4 KiB allocations succeed
(`order_for_request 4096 = 13`, since the payload plus the block header
exceeds one 4 KiB block); after `free(a)` alone the largest free block
is `0x80000`, strictly below 1 MiB, and after `free(b)` the coalescing
chain runs back up to `BUDDY_MAX_ORDER`: the allocator again holds
exactly one free block, of the full `0x100000` bytes. -/
theorem C4_buddy_1mib_coalesce :
    Buddy.c4A.1 ≠ 0 ∧ Buddy.c4B.1 ≠ 0 ∧
    Buddy.order_for_request 4096 = 13 ∧
    Buddy.buddy_largest_free Buddy.c4FreeA = 0x80000 ∧
    Buddy.buddy_largest_free Buddy.c4FreeA < 0x100000 ∧
    Buddy.buddy_largest_free Buddy.c4FreeB = 0x100000 ∧
    Buddy.buddy_total_free Buddy.c4FreeB = 0x100000 ∧
    (Buddy.c4FreeB.free_lists.getD Buddy.BUDDY_MAX_ORDER []).length = 1 := by
  have hA : Buddy.c4FreeA = Buddy.c4FreeALit := by decide
  have hB1 : Buddy.c4B.1 = 0x102010 := by decide
  have hFB : Buddy.c4FreeB = Buddy.buddy_free Buddy.c4FreeALit 0x102010 := by
    show Buddy.buddy_free Buddy.c4FreeA Buddy.c4B.1 = _
    rw [hA, hB1]
  have hBL : Buddy.buddy_free Buddy.c4FreeALit 0x102010 = Buddy.c4FreeBLit := by
    decide
  refine ⟨by decide, by decide, by decide, ?_, ?_, ?_, ?_, ?_⟩
  · rw [hA]; decide
  · rw [hA]; decide
  · rw [hFB, hBL]; decide
  · rw [hFB, hBL]; decide
  · rw [hFB, hBL]; decide

set_option maxRecDepth 100000 in
/-- **C5** (amended): a 4 KiB slab page of a 64-byte cache holds
`SLAB_OBJECTS_PER_PAGE(64) = (4096 - 48) / 64 = 63` objects, one fewer
than the claim's 64.  In the two-page scenario all 64 allocations
succeed, the first 63 all return objects of the first slab page
`0x10000`, the 63rd moves that slab to the cache's `full` list, and the
64th allocation is served only by creating a second slab (page
`0x11000`), leaving the cache with two slabs. -/
theorem C5_slab_objects_per_page :
    Slab.SLAB_OBJECTS_PER_PAGE 64 = 63 ∧
    (Slab.c5Run.1.all fun r => r.isSome) = true ∧
    ((Slab.c5Run.1.take 63).all fun r =>
      Slab.slab_page_of (r.getD 0) == 0x10000) = true ∧
    Slab.c5Run63.2.1.full_slabs = [0x10000] ∧
    Slab.c5Run63.2.1.partial_slabs = [] ∧
    Slab.c5Run63.2.1.total_slabs = 1 ∧
    Slab.slab_page_of ((Slab.c5Run.1.getD 63 none).getD 0) = 0x11000 ∧
    Slab.c5Run.2.1.total_slabs = 2 := by
  decide

set_option maxRecDepth 100000 in
/-- Counterexample to C5 as stated: by the claim's own formula
`N = (4096 - sizeof(slab_t)) / 64` a slab holds 63 objects, fewer than
64, so the 64 allocations do not all come from one slab: the 64th
object lies on a different slab page than the first, and the cache ends
with two slabs, not one. -/
theorem C5_slab_objects_per_page_counterexample :
    Slab.SLAB_OBJECTS_PER_PAGE 64 < 64 ∧
    Slab.slab_page_of ((Slab.c5Run.1.getD 63 none).getD 0) ≠
      Slab.slab_page_of ((Slab.c5Run.1.getD 0 none).getD 0) ∧
    Slab.c5Run.2.1.total_slabs ≠ 1 := by
  decide

/-- **C8**: the defining cases of the (spec-modelled) `krealloc`, for
every heap state, byte memory, non-null `p` and nonzero `n`: with a
null pointer it is exactly `kmalloc n` (memory untouched); with
`n = 0` it frees `p` and returns NULL; otherwise, when the new
allocation yields `q`, it returns `q`, frees the old block from the
post-allocation state, and the bytes at `q .. q + min(old, n)` are the
old bytes at `p ..`; when the new allocation fails it returns NULL
without freeing `p`. -/
theorem C8_krealloc_semantics (h : Heap.HeapState) (m : Nat → Nat)
    (p old n : Nat) (hp : p ≠ 0) (hn : n ≠ 0) :
    Heap.krealloc h m 0 old n =
      ((Heap.kmalloc h n).1, (Heap.kmalloc h n).2, m) ∧
    Heap.krealloc h m p old 0 = (none, Heap.kfree h p, m) ∧
    (∀ q, (Heap.kmalloc h n).1 = some q →
      Heap.krealloc h m p old n =
        (some q, Heap.kfree (Heap.kmalloc h n).2 p,
          Heap.memcpy m q p (min old n))) ∧
    ((Heap.kmalloc h n).1 = none →
      Heap.krealloc h m p old n = (none, (Heap.kmalloc h n).2, m)) := by
  refine ⟨rfl, ?_, ?_, ?_⟩
  · unfold Heap.krealloc
    rw [if_neg hp]
    rfl
  · intro q hq
    unfold Heap.krealloc
    rw [if_neg hp, if_neg hn]
    simp only [hq]
  · intro hq
    unfold Heap.krealloc
    rw [if_neg hp, if_neg hn]
    simp only [hq]

/-- Witness for C8: over the initialized heap scenario with a constant
byte memory, `krealloc(4, 0)` frees `4` and returns NULL. -/
theorem C8_krealloc_semantics_witness :
    (4 : Nat) ≠ 0 ∧ (16 : Nat) ≠ 0 ∧
    Heap.krealloc Heap.c9Heap (fun _ => 7) 4 8 0 =
      (none, Heap.kfree Heap.c9Heap 4, fun _ => 7) :=
  ⟨by decide, by decide,
    (C8_krealloc_semantics Heap.c9Heap (fun _ => 7) 4 8 16
      (by decide) (by decide)).2.1⟩

set_option maxRecDepth 100000 in
/-- **C9**: `kcalloc` computes `total = nmemb * size` in u64 with no
overflow guard.  Over the initialized heap scenario, every pair whose
mathematical product is `≥ 2^64` but wraps to `4` behaves exactly like
the honest `kcalloc(1, 4)`: a non-null slab object is returned and only
4 bytes are zeroed — fewer than `nmemb * size`. -/
theorem C9_kcalloc_overflow (nmemb size : Nat)
    (h1 : nmemb * size % 2 ^ 64 = 4) (h2 : 2 ^ 64 ≤ nmemb * size) :
    Heap.kcalloc Heap.c9Heap nmemb size = Heap.kcalloc Heap.c9Heap 1 4 ∧
    (Heap.kcalloc Heap.c9Heap nmemb size).1.isSome = true ∧
    (Heap.kcalloc Heap.c9Heap nmemb size).2.1 = 4 ∧
    (Heap.kcalloc Heap.c9Heap nmemb size).2.1 < nmemb * size := by
  have key : Heap.kcalloc Heap.c9Heap nmemb size =
      Heap.kcalloc Heap.c9Heap 1 4 := by
    unfold Heap.kcalloc
    rw [h1]
    rfl
  have e4 : (Heap.kcalloc Heap.c9Heap 1 4).2.1 = 4 := by decide
  refine ⟨key, ?_, ?_, ?_⟩
  · rw [key]
    decide
  · rw [key, e4]
  · rw [key, e4]
    exact Nat.lt_of_lt_of_le (by decide) h2

set_option maxRecDepth 100000 in
/-- Witness for C9: `nmemb = 2^62 + 1`, `size = 4` — the product
`2^64 + 4` wraps to `4`, and `kcalloc` returns a non-null pointer with
a 4-byte `memset`. -/
theorem C9_kcalloc_overflow_witness :
    (2 ^ 62 + 1) * 4 % 2 ^ 64 = 4 ∧ 2 ^ 64 ≤ (2 ^ 62 + 1) * 4 ∧
    (Heap.kcalloc Heap.c9Heap (2 ^ 62 + 1) 4).1.isSome = true ∧
    (Heap.kcalloc Heap.c9Heap (2 ^ 62 + 1) 4).2.1 = 4 :=
  have h := C9_kcalloc_overflow (2 ^ 62 + 1) 4 (by decide) (by decide)
  ⟨by decide, by decide, h.2.1, h.2.2.1⟩

end ZoneOS
